import Mathlib

/-!
# Trade-finance chaincode: document state machines and workflow orchestrator

A shallow embedding of `billOfLading.go`, `invoice.go`, `packingList.go` and
`sbi.go`.  The ledger tables are association lists of typed rows, a Go method
`f(stub, args) ([]byte, error)` becomes a function from the store and the
argument list to a result paired with the store the call leaves behind.

Conventions.
* `[]byte` payloads and certificates are strings (the source only ever builds
  them by `[]byte(s)` and compares or returns them whole).
* `Except String (Option String)` is Go's `([]byte, error)`: `.ok none` is
  `(nil, nil)`, `.ok (some b)` is `(b, nil)` and `.error msg` is `(nil, err)`.
* The tables exist (the state after `Init`), so the table primitives of the
  ledger do not fail: every call in the source passes a key of the declared
  shape and a row of the declared columns.
* Writes are visible at once to later reads of the same call, and a call that
  returns an error hands back the store as the writes made so far left it.
* A table is kept as the list of its rows in the order they were inserted.
  `GetRow` looks a row up by its key; `GetRows` is a range scan and delivers rows
  in the order of their ledger keys, see `GetRowsBP`.
-/

namespace TradeFinance

/-! ## The ledger tables -/

/-- A row of a document table: columns `Type`, `UID`, `DocPDF`, `Status`,
the first two being the key. -/
structure DocRow where
  TypeTag : String
  UID : String
  DocPDF : String
  Status : String
deriving DecidableEq, Repr

/-- A row of `BPTable`: columns `Type`, `UID` (the key), `Status`, the four
names and the four certificates. -/
structure BPRow where
  TypeTag : String
  UID : String
  Status : String
  ImporterName : String
  ExporterName : String
  ImporterBankName : String
  ExporterBankName : String
  ImporterCert : String
  ExporterCert : String
  ImporterBankCert : String
  ExporterBankCert : String
deriving DecidableEq, Repr

/-- The key columns of a document row. -/
def DocRow.key (r : DocRow) : String × String := (r.TypeTag, r.UID)

/-- The key columns of a contract row. -/
def BPRow.key (r : BPRow) : String × String := (r.TypeTag, r.UID)

/-- Modelled from the spec: the purchase-order table `POTable` is declared in
the PO component, which is not among the sources; the spec gives every document
kind one table keyed by (type tag, contract id) holding a payload and a status.
The other four tables are the ones created by the `Init` methods. -/
structure Store where
  BPTable : List BPRow
  POTable : List DocRow
  BLTable : List DocRow
  invoiceTable : List DocRow
  PLTable : List DocRow
deriving DecidableEq, Repr

/-- The store right after `Init`: every table created, none holding a row. -/
def Store.empty : Store := ⟨[], [], [], [], []⟩

/-- Ledger primitive `stub.GetRow` on a document table: the row stored under
the key, `none` standing for the empty row returned when there is none. -/
def GetRow (table : List DocRow) (key : String × String) : Option DocRow :=
  table.find? (fun r => r.key == key)

/-- Ledger primitive `stub.InsertRow` on a document table: refuses (`false`)
when a row with the same key is present, otherwise stores the row. -/
def InsertRow (table : List DocRow) (row : DocRow) : Bool × List DocRow :=
  match GetRow table row.key with
  | some _ => (false, table)
  | none => (true, table ++ [row])

/-- Ledger primitive `stub.DeleteRow` on a document table. -/
def DeleteRow (table : List DocRow) (key : String × String) : List DocRow :=
  table.filter (fun r => !(r.key == key))

/-- Ledger primitive `stub.GetRow` on `BPTable`. -/
def GetRowBP (table : List BPRow) (key : String × String) : Option BPRow :=
  table.find? (fun r => r.key == key)

/-- Ledger primitive `stub.InsertRow` on `BPTable`. -/
def InsertRowBP (table : List BPRow) (row : BPRow) : Bool × List BPRow :=
  match GetRowBP table row.key with
  | some _ => (false, table)
  | none => (true, table ++ [row])

/-- The part of a row's ledger key that follows its table and type tag: the shim
writes a key column as its length in bytes, in decimal, followed by the column
itself.  Keys are compared byte by byte; the characters stand for their UTF-8
bytes, whose order is that of the code points. -/
def scanKey (uid : String) : List Char :=
  (toString uid.utf8ByteSize ++ uid).data

/-- Lexicographic order on keys, the order in which the ledger iterates over
them. -/
def keyLe : List Char → List Char → Bool
  | [], _ => true
  | _ :: _, [] => false
  | a :: as, b :: bs => decide (a.toNat < b.toNat) || (a.toNat == b.toNat && keyLe as bs)

/-- Ledger primitive `stub.GetRows` on `BPTable` with a one-column key.  The shim
runs a range query over the row keys, from the key prefix of the type tag followed
by "1" up to that prefix followed by ":".  It delivers the rows of that type tag
in the order of their keys.  The key of a row continues after the prefix with the
decimal length of the id, so every row with a non-empty id lies in the range, and
the row whose id is the empty string, whose key continues with "0", lies below it
and is not delivered. -/
def GetRowsBP (table : List BPRow) (typeTag : String) : List BPRow :=
  (table.filter (fun r => r.TypeTag == typeTag && r.UID != "")).insertionSort
    (fun a b => keyLe (scanKey a.UID) (scanKey b.UID) = true)

deriving instance DecidableEq for Except

/-- Go's `([]byte, error)`. -/
abbrev Bytes := Except String (Option String)

/-! ## billOfLading.go -/

/-- Method `BL.SubmitDoc`. -/
def BL.SubmitDoc (stub : Store) (args : List String) : Bytes × Store :=
  match args with
  | [UID, docPDF] =>
    match InsertRow stub.BLTable ⟨"DOC", UID, docPDF, "SUBMITTED_BY_EB"⟩ with
    | (false, _) => (.error "Document already exists.", stub)
    | (true, table) => (.ok none, { stub with BLTable := table })
  | _ => (.error "Incorrect number of arguments. Expecting 2.", stub)

/-- Method `BL.UpdateStatus`. -/
def BL.UpdateStatus (stub : Store) (args : List String) : Bytes × Store :=
  match args with
  | [UID, newStatus] =>
    match GetRow stub.BLTable ("DOC", UID) with
    | none => (.ok none, stub)
    | some row =>
      let docPDF := row.DocPDF
      let currStatus := row.Status
      let stateTransitionAllowed :=
        if currStatus = "SUBMITTED_BY_EB" ∧ newStatus = "ACCEPTED_BY_IB" then true
        else if currStatus = "SUBMITTED_BY_EB" ∧ newStatus = "REJECTED_BY_IB" then true
        else if currStatus = "ACCEPTED_BY_IB" ∧ newStatus = "PAYMENT_INITIATED" then true
        else if currStatus = "PAYMENT_INITIATED" ∧ newStatus = "PAYMENT_INPROGRESS" then true
        else if currStatus = "PAYMENT_INPROGRESS" ∧ newStatus = "PAYMENT_COMPLETED" then true
        else false
      if stateTransitionAllowed = false then
        (.error "This state transition is not allowed.", stub)
      else
        let deleted := DeleteRow stub.BLTable ("DOC", UID)
        let inserted := InsertRow deleted ⟨"DOC", UID, docPDF, newStatus⟩
        (.ok none, { stub with BLTable := inserted.2 })
  | _ => (.error "Incorrect number of arguments. Expecting 2.", stub)

/-- Method `BL.GetPDF`. -/
def BL.GetPDF (stub : Store) (args : List String) : Bytes × Store :=
  match args with
  | [UID] =>
    match GetRow stub.BLTable ("DOC", UID) with
    | none => (.ok none, stub)
    | some row => (.ok (some row.DocPDF), stub)
  | _ => (.error "Incorrect number of arguments. Expecting 1.", stub)

/-- Method `BL.GetStatus`. -/
def BL.GetStatus (stub : Store) (args : List String) : Bytes × Store :=
  match args with
  | [UID] =>
    match GetRow stub.BLTable ("DOC", UID) with
    | none => (.ok none, stub)
    | some row => (.ok (some row.Status), stub)
  | _ => (.error "Incorrect number of arguments. Expecting 1.", stub)

/-! ## invoice.go -/

/-- Method `Invoice.SubmitDoc`. -/
def Invoice.SubmitDoc (stub : Store) (args : List String) : Bytes × Store :=
  match args with
  | [UID, docPDF] =>
    match InsertRow stub.invoiceTable ⟨"DOC", UID, docPDF, "SUBMITTED_BY_EB"⟩ with
    | (false, _) => (.error "Document already exists.", stub)
    | (true, table) => (.ok none, { stub with invoiceTable := table })
  | _ => (.error "Incorrect number of arguments. Expecting 2.", stub)

/-- Method `Invoice.UpdateStatus`. -/
def Invoice.UpdateStatus (stub : Store) (args : List String) : Bytes × Store :=
  match args with
  | [UID, newStatus] =>
    match GetRow stub.invoiceTable ("DOC", UID) with
    | none => (.ok none, stub)
    | some row =>
      let docPDF := row.DocPDF
      let currStatus := row.Status
      let stateTransitionAllowed :=
        if currStatus = "SUBMITTED_BY_EB" ∧ newStatus = "ACCEPTED_BY_IB" then true
        else if currStatus = "SUBMITTED_BY_EB" ∧ newStatus = "REJECTED_BY_IB" then true
        else if currStatus = "ACCEPTED_BY_IB" ∧ newStatus = "PAYMENT_INITIATED" then true
        else if currStatus = "PAYMENT_INITIATED" ∧ newStatus = "PAYMENT_INPROGRESS" then true
        else if currStatus = "PAYMENT_INPROGRESS" ∧ newStatus = "PAYMENT_COMPLETED" then true
        else false
      if stateTransitionAllowed = false then
        (.error "This state transition is not allowed.", stub)
      else
        let deleted := DeleteRow stub.invoiceTable ("DOC", UID)
        let inserted := InsertRow deleted ⟨"DOC", UID, docPDF, newStatus⟩
        (.ok none, { stub with invoiceTable := inserted.2 })
  | _ => (.error "Incorrect number of arguments. Expecting 2.", stub)

/-- Method `Invoice.GetPDF`. -/
def Invoice.GetPDF (stub : Store) (args : List String) : Bytes × Store :=
  match args with
  | [UID] =>
    match GetRow stub.invoiceTable ("DOC", UID) with
    | none => (.ok none, stub)
    | some row => (.ok (some row.DocPDF), stub)
  | _ => (.error "Incorrect number of arguments. Expecting 1.", stub)

/-- Method `Invoice.GetStatus`. -/
def Invoice.GetStatus (stub : Store) (args : List String) : Bytes × Store :=
  match args with
  | [UID] =>
    match GetRow stub.invoiceTable ("DOC", UID) with
    | none => (.ok none, stub)
    | some row => (.ok (some row.Status), stub)
  | _ => (.error "Incorrect number of arguments. Expecting 1.", stub)

/-! ## packingList.go -/

/-- Method `PL.SubmitDoc`. -/
def PL.SubmitDoc (stub : Store) (args : List String) : Bytes × Store :=
  match args with
  | [UID, docPDF] =>
    match InsertRow stub.PLTable ⟨"DOC", UID, docPDF, "SUBMITTED_BY_EB"⟩ with
    | (false, _) => (.error "Document already exists.", stub)
    | (true, table) => (.ok none, { stub with PLTable := table })
  | _ => (.error "Incorrect number of arguments. Expecting 2.", stub)

/-- Method `PL.UpdateStatus`; its arity message reads "Expecting 3." in the source. -/
def PL.UpdateStatus (stub : Store) (args : List String) : Bytes × Store :=
  match args with
  | [UID, newStatus] =>
    match GetRow stub.PLTable ("DOC", UID) with
    | none => (.ok none, stub)
    | some row =>
      let docPDF := row.DocPDF
      let currStatus := row.Status
      let stateTransitionAllowed :=
        if currStatus = "SUBMITTED_BY_EB" ∧ newStatus = "ACCEPTED_BY_IB" then true
        else if currStatus = "SUBMITTED_BY_EB" ∧ newStatus = "REJECTED_BY_IB" then true
        else if currStatus = "ACCEPTED_BY_IB" ∧ newStatus = "PAYMENT_INITIATED" then true
        else if currStatus = "PAYMENT_INITIATED" ∧ newStatus = "PAYMENT_INPROGRESS" then true
        else if currStatus = "PAYMENT_INPROGRESS" ∧ newStatus = "PAYMENT_COMPLETED" then true
        else false
      if stateTransitionAllowed = false then
        (.error "This state transition is not allowed.", stub)
      else
        let deleted := DeleteRow stub.PLTable ("DOC", UID)
        let inserted := InsertRow deleted ⟨"DOC", UID, docPDF, newStatus⟩
        (.ok none, { stub with PLTable := inserted.2 })
  | _ => (.error "Incorrect number of arguments. Expecting 3.", stub)

/-- Method `PL.GetPDF`. -/
def PL.GetPDF (stub : Store) (args : List String) : Bytes × Store :=
  match args with
  | [UID] =>
    match GetRow stub.PLTable ("DOC", UID) with
    | none => (.ok none, stub)
    | some row => (.ok (some row.DocPDF), stub)
  | _ => (.error "Incorrect number of arguments. Expecting 1.", stub)

/-- Method `PL.GetStatus`. -/
def PL.GetStatus (stub : Store) (args : List String) : Bytes × Store :=
  match args with
  | [UID] =>
    match GetRow stub.PLTable ("DOC", UID) with
    | none => (.ok none, stub)
    | some row => (.ok (some row.Status), stub)
  | _ => (.error "Incorrect number of arguments. Expecting 1.", stub)

/-! ## The three kinds side by side -/

/-- The export-document kinds. -/
inductive DocKind
  | BL
  | Invoice
  | PL
deriving DecidableEq, Repr

/-- The table a kind owns. -/
def DocKind.table : DocKind → Store → List DocRow
  | .BL, s => s.BLTable
  | .Invoice, s => s.invoiceTable
  | .PL, s => s.PLTable

/-- The store with the table of one kind replaced. -/
def DocKind.setTable : DocKind → Store → List DocRow → Store
  | .BL, s, t => { s with BLTable := t }
  | .Invoice, s, t => { s with invoiceTable := t }
  | .PL, s, t => { s with PLTable := t }

/-- Method `SubmitDoc` of the given kind. -/
def DocKind.SubmitDoc : DocKind → Store → List String → Bytes × Store
  | .BL => BL.SubmitDoc
  | .Invoice => Invoice.SubmitDoc
  | .PL => PL.SubmitDoc

/-- Method `UpdateStatus` of the given kind. -/
def DocKind.UpdateStatus : DocKind → Store → List String → Bytes × Store
  | .BL => BL.UpdateStatus
  | .Invoice => Invoice.UpdateStatus
  | .PL => PL.UpdateStatus

/-- Method `GetPDF` of the given kind. -/
def DocKind.GetPDF : DocKind → Store → List String → Bytes × Store
  | .BL => BL.GetPDF
  | .Invoice => Invoice.GetPDF
  | .PL => PL.GetPDF

/-- Method `GetStatus` of the given kind. -/
def DocKind.GetStatus : DocKind → Store → List String → Bytes × Store
  | .BL => BL.GetStatus
  | .Invoice => Invoice.GetStatus
  | .PL => PL.GetStatus

/-- The transition graph as the specification lists it: five edges. -/
def legalEdges : List (String × String) :=
  [("SUBMITTED_BY_EB", "ACCEPTED_BY_IB"),
   ("SUBMITTED_BY_EB", "REJECTED_BY_IB"),
   ("ACCEPTED_BY_IB", "PAYMENT_INITIATED"),
   ("PAYMENT_INITIATED", "PAYMENT_INPROGRESS"),
   ("PAYMENT_INPROGRESS", "PAYMENT_COMPLETED")]

/-! ## sbi.go -/

/-- Constant `accessControlFlag`: access control is performed when the flag is true. -/
def accessControlFlag : Bool := false

/-- Struct `Contract`. -/
structure Contract where
  ContractID : String
  ContractStatus : String
deriving DecidableEq, Repr

/-- Struct `Participant`. -/
structure Participant where
  ID : String
  Role : String
deriving DecidableEq, Repr

/-- What an entry point hands back as bytes: a byte slice passed on as it is
(`none` being Go's nil) or the value given to `json.Marshal`. -/
inductive Reply
  | raw (b : Option String)
  | status (s : String)
  | numContracts (n : Nat)
  | contracts (l : List Contract)
  | participants (l : List Participant)
deriving DecidableEq, Repr

/-- Result of an entry point: Go's `([]byte, error)`, or the run-time fault
raised by `args[i]` on an argument list that is too short. -/
inductive Outcome
  | ok (r : Reply)
  | error (msg : String)
  | indexOutOfRange
deriving DecidableEq, Repr

/-- A document method's result returned unchanged by an entry point. -/
def Outcome.ofBytes : Bytes → Outcome
  | .ok b => .ok (.raw b)
  | .error msg => .error msg

/-- Go's `string(b)` on a byte slice that may be nil. -/
def bytesToString (b : Option String) : String := b.getD ""

/-- The transaction context the ledger exposes about the caller:
`GetCallerMetadata`, `GetPayload`, `GetBinding` (`none` when the getter errs)
and the verifier `VerifySignature(certificate, signature, message)`, which
returns Go's `(bool, error)`. -/
structure Caller where
  metadata : Option String
  payload : Option String
  binding : Option String
  VerifySignature : String → String → String → Bool × Option String

/-- Modelled from the spec: the purchase-order component (`t.po`) is not among
the sources.  Its three methods called by `sbi.go` are taken as given; per the
spec each document component owns its table exclusively, so they act on
`POTable` alone. -/
structure POComponent where
  SubmitDoc : List DocRow → List String → Bytes × List DocRow
  UpdatePO : List DocRow → List String → Bytes × List DocRow
  GetJSON : List DocRow → List String → Bytes × List DocRow

/-- A method of `t.po` run against the store. -/
def runPO (f : List DocRow → List String → Bytes × List DocRow) (stub : Store)
    (args : List String) : Bytes × Store :=
  ((f stub.POTable args).1, { stub with POTable := (f stub.POTable args).2 })

/-- Method `SBI.isCaller`. -/
def isCaller (caller : Caller) (stub : Store) (certificate : String) :
    (Bool × Option String) × Store :=
  match caller.metadata with
  | none => ((false, some "Failed getting metadata"), stub)
  | some sigma =>
    match caller.payload with
    | none => ((false, some "Failed getting payload"), stub)
    | some payload =>
      match caller.binding with
      | none => ((false, some "Failed getting binding"), stub)
      | some binding => (caller.VerifySignature certificate sigma (payload ++ binding), stub)

/-- Method `SBI.isCallerImporter`: checks against column 7, `ImporterCert`. -/
def isCallerImporter (caller : Caller) (stub : Store) (args : List String) :
    (Bool × Option String) × Store :=
  match args with
  | [UID] =>
    match GetRowBP stub.BPTable ("BP", UID) with
    | none => ((false, some ("Failed retrieving row with contract ID " ++ UID)), stub)
    | some row =>
      let certificate := row.ImporterCert
      match isCaller caller stub certificate with
      | ((_, some _), stub) => ((false, some "Failed checking importer's identity"), stub)
      | ((ok, none), stub) => if ok = false then ((false, none), stub) else ((true, none), stub)
  | _ => ((false, some "Incorrect number of arguments. Expecting 1."), stub)

/-- Method `SBI.isCallerExporter`: checks against column 8, `ExporterCert`. -/
def isCallerExporter (caller : Caller) (stub : Store) (args : List String) :
    (Bool × Option String) × Store :=
  match args with
  | [UID] =>
    match GetRowBP stub.BPTable ("BP", UID) with
    | none => ((false, some ("Failed retrieving row with contract ID " ++ UID)), stub)
    | some row =>
      let certificate := row.ExporterCert
      match isCaller caller stub certificate with
      | ((_, some err), stub) =>
        ((false, some ("Failed checking exporter identity " ++ err)), stub)
      | ((ok, none), stub) => if ok = false then ((false, none), stub) else ((true, none), stub)
  | _ => ((false, some "Incorrect number of arguments. Expecting 1."), stub)

/-- Method `SBI.isCallerImporterBank`: checks against column 9, `ImporterBankCert`. -/
def isCallerImporterBank (caller : Caller) (stub : Store) (args : List String) :
    (Bool × Option String) × Store :=
  match args with
  | [UID] =>
    match GetRowBP stub.BPTable ("BP", UID) with
    | none => ((false, some ("Failed retrieving row with contract ID " ++ UID)), stub)
    | some row =>
      let certificate := row.ImporterBankCert
      match isCaller caller stub certificate with
      | ((_, some _), stub) => ((false, some "Failed checking importer bank's identity"), stub)
      | ((ok, none), stub) => if ok = false then ((false, none), stub) else ((true, none), stub)
  | _ => ((false, some "Incorrect number of arguments. Expecting 1."), stub)

/-- Method `SBI.isCallerExporterBank`: checks against column 10, `ExporterBankCert`. -/
def isCallerExporterBank (caller : Caller) (stub : Store) (args : List String) :
    (Bool × Option String) × Store :=
  match args with
  | [UID] =>
    match GetRowBP stub.BPTable ("BP", UID) with
    | none => ((false, some ("Failed retrieving row with contract ID " ++ UID)), stub)
    | some row =>
      let certificate := row.ExporterBankCert
      match isCaller caller stub certificate with
      | ((_, some err), stub) =>
        ((false, some ("Failed checking exporter bank's identity " ++ err)), stub)
      | ((ok, none), stub) => if ok = false then ((false, none), stub) else ((true, none), stub)
  | _ => ((false, some "Incorrect number of arguments. Expecting 1."), stub)

/-- Method `SBI.isCallerParticipant`. -/
def isCallerParticipant (caller : Caller) (stub : Store) (args : List String) :
    (Bool × Option String) × Store :=
  match args with
  | [UID] =>
    match GetRowBP stub.BPTable ("BP", UID) with
    | none => ((false, some ("Failed retrieving row with contract ID " ++ UID)), stub)
    | some row =>
      let certificate1 := row.ImporterCert
      let certificate2 := row.ExporterCert
      let certificate3 := row.ImporterBankCert
      let certificate4 := row.ExporterBankCert
      match isCaller caller stub certificate1 with
      | ((ok1, err1), stub) =>
      match isCaller caller stub certificate2 with
      | ((ok2, err2), stub) =>
      match isCaller caller stub certificate3 with
      | ((ok3, err3), stub) =>
      match isCaller caller stub certificate4 with
      | ((ok4, err4), stub) =>
        match err1, err2, err3, err4 with
        | some e1, some e2, some e3, some e4 =>
          ((false, some (e1 ++ " " ++ e2 ++ " " ++ e3 ++ " " ++ e4)), stub)
        | _, _, _, _ =>
          if (!ok1 && !ok2 && !ok3 && !ok4) = true then ((false, none), stub)
          else ((true, none), stub)
  | _ => ((false, some "Incorrect number of arguments. Expecting 1."), stub)

/-- Method `SBI.getNumContracts`.  A row delivered by `GetRows` always has its columns,
so every delivered row is counted. -/
def getNumContracts (stub : Store) (args : List String) : Outcome × Store :=
  match args with
  | [] =>
    let rows := GetRowsBP stub.BPTable "BP"
    let contractCounter := rows.foldl (fun counter _ => counter + 1) 0
    (.ok (.numContracts contractCounter), stub)
  | _ => (.error "Incorrect number of arguments. Expecting 0.", stub)

/-- Body of the `for row := range rows` loop of `SBI.listContracts`, run over
the rows still to come with the list built so far. -/
def listContractsLoop (flag : Bool) (caller : Caller) :
    List BPRow → Store → List Contract → Outcome × Store
  | [], stub, allContracts => (.ok (.contracts allContracts), stub)
  | row :: rows, stub, allContracts =>
    let nextContract : Contract := ⟨row.UID, row.Status⟩
    match BL.GetStatus stub [nextContract.ContractID] with
    | (.error err, stub) => (.error err, stub)
    | (.ok b, stub) =>
      let nextContract : Contract :=
        if bytesToString b ≠ "" then ⟨nextContract.ContractID, bytesToString b⟩
        else nextContract
      if flag = true then
        match isCallerParticipant caller stub [nextContract.ContractID] with
        | ((_, some err), stub) => (.error err, stub)
        | ((res, none), stub) =>
          if res = true then
            listContractsLoop flag caller rows stub (allContracts ++ [nextContract])
          else listContractsLoop flag caller rows stub allContracts
      else listContractsLoop flag caller rows stub (allContracts ++ [nextContract])

/-- Method `SBI.listContracts`. -/
def listContracts (flag : Bool) (caller : Caller) (stub : Store) (args : List String) :
    Outcome × Store :=
  match args with
  | [] => listContractsLoop flag caller (GetRowsBP stub.BPTable "BP") stub []
  | _ => (.error "Incorrect number of arguments. Expecting 0.", stub)

/-- Body of the loop of `SBI.listContractsByRole`. -/
def listContractsByRoleLoop (flag : Bool) (caller : Caller) (role : String) :
    List BPRow → Store → List Contract → Outcome × Store
  | [], stub, allContracts => (.ok (.contracts allContracts), stub)
  | row :: rows, stub, allContracts =>
    let nextContract : Contract := ⟨row.UID, row.Status⟩
    match BL.GetStatus stub [nextContract.ContractID] with
    | (.error err, stub) => (.error err, stub)
    | (.ok b, stub) =>
      let nextContract : Contract :=
        if bytesToString b ≠ "" then ⟨nextContract.ContractID, bytesToString b⟩
        else nextContract
      let filtered (check : Caller → Store → List String → (Bool × Option String) × Store) :
          Outcome × Store :=
        match check caller stub [nextContract.ContractID] with
        | ((_, some err), stub) => (.error err, stub)
        | ((res, none), stub) =>
          if res = true then
            listContractsByRoleLoop flag caller role rows stub (allContracts ++ [nextContract])
          else listContractsByRoleLoop flag caller role rows stub allContracts
      if role = "Importer" ∧ flag = true then filtered isCallerImporter
      else if role = "Exporter" ∧ flag = true then filtered isCallerExporter
      else if role = "ImporterBank" ∧ flag = true then filtered isCallerImporterBank
      else if role = "ExporterBank" ∧ flag = true then filtered isCallerExporterBank
      else listContractsByRoleLoop flag caller role rows stub (allContracts ++ [nextContract])

/-- Method `SBI.listContractsByRole`. -/
def listContractsByRole (flag : Bool) (caller : Caller) (stub : Store) (args : List String) :
    Outcome × Store :=
  match args with
  | [role] =>
    if role ≠ "Importer" ∧ role ≠ "Exporter" ∧ role ≠ "ImporterBank" ∧ role ≠ "ExporterBank" then
      (.error "Role should be Importer, Exporter, ImporterBank or ExporterBank.", stub)
    else listContractsByRoleLoop flag caller role (GetRowsBP stub.BPTable "BP") stub []
  | _ => (.error "Incorrect number of arguments. Expecting 1.", stub)

/-- Body of the loop of `SBI.listEDsByStatus`. -/
def listEDsByStatusLoop (flag : Bool) (caller : Caller) (status : String) :
    List BPRow → Store → List Contract → Outcome × Store
  | [], stub, allContracts => (.ok (.contracts allContracts), stub)
  | row :: rows, stub, allContracts =>
    match BL.GetStatus stub [row.UID] with
    | (.error err, stub) => (.error err, stub)
    | (.ok b, stub) =>
      if status = bytesToString b then
        let nextContract : Contract := ⟨row.UID, bytesToString b⟩
        if flag = true then
          match isCallerParticipant caller stub [nextContract.ContractID] with
          | ((_, some err), stub) => (.error err, stub)
          | ((res, none), stub) =>
            if res = true then
              listEDsByStatusLoop flag caller status rows stub (allContracts ++ [nextContract])
            else listEDsByStatusLoop flag caller status rows stub allContracts
        else listEDsByStatusLoop flag caller status rows stub (allContracts ++ [nextContract])
      else listEDsByStatusLoop flag caller status rows stub allContracts

/-- Method `SBI.listEDsByStatus`. -/
def listEDsByStatus (flag : Bool) (caller : Caller) (stub : Store) (args : List String) :
    Outcome × Store :=
  match args with
  | [status] => listEDsByStatusLoop flag caller status (GetRowsBP stub.BPTable "BP") stub []
  | _ => (.error "Incorrect number of arguments. Expecting 1.", stub)

/-- Method `SBI.getContractParticipants`. -/
def getContractParticipants (stub : Store) (args : List String) : Outcome × Store :=
  match args with
  | [UID] =>
    match GetRowBP stub.BPTable ("BP", UID) with
    | none => (.ok (.raw none), stub)
    | some row =>
      (.ok (.participants
        [⟨row.ImporterName, "Importer"⟩, ⟨row.ExporterName, "Exporter"⟩,
         ⟨row.ImporterBankName, "ImporterBank"⟩, ⟨row.ExporterBankName, "ExporterBank"⟩]), stub)
  | _ => (.error "Incorrect number of arguments. Expecting 1.", stub)

/-- The guard that opens the access-controlled branches of `Invoke` and `Query`:
when the flag is set, run the check on `[args[0]]`, return its error or
"Access denied.", and only otherwise go on with the branch. -/
def guarded (flag : Bool) (check : Store → List String → (Bool × Option String) × Store)
    (stub : Store) (args : List String) (body : Store → Outcome × Store) : Outcome × Store :=
  if flag = true then
    match args with
    | [] => (.indexOutOfRange, stub)
    | a0 :: _ =>
      match check stub [a0] with
      | ((_, some err), stub) => (.error err, stub)
      | ((res, none), stub) =>
        if res = false then (.error "Access denied.", stub) else body stub
  else body stub

/-- The three `UpdateStatus` calls that close `acceptED` and `rejectED`:
bill of lading, invoice, packing list, stopping at the first error. -/
def updateAll (stub : Store) (args : List String) : Outcome × Store :=
  match BL.UpdateStatus stub args with
  | (.error err, stub) => (.error err, stub)
  | (.ok _, stub) =>
    match Invoice.UpdateStatus stub args with
    | (.error err, stub) => (.error err, stub)
    | (.ok _, stub) =>
      match PL.UpdateStatus stub args with
      | (.error err, stub) => (.error err, stub)
      | (.ok _, stub) => (.ok (.raw none), stub)

/-- Method `SBI.Invoke` with the access-control flag as a parameter. -/
def InvokeWith (flag : Bool) (po : POComponent) (caller : Caller) (stub : Store)
    (function : String) (args : List String) : Outcome × Store :=
  if function = "initTrade" then
    match args with
    | [UID, POJSON, importerName, exporterName, importerBankName, exporterBankName,
        importerCert, exporterCert, importerBankCert, exporterBankCert] =>
      match InsertRowBP stub.BPTable
          ⟨"BP", UID, "IN_PROGRESS", importerName, exporterName, importerBankName,
            exporterBankName, importerCert, exporterCert, importerBankCert, exporterBankCert⟩ with
      | (false, _) => (.error "Row already exists.", stub)
      | (true, table) =>
        let stub := { stub with BPTable := table }
        let r := runPO po.SubmitDoc stub [UID, POJSON]
        (Outcome.ofBytes r.1, r.2)
    | _ =>
      (.error ("Incorrect number of arguments. Expecting 10. Got: " ++ toString args.length ++ "."),
        stub)
  else if function = "updatePO" then
    match args with
    | [UID, POJSON] =>
      guarded flag (isCallerImporterBank caller) stub args fun stub =>
        let r := runPO po.UpdatePO stub [UID, POJSON]
        (Outcome.ofBytes r.1, r.2)
    | _ =>
      (.error ("Incorrect number of arguments. Expecting 2. Got: " ++ toString args.length ++ "."),
        stub)
  else if function = "submitED" then
    guarded flag (isCallerExporterBank caller) stub args fun stub =>
      match args with
      | contractID :: BLPDF :: invoicePDF :: packingListPDF :: _ =>
        let submitPL (stub : Store) : Outcome × Store :=
          if packingListPDF ≠ "" then
            match PL.SubmitDoc stub [contractID, packingListPDF] with
            | (.error err, stub) => (.error err, stub)
            | (.ok _, stub) => (.ok (.raw none), stub)
          else (.ok (.raw none), stub)
        let submitInvoice (stub : Store) : Outcome × Store :=
          if invoicePDF ≠ "" then
            match Invoice.SubmitDoc stub [contractID, invoicePDF] with
            | (.error err, stub) => (.error err, stub)
            | (.ok _, stub) => submitPL stub
          else submitPL stub
        if BLPDF ≠ "" then
          match BL.SubmitDoc stub [contractID, BLPDF] with
          | (.error err, stub) => (.error err, stub)
          | (.ok _, stub) => submitInvoice stub
        else submitInvoice stub
      | _ => (.indexOutOfRange, stub)
  else if function = "acceptED" then
    guarded flag (isCallerImporterBank caller) stub args fun stub =>
      match args with
      | [] => (.indexOutOfRange, stub)
      | a0 :: _ =>
        match BL.GetStatus stub [a0] with
        | (.error err, stub) => (.error err, stub)
        | (.ok b, stub) =>
          let args :=
            if bytesToString b = "SUBMITTED_BY_EB" then args ++ ["ACCEPTED_BY_IB"]
            else if bytesToString b = "ACCEPTED_BY_IB" then args ++ ["PAYMENT_INITIATED"]
            else if bytesToString b = "PAYMENT_INITIATED" then args ++ ["PAYMENT_INPROGRESS"]
            else if bytesToString b = "PAYMENT_INPROGRESS" then args ++ ["PAYMENT_COMPLETED"]
            else args
          updateAll stub args
  else if function = "rejectED" then
    guarded flag (isCallerImporterBank caller) stub args fun stub =>
      let args := args ++ ["REJECTED_BY_IB"]
      updateAll stub args
  else (.error "Invalid invoke function name.", stub)

/-- Method `SBI.Invoke`, as compiled. -/
def Invoke (po : POComponent) (caller : Caller) (stub : Store) (function : String)
    (args : List String) : Outcome × Store :=
  InvokeWith accessControlFlag po caller stub function args

/-- Method `SBI.Query` with the access-control flag as a parameter. -/
def QueryWith (flag : Bool) (po : POComponent) (caller : Caller) (stub : Store)
    (function : String) (args : List String) : Outcome × Store :=
  if function = "getED" then
    guarded flag (isCallerParticipant caller) stub args fun stub =>
      match args with
      | [contractID, docType] =>
        if docType ≠ "BL" ∧ docType ≠ "INVOICE" ∧ docType ≠ "PACKINGLIST" then
          (.error "Document type should be BL or INVOICE or PACKINGLIST", stub)
        else if docType = "BL" then
          let r := BL.GetPDF stub [contractID]
          (Outcome.ofBytes r.1, r.2)
        else if docType = "INVOICE" then
          let r := Invoice.GetPDF stub [contractID]
          (Outcome.ofBytes r.1, r.2)
        else if docType = "PACKINGLIST" then
          let r := PL.GetPDF stub [contractID]
          (Outcome.ofBytes r.1, r.2)
        else (.ok (.raw none), stub)
      | _ => (.error "Incorrect number of arguments. Expecting 2.", stub)
  else if function = "getPO" then
    guarded flag (isCallerParticipant caller) stub args fun stub =>
      let r := runPO po.GetJSON stub args
      (Outcome.ofBytes r.1, r.2)
  else if function = "getEDStatus" then
    guarded flag (isCallerParticipant caller) stub args fun stub =>
      match BL.GetStatus stub args with
      | (.error err, stub) => (.error err, stub)
      | (.ok b, stub) => (.ok (.status (bytesToString b)), stub)
  else if function = "getNumContracts" then getNumContracts stub args
  else if function = "listContracts" then listContracts flag caller stub args
  else if function = "listContractsByRole" then listContractsByRole flag caller stub args
  else if function = "listEDsByStatus" then listEDsByStatus flag caller stub args
  else if function = "getContractParticipants" then
    guarded flag (isCallerParticipant caller) stub args fun stub =>
      getContractParticipants stub args
  else (.error "Invalid query function name.", stub)

/-- Method `SBI.Query`, as compiled. -/
def Query (po : POComponent) (caller : Caller) (stub : Store) (function : String)
    (args : List String) : Outcome × Store :=
  QueryWith accessControlFlag po caller stub function args

/-! ## Vocabulary of the workflow properties -/

/-- The status `GetStatus([id])` of the given kind reports, `none` when the
document has no row. -/
def DocKind.statusOf (k : DocKind) (stub : Store) (id : String) : Option String :=
  (GetRow (k.table stub) ("DOC", id)).map DocRow.Status

/-- The bill of lading, the invoice and the packing list of contract `id` all
exist and all have status `s`. -/
def AllAt (stub : Store) (id s : String) : Prop :=
  DocKind.BL.statusOf stub id = some s ∧
  DocKind.Invoice.statusOf stub id = some s ∧
  DocKind.PL.statusOf stub id = some s

instance (stub : Store) (id s : String) : Decidable (AllAt stub id s) := by
  unfold AllAt
  infer_instance

/-- The map `next` of the specification of `AcceptExportDocuments`; statuses it
does not list are mapped to themselves. -/
def nextStatus (s : String) : String :=
  if s = "SUBMITTED_BY_EB" then "ACCEPTED_BY_IB"
  else if s = "ACCEPTED_BY_IB" then "PAYMENT_INITIATED"
  else if s = "PAYMENT_INITIATED" then "PAYMENT_INPROGRESS"
  else if s = "PAYMENT_INPROGRESS" then "PAYMENT_COMPLETED"
  else s

/-- No document is moved to `REJECTED_BY_IB` between `s` and `s2`: a row that
has that status in `s2` has it under the same key in `s` already. -/
def NoNewlyRejected (s s2 : Store) : Prop :=
  ∀ (j : DocKind) (key : String × String) (row2 : DocRow),
    GetRow (j.table s2) key = some row2 → row2.Status = "REJECTED_BY_IB" →
      ∃ row, GetRow (j.table s) key = some row ∧ row.Status = "REJECTED_BY_IB"

/-- The store after `n` successive `acceptED([id])` invocations. -/
def afterAccepts (po : POComponent) (caller : Caller) (id : String) : Nat → Store → Store
  | 0, stub => stub
  | n + 1, stub => (Invoke po caller (afterAccepts po caller id n stub) "acceptED" [id]).2

/-- A purchase-order component that accepts every call and stores nothing; it
stands in where a concrete store is evaluated and the purchase order plays no
part. -/
def POComponent.idle : POComponent :=
  { SubmitDoc := fun t _ => (.ok none, t)
    UpdatePO := fun t _ => (.ok none, t)
    GetJSON := fun t _ => (.ok none, t) }

/-- A caller context whose getters and verifier all fail; with access control
off it is never consulted. -/
def Caller.anonymous : Caller :=
  { metadata := none
    payload := none
    binding := none
    VerifySignature := fun _ _ _ => (false, some "no verifier") }

/-! ## Command sequences -/

/-- A command sent to `Invoke`: the function name and the argument list. -/
abbrev Command := String × List String

/-- The store after a sequence of `Invoke` calls, first command first; the
results of the calls are dropped. -/
def runCommands (po : POComponent) (caller : Caller) : Store → List Command → Store
  | stub, [] => stub
  | stub, c :: cs => runCommands po caller (Invoke po caller stub c.1 c.2).2 cs

/-- The four commands of the trade workflow. -/
def workflowFunctions : List String := ["initTrade", "submitED", "acceptED", "rejectED"]

/-- A store reachable from the empty store by workflow commands with any
arguments. -/
def Reachable (po : POComponent) (caller : Caller) (s : Store) : Prop :=
  ∃ cmds : List Command,
    (∀ c ∈ cmds, c.1 ∈ workflowFunctions) ∧ runCommands po caller Store.empty cmds = s

/-- The contract ids carried by the `initTrade` commands of a sequence that have
the ten arguments `initTrade` takes, in order of appearance, repetitions kept. -/
def initTradeIds (cmds : List Command) : List String :=
  cmds.filterMap fun c =>
    if c.1 = "initTrade" ∧ c.2.length = 10 then c.2.head? else none

/-- The contract row `initTrade` builds from its ten arguments. -/
def contractRow (UID importerName exporterName importerBankName exporterBankName
    importerCert exporterCert importerBankCert exporterBankCert : String) : BPRow :=
  ⟨"BP", UID, "IN_PROGRESS", importerName, exporterName, importerBankName, exporterBankName,
    importerCert, exporterCert, importerBankCert, exporterBankCert⟩

/-- The contract table as the workflow keeps it: every row carries the type tag
"BP" and no contract id occurs twice. -/
def ContractsWellFormed (table : List BPRow) : Prop :=
  (∀ r ∈ table, r.TypeTag = "BP") ∧ (table.map BPRow.UID).Nodup

/-- The payload `submitED` hands to the given kind. -/
def DocKind.payload (k : DocKind) (bl inv pl : String) : String :=
  match k with
  | .BL => bl
  | .Invoice => inv
  | .PL => pl

/-- A contract row with its four certificates blanked. -/
def BPRow.eraseCerts (r : BPRow) : BPRow :=
  { r with ImporterCert := "", ExporterCert := "", ImporterBankCert := "", ExporterBankCert := "" }

/-- The store with the certificates of every contract row blanked: what is left
is the document tables and, of each contract, id, status and names. -/
def Store.eraseCerts (s : Store) : Store :=
  { s with BPTable := s.BPTable.map BPRow.eraseCerts }

/-- The store with the contract table replaced. -/
def Store.withContracts (s : Store) (t : List BPRow) : Store :=
  { s with BPTable := t }

/-- The purchase-order component never answers "Access denied.". -/
def POComponent.NeverDenies (po : POComponent) : Prop :=
  ∀ (t : List DocRow) (args : List String),
    (po.SubmitDoc t args).1 ≠ .error "Access denied." ∧
    (po.UpdatePO t args).1 ≠ .error "Access denied." ∧
    (po.GetJSON t args).1 ≠ .error "Access denied."

/-! ## Histories and invariants -/

/-- The six statuses of the specification's status enumeration. -/
def documentStatuses : List String :=
  ["SUBMITTED_BY_EB", "ACCEPTED_BY_IB", "REJECTED_BY_IB", "PAYMENT_INITIATED",
    "PAYMENT_INPROGRESS", "PAYMENT_COMPLETED"]

/-- One step of a history of the ledger: a command sent to `Invoke`, or a direct
call of `SubmitDoc` or `UpdateStatus` of one document kind. -/
inductive Call
  | invoke (function : String) (args : List String)
  | submitDoc (k : DocKind) (args : List String)
  | updateStatus (k : DocKind) (args : List String)
deriving DecidableEq, Repr

/-- The store a call leaves; its result is dropped. -/
def Call.run (po : POComponent) (caller : Caller) (stub : Store) : Call → Store
  | .invoke function args => (Invoke po caller stub function args).2
  | .submitDoc k args => (k.SubmitDoc stub args).2
  | .updateStatus k args => (k.UpdateStatus stub args).2

/-- The store after a sequence of calls, first call first. -/
def runCalls (po : POComponent) (caller : Caller) : Store → List Call → Store
  | stub, [] => stub
  | stub, c :: cs => runCalls po caller (c.run po caller stub) cs

/-- Every row of the three document tables has one of the six statuses. -/
def StatusesInDomain (stub : Store) : Prop :=
  ∀ k : DocKind, ∀ r ∈ k.table stub, r.Status ∈ documentStatuses

/-- A document table as the document methods keep it: every row carries the
type tag "DOC" and no contract id occurs twice, so there is at most one row per
contract id. -/
def DocsWellFormed (table : List DocRow) : Prop :=
  (∀ r ∈ table, r.TypeTag = "DOC") ∧ (table.map DocRow.UID).Nodup

/-- The rank of the statuses: it orders `SUBMITTED_BY_EB`, `ACCEPTED_BY_IB`,
`PAYMENT_INITIATED`, `PAYMENT_INPROGRESS`, `PAYMENT_COMPLETED` in that order and
puts `REJECTED_BY_IB` above `SUBMITTED_BY_EB`. -/
def statusRank (s : String) : Nat :=
  if s = "SUBMITTED_BY_EB" then 0
  else if s = "ACCEPTED_BY_IB" then 1
  else if s = "PAYMENT_INITIATED" then 2
  else if s = "PAYMENT_INPROGRESS" then 3
  else if s = "PAYMENT_COMPLETED" then 4
  else if s = "REJECTED_BY_IB" then 1
  else 0

/-- The store after a sequence of `UpdateStatus` calls of one kind, given by
their argument lists, first call first. -/
def runUpdates (k : DocKind) : Store → List (List String) → Store
  | stub, [] => stub
  | stub, a :: rest => runUpdates k (k.UpdateStatus stub a).2 rest

/-- The number of calls in a sequence of `UpdateStatus` calls of one kind after
which the status of the document of contract `id` is not what it was before the
call. -/
def statusChanges (k : DocKind) (id : String) : Store → List (List String) → Nat
  | _, [] => 0
  | stub, a :: rest =>
    (if k.statusOf (k.UpdateStatus stub a).2 id = k.statusOf stub id then 0 else 1) +
      statusChanges k id (k.UpdateStatus stub a).2 rest

/-- The export documents of contract `id` are in lockstep: none of the bill of
lading, the invoice and the packing list has a row, or all three have one and
with the same status. -/
def Lockstep (stub : Store) (id : String) : Prop :=
  (∀ k : DocKind, k.statusOf stub id = none) ∨ ∃ c, AllAt stub id c

/-- The argument list gives `submitED` its three payloads (`args[1]`, `args[2]`,
`args[3]`) and none of them is empty. -/
def ThreePayloads : List String → Prop
  | _ :: bl :: inv :: pl :: _ => bl ≠ "" ∧ inv ≠ "" ∧ pl ≠ ""
  | _ => False

instance (args : List String) : Decidable (ThreePayloads args) := by
  unfold ThreePayloads
  split <;> infer_instance

/-! ## Sample stores -/

/-- A store holding the three export documents of contract "1000", all three
as `SubmitDoc` leaves them. -/
def Store.submitted : Store :=
  { BPTable := []
    POTable := []
    BLTable := [⟨"DOC", "1000", "BLPDF", "SUBMITTED_BY_EB"⟩]
    invoiceTable := [⟨"DOC", "1000", "INPDF", "SUBMITTED_BY_EB"⟩]
    PLTable := [⟨"DOC", "1000", "PLPDF", "SUBMITTED_BY_EB"⟩] }

/-- Three workflow commands for contract "1000": the bill of lading is
submitted alone and accepted, then the invoice and the packing list are
submitted. -/
def divergingCommands : List Command :=
  [("submitED", ["1000", "BLPDF", "", ""]),
   ("acceptED", ["1000"]),
   ("submitED", ["1000", "", "INPDF", "PLPDF"])]

/-- The store `divergingCommands` leads to from the empty store. -/
def Store.diverged : Store :=
  { BPTable := []
    POTable := []
    BLTable := [⟨"DOC", "1000", "BLPDF", "ACCEPTED_BY_IB"⟩]
    invoiceTable := [⟨"DOC", "1000", "INPDF", "SUBMITTED_BY_EB"⟩]
    PLTable := [⟨"DOC", "1000", "PLPDF", "SUBMITTED_BY_EB"⟩] }

/-- A store holding contract "1000" of the test scenario and nothing else. -/
def Store.initiated : Store :=
  { BPTable := [contractRow "1000" "I" "E" "IB" "EB" "ICert" "ECert" "IBCert" "EBCert"]
    POTable := []
    BLTable := []
    invoiceTable := []
    PLTable := [] }

/-- The store `Store.initiated` with other certificates in the contract row. -/
def Store.recertified : Store :=
  { BPTable := [contractRow "1000" "I" "E" "IB" "EB" "ICert2" "ECert2" "IBCert2" "EBCert2"]
    POTable := []
    BLTable := []
    invoiceTable := []
    PLTable := [] }

/-- A store with three contracts: "1000" paid up to `PAYMENT_INITIATED`, "1001"
rejected, "1002" initiated with no export document yet. -/
def Store.audited : Store :=
  { BPTable :=
      [contractRow "1000" "I" "E" "IB" "EB" "ICert" "ECert" "IBCert" "EBCert",
       contractRow "1001" "I" "E" "IB" "EB" "ICert" "ECert" "IBCert" "EBCert",
       contractRow "1002" "I" "E" "IB" "EB" "ICert" "ECert" "IBCert" "EBCert"]
    POTable := []
    BLTable :=
      [⟨"DOC", "1000", "BLPDF", "PAYMENT_INITIATED"⟩, ⟨"DOC", "1001", "BLPDF", "REJECTED_BY_IB"⟩]
    invoiceTable :=
      [⟨"DOC", "1000", "INPDF", "PAYMENT_INITIATED"⟩, ⟨"DOC", "1001", "INPDF", "REJECTED_BY_IB"⟩]
    PLTable :=
      [⟨"DOC", "1000", "PLPDF", "PAYMENT_INITIATED"⟩, ⟨"DOC", "1001", "PLPDF", "REJECTED_BY_IB"⟩] }

/-- A caller context whose getters succeed and whose verifier accepts exactly
the certificate "IBCert". -/
def Caller.importerBank : Caller :=
  { metadata := some "sigma"
    payload := some "payload"
    binding := some "binding"
    VerifySignature := fun certificate _ _ => (decide (certificate = "IBCert"), none) }

/-! ## Table lemmas -/

theorem mem_getRowsBP {t : List BPRow} {tag : String} {r : BPRow} :
    r ∈ GetRowsBP t tag ↔ r ∈ t ∧ r.TypeTag = tag ∧ r.UID ≠ "" := by
  unfold GetRowsBP
  rw [List.mem_insertionSort, List.mem_filter]
  simp

theorem getRowsBP_perm (t : List BPRow) (tag : String) :
    (GetRowsBP t tag).Perm (t.filter fun r => r.TypeTag == tag && r.UID != "") :=
  List.perm_insertionSort _ _

theorem length_getRowsBP (t : List BPRow) (tag : String) :
    (GetRowsBP t tag).length = (t.filter fun r => r.TypeTag == tag && r.UID != "").length :=
  (getRowsBP_perm t tag).length_eq

theorem keyLe_total : ∀ a b : List Char, keyLe a b = true ∨ keyLe b a = true
  | [], _ => Or.inl rfl
  | _ :: _, [] => Or.inr rfl
  | a :: as, b :: bs => by
    simp only [keyLe, Bool.or_eq_true, decide_eq_true_eq, Bool.and_eq_true, beq_iff_eq]
    rcases Nat.lt_trichotomy a.toNat b.toNat with h | h | h
    · exact Or.inl (Or.inl h)
    · rcases keyLe_total as bs with h2 | h2
      · exact Or.inl (Or.inr ⟨h, h2⟩)
      · exact Or.inr (Or.inr ⟨h.symm, h2⟩)
    · exact Or.inr (Or.inl h)

theorem keyLe_trans : ∀ a b c : List Char, keyLe a b = true → keyLe b c = true →
    keyLe a c = true
  | [], _, _, _, _ => rfl
  | _ :: _, [], _, h, _ => by simp [keyLe] at h
  | _ :: _, _ :: _, [], _, h => by simp [keyLe] at h
  | a :: as, b :: bs, c :: cs, h1, h2 => by
    simp only [keyLe, Bool.or_eq_true, decide_eq_true_eq, Bool.and_eq_true, beq_iff_eq]
      at h1 h2 ⊢
    rcases h1 with h1 | ⟨e1, h1⟩
    · rcases h2 with h2 | ⟨e2, h2⟩
      · exact Or.inl (by omega)
      · exact Or.inl (by omega)
    · rcases h2 with h2 | ⟨e2, h2⟩
      · exact Or.inl (by omega)
      · exact Or.inr ⟨by omega, keyLe_trans as bs cs h1 h2⟩

/-- The rows `GetRows` delivers come in the order of their keys. -/
theorem getRowsBP_sorted (t : List BPRow) (tag : String) :
    (GetRowsBP t tag).Sorted fun a b => keyLe (scanKey a.UID) (scanKey b.UID) = true := by
  haveI : IsTotal BPRow (fun a b => keyLe (scanKey a.UID) (scanKey b.UID) = true) :=
    ⟨fun a b => keyLe_total _ _⟩
  haveI : IsTrans BPRow (fun a b => keyLe (scanKey a.UID) (scanKey b.UID) = true) :=
    ⟨fun a b c => keyLe_trans _ _ _⟩
  exact List.sorted_insertionSort _ _

theorem getRowsBP_singleton (r : BPRow) (tag : String) :
    GetRowsBP [r] tag = if r.TypeTag = tag ∧ r.UID ≠ "" then [r] else [] := by
  unfold GetRowsBP
  by_cases h : r.TypeTag = tag ∧ r.UID ≠ ""
  · rw [if_pos h]
    simp [List.filter_cons, h.1, h.2, List.insertionSort, List.orderedInsert]
  · rw [if_neg h]
    have : (r.TypeTag == tag && r.UID != "") = false := by
      rw [Bool.eq_false_iff]
      intro hb
      apply h
      simpa using hb
    simp [List.filter_cons, this, List.insertionSort]

theorem getRow_deleteRow_self (t : List DocRow) (k : String × String) :
    GetRow (DeleteRow t k) k = none := by
  simp [GetRow, DeleteRow, List.find?_eq_none]

theorem insertRow_of_absent {t : List DocRow} {r : DocRow} (h : GetRow t r.key = none) :
    InsertRow t r = (true, t ++ [r]) := by
  simp [InsertRow, h]

theorem insertRow_of_present {t : List DocRow} {r : DocRow} (r0 : DocRow)
    (h : GetRow t r.key = some r0) :
    InsertRow t r = (false, t) := by
  simp [InsertRow, h]

theorem getRow_append_of_absent {t : List DocRow} {r : DocRow} (h : GetRow t r.key = none) :
    GetRow (t ++ [r]) r.key = some r := by
  unfold GetRow at h ⊢
  rw [List.find?_append, h]
  simp

theorem getRow_append_new (t : List DocRow) (ty id p st : String)
    (h : GetRow t (ty, id) = none) :
    GetRow (t ++ [⟨ty, id, p, st⟩]) (ty, id) = some ⟨ty, id, p, st⟩ :=
  @getRow_append_of_absent t ⟨ty, id, p, st⟩ h

theorem getRow_key {t : List DocRow} {k : String × String} {r : DocRow}
    (h : GetRow t k = some r) : r.key = k := by
  have := List.find?_some h
  simpa using this

theorem insertRow_after_delete (t : List DocRow) (r : DocRow) :
    InsertRow (DeleteRow t r.key) r = (true, DeleteRow t r.key ++ [r]) :=
  insertRow_of_absent (getRow_deleteRow_self t r.key)

theorem getRow_replaced (t : List DocRow) (r : DocRow) :
    GetRow (DeleteRow t r.key ++ [r]) r.key = some r :=
  getRow_append_of_absent (getRow_deleteRow_self t r.key)

theorem getRow_deleteRow_other (t : List DocRow) {k j : String × String} (hk : k ≠ j) :
    GetRow (DeleteRow t j) k = GetRow t k := by
  unfold GetRow DeleteRow
  induction t with
  | nil => rfl
  | cons a t ih =>
    by_cases ha : a.key = j
    · subst ha
      have hak : (a.key == k) = false := by simpa using fun h => hk h.symm
      simp [List.filter_cons, List.find?_cons, hak, ih]
    · by_cases hak : a.key = k
      · subst hak
        simp [List.filter_cons, List.find?_cons, ha]
      · have hak2 : (a.key == k) = false := by simpa using hak
        simp [List.filter_cons, List.find?_cons, ha, hak2, ih]

theorem getRow_replaced_other (t : List DocRow) (r : DocRow) {k : String × String}
    (hk : k ≠ r.key) : GetRow (DeleteRow t r.key ++ [r]) k = GetRow t k := by
  have h1 : (r.key == k) = false := by simpa using fun h => hk h.symm
  have h2 : GetRow (DeleteRow t r.key ++ [r]) k = GetRow (DeleteRow t r.key) k := by
    unfold GetRow
    rw [List.find?_append]
    simp [h1]
  rw [h2, getRow_deleteRow_other t hk]

theorem others_after_replace (t : List DocRow) (r : DocRow) :
    (DeleteRow t r.key ++ [r]).filter (fun x => !(x.key == r.key)) =
      t.filter (fun x => !(x.key == r.key)) := by
  simp [DeleteRow, List.filter_append, List.filter_filter]

theorem transition_chain (c n : String) :
    (if c = "SUBMITTED_BY_EB" ∧ n = "ACCEPTED_BY_IB" then true
      else if c = "SUBMITTED_BY_EB" ∧ n = "REJECTED_BY_IB" then true
      else if c = "ACCEPTED_BY_IB" ∧ n = "PAYMENT_INITIATED" then true
      else if c = "PAYMENT_INITIATED" ∧ n = "PAYMENT_INPROGRESS" then true
      else if c = "PAYMENT_INPROGRESS" ∧ n = "PAYMENT_COMPLETED" then true
      else false) = decide ((c, n) ∈ legalEdges) := by
  simp only [legalEdges, List.mem_cons, Prod.mk.injEq, List.mem_singleton, List.not_mem_nil,
    or_false]
  split_ifs <;> simp_all

/-! ## The document methods in closed form -/

theorem DocKind.table_setTable (k : DocKind) (s : Store) (t : List DocRow) :
    k.table (k.setTable s t) = t := by
  cases k <;> rfl

theorem DocKind.table_setTable_ne {k j : DocKind} (h : j ≠ k) (s : Store) (t : List DocRow) :
    j.table (k.setTable s t) = j.table s := by
  cases k <;> cases j <;> first | rfl | exact absurd rfl h

theorem DocKind.BPTable_setTable (k : DocKind) (s : Store) (t : List DocRow) :
    (k.setTable s t).BPTable = s.BPTable := by
  cases k <;> rfl

theorem DocKind.POTable_setTable (k : DocKind) (s : Store) (t : List DocRow) :
    (k.setTable s t).POTable = s.POTable := by
  cases k <;> rfl

theorem DocKind.setTable_table (k : DocKind) (s : Store) : k.setTable s (k.table s) = s := by
  cases k <;> rfl

theorem DocKind.updateStatus_found (k : DocKind) {stub : Store} {UID : String} (n : String)
    {row : DocRow} (h : GetRow (k.table stub) ("DOC", UID) = some row) :
    k.UpdateStatus stub [UID, n] =
      if (row.Status, n) ∈ legalEdges then
        (.ok none, k.setTable stub
          (DeleteRow (k.table stub) ("DOC", UID) ++ [⟨"DOC", UID, row.DocPDF, n⟩]))
      else (.error "This state transition is not allowed.", stub) := by
  have hins := insertRow_after_delete (k.table stub) ⟨"DOC", UID, row.DocPDF, n⟩
  simp only [DocRow.key] at hins
  cases k <;>
    simp only [DocKind.UpdateStatus, DocKind.table, DocKind.setTable, BL.UpdateStatus,
      Invoice.UpdateStatus, PL.UpdateStatus] at h hins ⊢ <;>
    simp only [h, hins, transition_chain] <;>
    by_cases hm : (row.Status, n) ∈ legalEdges <;> simp [hm]

theorem DocKind.updateStatus_absent (k : DocKind) {stub : Store} {UID : String} (n : String)
    (h : GetRow (k.table stub) ("DOC", UID) = none) :
    k.UpdateStatus stub [UID, n] = (.ok none, stub) := by
  cases k <;>
    simp only [DocKind.UpdateStatus, DocKind.table, BL.UpdateStatus, Invoice.UpdateStatus,
      PL.UpdateStatus] at h ⊢ <;>
    simp only [h]

theorem DocKind.updateStatus_arity (k : DocKind) (stub : Store) {args : List String}
    (h : args.length ≠ 2) :
    k.UpdateStatus stub args =
      (.error (if k = .PL then "Incorrect number of arguments. Expecting 3."
        else "Incorrect number of arguments. Expecting 2."), stub) := by
  match args, h with
  | [], _ => cases k <;> rfl
  | [_], _ => cases k <;> rfl
  | [_, _], h => exact absurd rfl h
  | _ :: _ :: _ :: _, _ => cases k <;> rfl

theorem DocKind.getStatus_one (k : DocKind) (stub : Store) (UID : String) :
    k.GetStatus stub [UID] =
      (.ok ((GetRow (k.table stub) ("DOC", UID)).map DocRow.Status), stub) := by
  cases k <;>
    simp only [DocKind.GetStatus, DocKind.table, BL.GetStatus, Invoice.GetStatus,
      PL.GetStatus] <;>
    split <;> simp_all

theorem DocKind.getPDF_one (k : DocKind) (stub : Store) (UID : String) :
    k.GetPDF stub [UID] =
      (.ok ((GetRow (k.table stub) ("DOC", UID)).map DocRow.DocPDF), stub) := by
  cases k <;>
    simp only [DocKind.GetPDF, DocKind.table, BL.GetPDF, Invoice.GetPDF, PL.GetPDF] <;>
    split <;> simp_all

theorem DocKind.submitDoc_absent (k : DocKind) {stub : Store} {UID : String} (p : String)
    (h : GetRow (k.table stub) ("DOC", UID) = none) :
    k.SubmitDoc stub [UID, p] =
      (.ok none, k.setTable stub (k.table stub ++ [⟨"DOC", UID, p, "SUBMITTED_BY_EB"⟩])) := by
  have hins : InsertRow (k.table stub) ⟨"DOC", UID, p, "SUBMITTED_BY_EB"⟩ = _ :=
    insertRow_of_absent (by simpa [DocRow.key] using h)
  cases k <;>
    simp only [DocKind.SubmitDoc, DocKind.table, DocKind.setTable, BL.SubmitDoc,
      Invoice.SubmitDoc, PL.SubmitDoc] at hins ⊢ <;>
    simp only [hins]

theorem DocKind.submitDoc_present (k : DocKind) {stub : Store} {UID : String} (p : String)
    {row : DocRow} (h : GetRow (k.table stub) ("DOC", UID) = some row) :
    k.SubmitDoc stub [UID, p] = (.error "Document already exists.", stub) := by
  have hins : InsertRow (k.table stub) ⟨"DOC", UID, p, "SUBMITTED_BY_EB"⟩ = _ :=
    insertRow_of_present row (by simpa [DocRow.key] using h)
  cases k <;>
    simp only [DocKind.SubmitDoc, DocKind.table, BL.SubmitDoc, Invoice.SubmitDoc,
      PL.SubmitDoc] at hins ⊢ <;>
    simp only [hins]

/-! ## The orchestrator in closed form (access control off, as compiled) -/

theorem DocKind.statusOf_getStatus (k : DocKind) (stub : Store) (id : String) :
    k.GetStatus stub [id] = (.ok (k.statusOf stub id), stub) :=
  k.getStatus_one stub id

theorem DocKind.statusOf_setTable_ne {k j : DocKind} (h : j ≠ k) (s : Store) (t : List DocRow)
    (id : String) : j.statusOf (k.setTable s t) id = j.statusOf s id := by
  unfold DocKind.statusOf
  rw [DocKind.table_setTable_ne h]

theorem DocKind.updateStatus_legal (k : DocKind) {stub : Store} {id c n : String}
    (hc : k.statusOf stub id = some c) (hm : (c, n) ∈ legalEdges) :
    ∃ t, k.UpdateStatus stub [id, n] = (.ok none, k.setTable stub t) ∧
      (GetRow t ("DOC", id)).map DocRow.Status = some n := by
  unfold DocKind.statusOf at hc
  cases hrow : GetRow (k.table stub) ("DOC", id) with
  | none => rw [hrow] at hc; cases hc
  | some row =>
    rw [hrow] at hc
    simp only [Option.map_some', Option.some.injEq] at hc
    subst hc
    refine ⟨_, by rw [k.updateStatus_found n hrow, if_pos hm], ?_⟩
    have := getRow_replaced (k.table stub) ⟨"DOC", id, row.DocPDF, n⟩
    simp only [DocRow.key] at this
    rw [this]
    rfl

theorem updateAll_eq (stub : Store) (args : List String) :
    updateAll stub args =
      match DocKind.BL.UpdateStatus stub args with
      | (.error err, stub) => (.error err, stub)
      | (.ok _, stub) =>
        match DocKind.Invoice.UpdateStatus stub args with
        | (.error err, stub) => (.error err, stub)
        | (.ok _, stub) =>
          match DocKind.PL.UpdateStatus stub args with
          | (.error err, stub) => (.error err, stub)
          | (.ok _, stub) => (.ok (.raw none), stub) := rfl

theorem updateAll_legal {stub : Store} {id c n : String} (h : AllAt stub id c)
    (hm : (c, n) ∈ legalEdges) :
    (updateAll stub [id, n]).1 = .ok (.raw none) ∧ AllAt (updateAll stub [id, n]).2 id n := by
  obtain ⟨hb, hi, hp⟩ := h
  obtain ⟨t1, e1, g1⟩ := DocKind.BL.updateStatus_legal hb hm
  have hi1 : DocKind.Invoice.statusOf (DocKind.BL.setTable stub t1) id = some c := by
    rw [DocKind.statusOf_setTable_ne (by decide)]; exact hi
  obtain ⟨t2, e2, g2⟩ := DocKind.Invoice.updateStatus_legal hi1 hm
  have hp2 : DocKind.PL.statusOf (DocKind.Invoice.setTable (DocKind.BL.setTable stub t1) t2) id
      = some c := by
    rw [DocKind.statusOf_setTable_ne (by decide), DocKind.statusOf_setTable_ne (by decide)]
    exact hp
  obtain ⟨t3, e3, g3⟩ := DocKind.PL.updateStatus_legal hp2 hm
  have e : updateAll stub [id, n] =
      (.ok (.raw none),
        DocKind.PL.setTable (DocKind.Invoice.setTable (DocKind.BL.setTable stub t1) t2) t3) := by
    rw [updateAll_eq, e1]
    simp only [e2, e3]
  rw [e]
  refine ⟨rfl, ?_, ?_, ?_⟩
  · rw [DocKind.statusOf_setTable_ne (by decide), DocKind.statusOf_setTable_ne (by decide)]
    unfold DocKind.statusOf
    rw [DocKind.table_setTable]
    exact g1
  · rw [DocKind.statusOf_setTable_ne (by decide)]
    unfold DocKind.statusOf
    rw [DocKind.table_setTable]
    exact g2
  · unfold DocKind.statusOf
    rw [DocKind.table_setTable]
    exact g3

theorem updateAll_arity (stub : Store) {args : List String} (h : args.length ≠ 2) :
    updateAll stub args = (.error "Incorrect number of arguments. Expecting 2.", stub) := by
  rw [updateAll_eq, DocKind.updateStatus_arity _ _ h]
  rfl

theorem invoke_acceptED (po : POComponent) (caller : Caller) (stub : Store) (id : String) :
    Invoke po caller stub "acceptED" [id] =
      updateAll stub
        (if bytesToString (DocKind.BL.statusOf stub id) = "SUBMITTED_BY_EB" then
          [id, "ACCEPTED_BY_IB"]
        else if bytesToString (DocKind.BL.statusOf stub id) = "ACCEPTED_BY_IB" then
          [id, "PAYMENT_INITIATED"]
        else if bytesToString (DocKind.BL.statusOf stub id) = "PAYMENT_INITIATED" then
          [id, "PAYMENT_INPROGRESS"]
        else if bytesToString (DocKind.BL.statusOf stub id) = "PAYMENT_INPROGRESS" then
          [id, "PAYMENT_COMPLETED"]
        else [id]) := by
  have h := DocKind.BL.statusOf_getStatus stub id
  simp only [DocKind.GetStatus] at h
  simp [Invoke, InvokeWith, guarded, accessControlFlag, h]

theorem invoke_rejectED (po : POComponent) (caller : Caller) (stub : Store)
    (args : List String) :
    Invoke po caller stub "rejectED" args = updateAll stub (args ++ ["REJECTED_BY_IB"]) := by
  simp [Invoke, InvokeWith, guarded, accessControlFlag]

theorem query_getEDStatus (po : POComponent) (caller : Caller) (stub : Store) (id : String) :
    Query po caller stub "getEDStatus" [id] =
      (.ok (.status (bytesToString (DocKind.BL.statusOf stub id))), stub) := by
  have h := DocKind.BL.statusOf_getStatus stub id
  simp only [DocKind.GetStatus] at h
  simp [Query, QueryWith, guarded, accessControlFlag, h]

theorem allAt_getStatus {stub : Store} {id c : String} (h : AllAt stub id c) (k : DocKind) :
    (k.GetStatus stub [id]).1 = .ok (some c) := by
  rw [k.statusOf_getStatus]
  obtain ⟨hb, hi, hp⟩ := h
  cases k
  · rw [hb]
  · rw [hi]
  · rw [hp]

theorem invoke_submitED_fresh_eq (po : POComponent) (caller : Caller) {stub : Store}
    {id bl inv pl : String} (hbl : bl ≠ "") (hinv : inv ≠ "") (hpl : pl ≠ "")
    (habsent : ∀ k : DocKind, GetRow (k.table stub) ("DOC", id) = none) :
    Invoke po caller stub "submitED" [id, bl, inv, pl] =
      (.ok (.raw none),
        { stub with
          BLTable := stub.BLTable ++ [⟨"DOC", id, bl, "SUBMITTED_BY_EB"⟩]
          invoiceTable := stub.invoiceTable ++ [⟨"DOC", id, inv, "SUBMITTED_BY_EB"⟩]
          PLTable := stub.PLTable ++ [⟨"DOC", id, pl, "SUBMITTED_BY_EB"⟩] }) := by
  have h1 : InsertRow stub.BLTable ⟨"DOC", id, bl, "SUBMITTED_BY_EB"⟩ = _ :=
    insertRow_of_absent (by simpa [DocRow.key] using habsent .BL)
  have h2 : InsertRow stub.invoiceTable ⟨"DOC", id, inv, "SUBMITTED_BY_EB"⟩ = _ :=
    insertRow_of_absent (by simpa [DocRow.key] using habsent .Invoice)
  have h3 : InsertRow stub.PLTable ⟨"DOC", id, pl, "SUBMITTED_BY_EB"⟩ = _ :=
    insertRow_of_absent (by simpa [DocRow.key] using habsent .PL)
  simp [Invoke, InvokeWith, guarded, accessControlFlag, hbl, hinv, hpl, BL.SubmitDoc,
    Invoice.SubmitDoc, PL.SubmitDoc, h1, h2, h3]

theorem invoke_submitED_fresh (po : POComponent) (caller : Caller) {stub : Store}
    {id bl inv pl : String} (hbl : bl ≠ "") (hinv : inv ≠ "") (hpl : pl ≠ "")
    (habsent : ∀ k : DocKind, GetRow (k.table stub) ("DOC", id) = none) :
    (Invoke po caller stub "submitED" [id, bl, inv, pl]).1 = .ok (.raw none) ∧
      AllAt (Invoke po caller stub "submitED" [id, bl, inv, pl]).2 id "SUBMITTED_BY_EB" := by
  rw [invoke_submitED_fresh_eq po caller hbl hinv hpl habsent]
  refine ⟨rfl, ?_, ?_, ?_⟩
  · have := getRow_append_new _ "DOC" id bl "SUBMITTED_BY_EB" (habsent .BL)
    simp only [DocKind.table] at this
    simp [DocKind.statusOf, DocKind.table, this]
  · have := getRow_append_new _ "DOC" id inv "SUBMITTED_BY_EB" (habsent .Invoice)
    simp only [DocKind.table] at this
    simp [DocKind.statusOf, DocKind.table, this]
  · have := getRow_append_new _ "DOC" id pl "SUBMITTED_BY_EB" (habsent .PL)
    simp only [DocKind.table] at this
    simp [DocKind.statusOf, DocKind.table, this]

theorem acceptED_of_allAt (po : POComponent) (caller : Caller) {stub : Store} {id s : String}
    (h : AllAt stub id s)
    (hs : s ∈ ["SUBMITTED_BY_EB", "ACCEPTED_BY_IB", "PAYMENT_INITIATED", "PAYMENT_INPROGRESS"]) :
    (Invoke po caller stub "acceptED" [id]).1 = .ok (.raw none) ∧
      AllAt (Invoke po caller stub "acceptED" [id]).2 id (nextStatus s) := by
  have hb : bytesToString (DocKind.BL.statusOf stub id) = s := by rw [h.1]; rfl
  rw [invoke_acceptED, hb]
  simp only [List.mem_cons, List.mem_singleton, List.not_mem_nil, or_false] at hs
  rcases hs with rfl | rfl | rfl | rfl
  · exact updateAll_legal h (by decide)
  · exact updateAll_legal h (by decide)
  · exact updateAll_legal h (by decide)
  · exact updateAll_legal h (by decide)

theorem acceptED_of_no_next (po : POComponent) (caller : Caller) {stub : Store} {id : String}
    (h : bytesToString (DocKind.BL.statusOf stub id) ∉
      ["SUBMITTED_BY_EB", "ACCEPTED_BY_IB", "PAYMENT_INITIATED", "PAYMENT_INPROGRESS"]) :
    Invoke po caller stub "acceptED" [id] =
      (.error "Incorrect number of arguments. Expecting 2.", stub) := by
  simp only [List.mem_cons, List.mem_singleton, List.not_mem_nil, or_false, not_or] at h
  rw [invoke_acceptED, if_neg h.1, if_neg h.2.1, if_neg h.2.2.1, if_neg h.2.2.2]
  exact updateAll_arity stub (by simp)

theorem noNewlyRejected_refl (s : Store) : NoNewlyRejected s s :=
  fun _ _ row2 h hr => ⟨row2, h, hr⟩

theorem noNewlyRejected_trans {s1 s2 s3 : Store} (h12 : NoNewlyRejected s1 s2)
    (h23 : NoNewlyRejected s2 s3) : NoNewlyRejected s1 s3 := by
  intro j key row3 h hr
  obtain ⟨row2, h2, hr2⟩ := h23 j key row3 h hr
  exact h12 j key row2 h2 hr2

theorem DocKind.updateStatus_noNewlyRejected (k : DocKind) (stub : Store) (args : List String)
    (hargs : ∀ id n, args = [id, n] → n ≠ "REJECTED_BY_IB") :
    NoNewlyRejected stub (k.UpdateStatus stub args).2 := by
  by_cases hlen : args.length = 2
  · obtain ⟨id, n, rfl⟩ : ∃ a b, args = [a, b] := by
      match args, hlen with
      | [a, b], _ => exact ⟨a, b, rfl⟩
    have hn := hargs id n rfl
    cases hrow : GetRow (k.table stub) ("DOC", id) with
    | none => rw [k.updateStatus_absent n hrow]; exact noNewlyRejected_refl stub
    | some row =>
      rw [k.updateStatus_found n hrow]
      by_cases hm : (row.Status, n) ∈ legalEdges
      · rw [if_pos hm]
        intro j key row2 h hr
        by_cases hj : j = k
        · subst hj
          rw [DocKind.table_setTable] at h
          by_cases hk : key = ("DOC", id)
          · subst hk
            have hrep := getRow_replaced (j.table stub) ⟨"DOC", id, row.DocPDF, n⟩
            simp only [DocRow.key] at hrep
            rw [hrep] at h
            cases h
            exact absurd hr hn
          · have hoth := getRow_replaced_other (j.table stub) ⟨"DOC", id, row.DocPDF, n⟩
              (k := key) hk
            simp only [DocRow.key] at hoth
            rw [hoth] at h
            exact ⟨row2, h, hr⟩
        · rw [DocKind.table_setTable_ne hj] at h
          exact ⟨row2, h, hr⟩
      · rw [if_neg hm]; exact noNewlyRejected_refl stub
  · rw [k.updateStatus_arity stub hlen]; exact noNewlyRejected_refl stub

theorem updateAll_noNewlyRejected (stub : Store) (args : List String)
    (hargs : ∀ id n, args = [id, n] → n ≠ "REJECTED_BY_IB") :
    NoNewlyRejected stub (updateAll stub args).2 := by
  have h1 := DocKind.BL.updateStatus_noNewlyRejected stub args hargs
  have h2 := DocKind.Invoice.updateStatus_noNewlyRejected
    (DocKind.BL.UpdateStatus stub args).2 args hargs
  have h3 := DocKind.PL.updateStatus_noNewlyRejected
    (DocKind.Invoice.UpdateStatus (DocKind.BL.UpdateStatus stub args).2 args).2 args hargs
  rw [updateAll_eq]
  rcases e1 : DocKind.BL.UpdateStatus stub args with ⟨r1, s1⟩
  rw [e1] at h1 h2 h3
  cases r1 with
  | error err => exact h1
  | ok b1 =>
    simp only
    rcases e2 : DocKind.Invoice.UpdateStatus s1 args with ⟨r2, s2⟩
    rw [e2] at h2 h3
    cases r2 with
    | error err => exact noNewlyRejected_trans h1 h2
    | ok b2 =>
      simp only
      rcases e3 : DocKind.PL.UpdateStatus s2 args with ⟨r3, s3⟩
      rw [e3] at h3
      cases r3 with
      | error err => exact noNewlyRejected_trans h1 (noNewlyRejected_trans h2 h3)
      | ok b3 => exact noNewlyRejected_trans h1 (noNewlyRejected_trans h2 h3)

theorem afterAccepts_of_refused (po : POComponent) (caller : Caller) {stub : Store}
    {id : String} (h : (Invoke po caller stub "acceptED" [id]).2 = stub) (n : Nat) :
    afterAccepts po caller id n stub = stub := by
  induction n with
  | zero => rfl
  | succ n ih => rw [afterAccepts, ih, h]

/-! ## The document state machines -/

/-- C1: for each document kind and every id whose row exists with current status
`c`, `UpdateStatus([id, n])` succeeds exactly when `(c, n)` is one of the five
listed edges, and `GetStatus([id])` then returns `n`; every other pair fails
with the illegal-transition error, in particular every self-loop and every pair
leaving `REJECTED_BY_IB` or `PAYMENT_COMPLETED`. -/
theorem updateStatus_succeeds_iff_legal_edge (k : DocKind) (stub : Store) (id c n : String)
    (row : DocRow) (hrow : GetRow (k.table stub) ("DOC", id) = some row)
    (hc : row.Status = c) :
    ((k.UpdateStatus stub [id, n]).1 = .ok none ↔ (c, n) ∈ legalEdges) ∧
    ((c, n) ∈ legalEdges →
      (k.GetStatus (k.UpdateStatus stub [id, n]).2 [id]).1 = .ok (some n)) ∧
    ((c, n) ∉ legalEdges →
      (k.UpdateStatus stub [id, n]).1 = .error "This state transition is not allowed.") ∧
    (k.UpdateStatus stub [id, c]).1 = .error "This state transition is not allowed." ∧
    ((c = "REJECTED_BY_IB" ∨ c = "PAYMENT_COMPLETED") →
      (k.UpdateStatus stub [id, n]).1 = .error "This state transition is not allowed.") := by
  subst hc
  have hnot : (row.Status, n) ∉ legalEdges →
      (k.UpdateStatus stub [id, n]).1 = .error "This state transition is not allowed." := by
    intro hm
    rw [k.updateStatus_found n hrow, if_neg hm]
  refine ⟨?_, ?_, hnot, ?_, ?_⟩
  · rw [k.updateStatus_found n hrow]
    by_cases hm : (row.Status, n) ∈ legalEdges <;> simp [hm]
  · intro hm
    rw [k.updateStatus_found n hrow, if_pos hm, k.getStatus_one, k.table_setTable]
    have := getRow_replaced (k.table stub) ⟨"DOC", id, row.DocPDF, n⟩
    simp only [DocRow.key] at this
    simp [this]
  · have hm : (row.Status, row.Status) ∉ legalEdges := by
      simp only [legalEdges, List.mem_cons, Prod.mk.injEq, List.mem_singleton, List.not_mem_nil,
        or_false]
      rintro (⟨h1, h2⟩ | ⟨h1, h2⟩ | ⟨h1, h2⟩ | ⟨h1, h2⟩ | ⟨h1, h2⟩) <;>
        rw [h1] at h2 <;> simp at h2
    rw [k.updateStatus_found row.Status hrow, if_neg hm]
  · intro hterm
    apply hnot
    simp only [legalEdges, List.mem_cons, Prod.mk.injEq, List.mem_singleton, List.not_mem_nil,
      or_false]
    rcases hterm with h | h <;> rw [h] <;> simp

/-- Witness for C1: the bill of lading of contract "1000", just submitted, is
accepted. -/
theorem updateStatus_succeeds_iff_legal_edge_witness :
    GetRow (DocKind.BL.table Store.submitted) ("DOC", "1000") =
        some ⟨"DOC", "1000", "BLPDF", "SUBMITTED_BY_EB"⟩ ∧
      ((DocKind.BL.UpdateStatus Store.submitted ["1000", "ACCEPTED_BY_IB"]).1 = .ok none ↔
        ("SUBMITTED_BY_EB", "ACCEPTED_BY_IB") ∈ legalEdges) :=
  ⟨by decide,
    (updateStatus_succeeds_iff_legal_edge .BL Store.submitted "1000" "SUBMITTED_BY_EB"
      "ACCEPTED_BY_IB" ⟨"DOC", "1000", "BLPDF", "SUBMITTED_BY_EB"⟩ (by decide) rfl).1⟩

/-- C2: for each document kind, whenever `UpdateStatus` returns an error (which
is the illegal-transition error or the argument-count error), the store after the
call is the store before it: no row of any table is deleted or changed. -/
theorem updateStatus_error_keeps_store (k : DocKind) (stub : Store) (args : List String)
    (msg : String) (h : (k.UpdateStatus stub args).1 = .error msg) :
    (k.UpdateStatus stub args).2 = stub ∧
    (msg = "This state transition is not allowed." ∨ args.length ≠ 2) := by
  by_cases hlen : args.length = 2
  · obtain ⟨UID, n, rfl⟩ : ∃ a b, args = [a, b] := by
      match args, hlen with
      | [a, b], _ => exact ⟨a, b, rfl⟩
    cases hrow : GetRow (k.table stub) ("DOC", UID) with
    | none => rw [k.updateStatus_absent n hrow] at h; simp at h
    | some row =>
      rw [k.updateStatus_found n hrow] at h ⊢
      by_cases hm : (row.Status, n) ∈ legalEdges
      · simp [hm] at h
      · rw [if_neg hm] at h ⊢
        refine ⟨rfl, Or.inl ?_⟩
        simpa using h.symm
  · rw [k.updateStatus_arity stub hlen]
    exact ⟨rfl, Or.inr hlen⟩

/-- Witness for C2: paying a document that was only submitted is refused and
nothing is written. -/
theorem updateStatus_error_keeps_store_witness :
    (DocKind.Invoice.UpdateStatus Store.submitted ["1000", "PAYMENT_COMPLETED"]).1 =
        .error "This state transition is not allowed." ∧
      (DocKind.Invoice.UpdateStatus Store.submitted ["1000", "PAYMENT_COMPLETED"]).2 =
        Store.submitted :=
  ⟨by decide,
    (updateStatus_error_keeps_store .Invoice Store.submitted ["1000", "PAYMENT_COMPLETED"]
      "This state transition is not allowed." (by decide)).1⟩

/-- C3, counterexample: on the empty store `BL.UpdateStatus(["1000",
"ACCEPTED_BY_IB"])` finds no row and returns `(nil, nil)`, not an error. -/
theorem updateStatus_absent_is_not_an_error :
    GetRow Store.empty.BLTable ("DOC", "1000") = none ∧
      BL.UpdateStatus Store.empty ["1000", "ACCEPTED_BY_IB"] = (.ok none, Store.empty) ∧
      ¬ ∃ msg, (BL.UpdateStatus Store.empty ["1000", "ACCEPTED_BY_IB"]).1 = .error msg := by
  refine ⟨by decide, by decide, ?_⟩
  rintro ⟨msg, h⟩
  have h2 : (BL.UpdateStatus Store.empty ["1000", "ACCEPTED_BY_IB"]).1 = .ok none := by decide
  rw [h2] at h
  cases h

/-- C3, amended: for each document kind, `UpdateStatus([id, n])` called when no
row exists for `id` returns success with a nil result and leaves the store as it
was. -/
theorem updateStatus_absent_succeeds (k : DocKind) (stub : Store) (id n : String)
    (h : GetRow (k.table stub) ("DOC", id) = none) :
    k.UpdateStatus stub [id, n] = (.ok none, stub) :=
  k.updateStatus_absent n h

/-- Witness for C3, amended: rejecting the packing list of an unknown
contract. -/
theorem updateStatus_absent_succeeds_witness :
    GetRow (DocKind.PL.table Store.submitted) ("DOC", "2000") = none ∧
      DocKind.PL.UpdateStatus Store.submitted ["2000", "REJECTED_BY_IB"] =
        (.ok none, Store.submitted) :=
  ⟨by decide, updateStatus_absent_succeeds .PL Store.submitted "2000" "REJECTED_BY_IB"
    (by decide)⟩

/-- C4: for each document kind, a successful `UpdateStatus([id, n])` changes only
the status column of the row keyed ("DOC", id) in that kind's table: `GetPDF([id])`
returns what it returned before, the row under the key is the old row with status
`n` (and nothing at all changes when there is no such row), the rows under other
keys of the same table are the same rows in the same order, and the other two
document tables, the contract table and the purchase-order table are unchanged. -/
theorem updateStatus_frame (k : DocKind) (stub : Store) (id n : String) (b : Option String)
    (h : (k.UpdateStatus stub [id, n]).1 = .ok b) :
    (k.GetPDF (k.UpdateStatus stub [id, n]).2 [id]).1 = (k.GetPDF stub [id]).1 ∧
    (∀ row, GetRow (k.table stub) ("DOC", id) = some row →
      GetRow (k.table (k.UpdateStatus stub [id, n]).2) ("DOC", id) =
        some { row with Status := n }) ∧
    (GetRow (k.table stub) ("DOC", id) = none → (k.UpdateStatus stub [id, n]).2 = stub) ∧
    (∀ key, key ≠ ("DOC", id) →
      GetRow (k.table (k.UpdateStatus stub [id, n]).2) key = GetRow (k.table stub) key) ∧
    (k.table (k.UpdateStatus stub [id, n]).2).filter (fun r => !(r.key == ("DOC", id))) =
      (k.table stub).filter (fun r => !(r.key == ("DOC", id))) ∧
    (∀ j : DocKind, j ≠ k → j.table (k.UpdateStatus stub [id, n]).2 = j.table stub) ∧
    (k.UpdateStatus stub [id, n]).2.BPTable = stub.BPTable ∧
    (k.UpdateStatus stub [id, n]).2.POTable = stub.POTable := by
  cases hrow : GetRow (k.table stub) ("DOC", id) with
  | none =>
    rw [k.updateStatus_absent n hrow]
    simp [hrow]
  | some row =>
    rw [k.updateStatus_found n hrow] at h ⊢
    by_cases hm : (row.Status, n) ∈ legalEdges
    · simp only [if_pos hm]
      have hkey := getRow_key hrow
      have hrep := getRow_replaced (k.table stub) ⟨"DOC", id, row.DocPDF, n⟩
      have hoth := others_after_replace (k.table stub) ⟨"DOC", id, row.DocPDF, n⟩
      have hget : ∀ key, key ≠ ("DOC", id) → _ := fun key hk =>
        getRow_replaced_other (k.table stub) ⟨"DOC", id, row.DocPDF, n⟩ (k := key) hk
      simp only [DocRow.key] at hrep hoth hget
      simp only [DocRow.key, Prod.mk.injEq] at hkey
      refine ⟨?_, ?_, ?_, ?_, ?_, ?_, ?_, ?_⟩
      · rw [k.getPDF_one, k.getPDF_one, k.table_setTable, hrep, hrow]
        rfl
      · intro row1 h1
        cases h1
        rw [k.table_setTable, hrep]
        cases row
        simp only at hkey
        simp [hkey.1, hkey.2]
      · intro h1; cases h1
      · intro key hk
        rw [k.table_setTable]
        exact hget key hk
      · rw [k.table_setTable]; exact hoth
      · intro j hj; exact DocKind.table_setTable_ne hj _ _
      · exact k.BPTable_setTable _ _
      · exact k.POTable_setTable _ _
    · rw [if_neg hm] at h
      cases h

/-- Witness for C4: accepting the submitted invoice of contract "1000". -/
theorem updateStatus_frame_witness :
    (DocKind.Invoice.UpdateStatus Store.submitted ["1000", "ACCEPTED_BY_IB"]).1 = .ok none ∧
      (DocKind.Invoice.GetPDF
          (DocKind.Invoice.UpdateStatus Store.submitted ["1000", "ACCEPTED_BY_IB"]).2
          ["1000"]).1 =
        (DocKind.Invoice.GetPDF Store.submitted ["1000"]).1 :=
  ⟨by decide,
    (updateStatus_frame .Invoice Store.submitted "1000" "ACCEPTED_BY_IB" none (by decide)).1⟩

/-- C5: for each document kind, every id with no existing row and every payload
`p`: `SubmitDoc([id, p])` succeeds and `GetStatus([id])` then returns exactly
"SUBMITTED_BY_EB". -/
theorem submitDoc_then_getStatus (k : DocKind) (stub : Store) (id p : String)
    (h : GetRow (k.table stub) ("DOC", id) = none) :
    (k.SubmitDoc stub [id, p]).1 = .ok none ∧
    (k.GetStatus (k.SubmitDoc stub [id, p]).2 [id]).1 = .ok (some "SUBMITTED_BY_EB") := by
  rw [k.submitDoc_absent p h, k.getStatus_one, k.table_setTable]
  rw [getRow_append_new _ "DOC" id p "SUBMITTED_BY_EB" h]
  simp

/-- Witness for C5: the first bill of lading submitted to the empty store. -/
theorem submitDoc_then_getStatus_witness :
    GetRow (DocKind.BL.table Store.empty) ("DOC", "1000") = none ∧
      (DocKind.BL.GetStatus (DocKind.BL.SubmitDoc Store.empty ["1000", "BLPDF"]).2
        ["1000"]).1 = .ok (some "SUBMITTED_BY_EB") :=
  ⟨by decide, (submitDoc_then_getStatus .BL Store.empty "1000" "BLPDF" (by decide)).2⟩

/-- C6: for each document kind, if a row for `id` already exists, whatever its
status, `SubmitDoc([id, p2])` fails with the already-exists error and leaves the
store as it was: `GetPDF([id])` still returns the first payload and
`GetStatus([id])` the status the row had. -/
theorem submitDoc_existing_rejected (k : DocKind) (stub : Store) (id p2 : String)
    (row : DocRow) (h : GetRow (k.table stub) ("DOC", id) = some row) :
    k.SubmitDoc stub [id, p2] = (.error "Document already exists.", stub) ∧
    (k.GetPDF (k.SubmitDoc stub [id, p2]).2 [id]).1 = .ok (some row.DocPDF) ∧
    (k.GetStatus (k.SubmitDoc stub [id, p2]).2 [id]).1 = .ok (some row.Status) := by
  rw [k.submitDoc_present p2 h, k.getPDF_one, k.getStatus_one, h]
  simp

/-- Witness for C6: a second packing list for contract "1000". -/
theorem submitDoc_existing_rejected_witness :
    GetRow (DocKind.PL.table Store.submitted) ("DOC", "1000") =
        some ⟨"DOC", "1000", "PLPDF", "SUBMITTED_BY_EB"⟩ ∧
      DocKind.PL.SubmitDoc Store.submitted ["1000", "OTHER"] =
        (.error "Document already exists.", Store.submitted) :=
  ⟨by decide,
    (submitDoc_existing_rejected .PL Store.submitted "1000" "OTHER"
      ⟨"DOC", "1000", "PLPDF", "SUBMITTED_BY_EB"⟩ (by decide)).1⟩

/-- C7, counterexample: on the empty store `BL.SubmitDoc(["", "BLPDF"])` and
`BL.SubmitDoc(["1000", ""])` both succeed and insert a row. -/
theorem submitDoc_accepts_empty_strings :
    BL.SubmitDoc Store.empty ["", "BLPDF"] =
        (.ok none, { Store.empty with BLTable := [⟨"DOC", "", "BLPDF", "SUBMITTED_BY_EB"⟩] }) ∧
      BL.SubmitDoc Store.empty ["1000", ""] =
        (.ok none, { Store.empty with BLTable := [⟨"DOC", "1000", "", "SUBMITTED_BY_EB"⟩] }) := by
  constructor <;> decide

/-- C7, amended: for each document kind, `SubmitDoc` fails with the
argument-count error and inserts no row when it is not given exactly two
arguments; given two arguments it does not look at whether they are empty, so an
empty id or payload with no row under that id is submitted like any other. -/
theorem submitDoc_checks_arity_only (k : DocKind) (stub : Store) :
    (∀ args : List String, args.length ≠ 2 →
      k.SubmitDoc stub args = (.error "Incorrect number of arguments. Expecting 2.", stub)) ∧
    (∀ id p : String, GetRow (k.table stub) ("DOC", id) = none →
      k.SubmitDoc stub [id, p] =
        (.ok none, k.setTable stub (k.table stub ++ [⟨"DOC", id, p, "SUBMITTED_BY_EB"⟩]))) := by
  constructor
  · intro args h
    match args, h with
    | [], _ => cases k <;> rfl
    | [_], _ => cases k <;> rfl
    | [_, _], h => exact absurd rfl h
    | _ :: _ :: _ :: _, _ => cases k <;> rfl
  · intro id p h
    exact k.submitDoc_absent p h

/-- Witness for C7, amended: one argument is refused, an empty payload is
stored. -/
theorem submitDoc_checks_arity_only_witness :
    DocKind.Invoice.SubmitDoc Store.empty ["1000"] =
        (.error "Incorrect number of arguments. Expecting 2.", Store.empty) ∧
      DocKind.Invoice.SubmitDoc Store.empty ["1000", ""] =
        (.ok none, DocKind.Invoice.setTable Store.empty
          (DocKind.Invoice.table Store.empty ++ [⟨"DOC", "1000", "", "SUBMITTED_BY_EB"⟩])) :=
  ⟨(submitDoc_checks_arity_only .Invoice Store.empty).1 ["1000"] (by decide),
    (submitDoc_checks_arity_only .Invoice Store.empty).2 "1000" "" (by decide)⟩

/-! ## The workflow orchestrator -/

/-- C8: when `submitED([id, bl, inv, pl])` with three non-empty payloads runs on
a store holding none of the three documents of `id`, it succeeds; the next four
`acceptED([id])` calls all succeed, `getEDStatus([id])` reports in turn
`ACCEPTED_BY_IB`, `PAYMENT_INITIATED`, `PAYMENT_INPROGRESS`, `PAYMENT_COMPLETED`
and `GetStatus` of every kind reports that same status after each call; the fifth
`acceptED([id])` returns an error and leaves the store, hence the three statuses
`PAYMENT_COMPLETED`, as it was. -/
theorem four_accepts_then_refusal (po : POComponent) (caller : Caller) (stub : Store)
    (id bl inv pl : String) (hbl : bl ≠ "") (hinv : inv ≠ "") (hpl : pl ≠ "")
    (habsent : ∀ k : DocKind, GetRow (k.table stub) ("DOC", id) = none) :
    (Invoke po caller stub "submitED" [id, bl, inv, pl]).1 = .ok (.raw none) ∧
    (∀ n, n < 4 →
      (Invoke po caller
        (afterAccepts po caller id n (Invoke po caller stub "submitED" [id, bl, inv, pl]).2)
        "acceptED" [id]).1 = .ok (.raw none)) ∧
    (∀ n s, (n, s) ∈ [(1, "ACCEPTED_BY_IB"), (2, "PAYMENT_INITIATED"),
        (3, "PAYMENT_INPROGRESS"), (4, "PAYMENT_COMPLETED")] →
      (Query po caller
        (afterAccepts po caller id n (Invoke po caller stub "submitED" [id, bl, inv, pl]).2)
        "getEDStatus" [id]).1 = .ok (.status s) ∧
      ∀ k : DocKind,
        (k.GetStatus
          (afterAccepts po caller id n (Invoke po caller stub "submitED" [id, bl, inv, pl]).2)
          [id]).1 = .ok (some s)) ∧
    Invoke po caller
        (afterAccepts po caller id 4 (Invoke po caller stub "submitED" [id, bl, inv, pl]).2)
        "acceptED" [id] =
      (.error "Incorrect number of arguments. Expecting 2.",
        afterAccepts po caller id 4 (Invoke po caller stub "submitED" [id, bl, inv, pl]).2) := by
  obtain ⟨hsub, h0⟩ := invoke_submitED_fresh po caller hbl hinv hpl habsent
  generalize (Invoke po caller stub "submitED" [id, bl, inv, pl]).2 = s0 at h0 ⊢
  obtain ⟨ok1, h1⟩ := acceptED_of_allAt po caller h0 (by decide)
  have h1a : AllAt (afterAccepts po caller id 1 s0) id "ACCEPTED_BY_IB" := h1
  obtain ⟨ok2, h2⟩ := acceptED_of_allAt po caller h1a (by decide)
  have h2a : AllAt (afterAccepts po caller id 2 s0) id "PAYMENT_INITIATED" := h2
  obtain ⟨ok3, h3⟩ := acceptED_of_allAt po caller h2a (by decide)
  have h3a : AllAt (afterAccepts po caller id 3 s0) id "PAYMENT_INPROGRESS" := h3
  obtain ⟨ok4, h4⟩ := acceptED_of_allAt po caller h3a (by decide)
  have h4a : AllAt (afterAccepts po caller id 4 s0) id "PAYMENT_COMPLETED" := h4
  have report : ∀ (t : Store) (s : String), AllAt t id s →
      (Query po caller t "getEDStatus" [id]).1 = .ok (.status s) ∧
      ∀ k : DocKind, (k.GetStatus t [id]).1 = .ok (some s) := by
    intro t s ht
    refine ⟨?_, allAt_getStatus ht⟩
    rw [query_getEDStatus, ht.1]
    rfl
  refine ⟨hsub, ?_, ?_, ?_⟩
  · intro n hn
    match n, hn with
    | 0, _ => exact ok1
    | 1, _ => exact ok2
    | 2, _ => exact ok3
    | 3, _ => exact ok4
  · intro n s hns
    simp only [List.mem_cons, Prod.mk.injEq, List.mem_singleton, List.not_mem_nil,
      or_false] at hns
    rcases hns with ⟨rfl, rfl⟩ | ⟨rfl, rfl⟩ | ⟨rfl, rfl⟩ | ⟨rfl, rfl⟩
    · exact report _ _ h1a
    · exact report _ _ h2a
    · exact report _ _ h3a
    · exact report _ _ h4a
  · apply acceptED_of_no_next
    rw [h4a.1]
    decide

/-- Witness for C8: contract "1000" of the test scenario on the empty store. -/
theorem four_accepts_then_refusal_witness :
    (∀ k : DocKind, GetRow (k.table Store.empty) ("DOC", "1000") = none) ∧
      (Query POComponent.idle Caller.anonymous
        (afterAccepts POComponent.idle Caller.anonymous "1000" 2
          (Invoke POComponent.idle Caller.anonymous Store.empty "submitED"
            ["1000", "BLPDF", "INPDF", "PLPDF"]).2)
        "getEDStatus" ["1000"]).1 = .ok (.status "PAYMENT_INITIATED") :=
  ⟨fun k => by cases k <;> decide,
    ((four_accepts_then_refusal POComponent.idle Caller.anonymous Store.empty "1000" "BLPDF"
      "INPDF" "PLPDF" (by decide) (by decide) (by decide)
      (fun k => by cases k <;> decide)).2.2.1 2 "PAYMENT_INITIATED" (by decide)).1⟩

/-- C9: when the three documents of `id` are all at `SUBMITTED_BY_EB`,
`rejectED([id])` succeeds, `getEDStatus([id])` then reports `REJECTED_BY_IB` and
so does `GetStatus` of every kind; every `acceptED([id])` issued afterwards, however
many, returns an error and leaves the store, hence the three statuses, as
`rejectED` left it. -/
theorem reject_then_accept_refused (po : POComponent) (caller : Caller) (stub : Store)
    (id : String) (h : AllAt stub id "SUBMITTED_BY_EB") :
    (Invoke po caller stub "rejectED" [id]).1 = .ok (.raw none) ∧
    (Query po caller (Invoke po caller stub "rejectED" [id]).2 "getEDStatus" [id]).1 =
      .ok (.status "REJECTED_BY_IB") ∧
    (∀ k : DocKind,
      (k.GetStatus (Invoke po caller stub "rejectED" [id]).2 [id]).1 =
        .ok (some "REJECTED_BY_IB")) ∧
    (∀ n,
      Invoke po caller
        (afterAccepts po caller id n (Invoke po caller stub "rejectED" [id]).2) "acceptED" [id] =
      (.error "Incorrect number of arguments. Expecting 2.",
        (Invoke po caller stub "rejectED" [id]).2)) := by
  rw [invoke_rejectED]
  obtain ⟨hok, hall⟩ := updateAll_legal (n := "REJECTED_BY_IB") h (by decide)
  simp only [List.singleton_append]
  generalize updateAll stub [id, "REJECTED_BY_IB"] = r at hok hall ⊢
  have hrefused : Invoke po caller r.2 "acceptED" [id] =
      (.error "Incorrect number of arguments. Expecting 2.", r.2) := by
    apply acceptED_of_no_next
    rw [hall.1]
    decide
  refine ⟨hok, ?_, allAt_getStatus hall, ?_⟩
  · rw [query_getEDStatus, hall.1]
    rfl
  · intro n
    rw [afterAccepts_of_refused po caller (by rw [hrefused]) n]
    exact hrefused

/-- Witness for C9: contract "1000" with its three documents just submitted. -/
theorem reject_then_accept_refused_witness :
    AllAt Store.submitted "1000" "SUBMITTED_BY_EB" ∧
      (Query POComponent.idle Caller.anonymous
        (Invoke POComponent.idle Caller.anonymous Store.submitted "rejectED" ["1000"]).2
        "getEDStatus" ["1000"]).1 = .ok (.status "REJECTED_BY_IB") :=
  ⟨by decide,
    (reject_then_accept_refused POComponent.idle Caller.anonymous Store.submitted "1000"
      (by decide)).2.1⟩

/-! ## The contract table under `Invoke` -/

theorem getRowBP_append_of_absent {t : List BPRow} {r : BPRow}
    (h : GetRowBP t r.key = none) : GetRowBP (t ++ [r]) r.key = some r := by
  unfold GetRowBP at h ⊢
  rw [List.find?_append, h]
  simp

theorem getRowBP_append_of_present {t : List BPRow} {k : String × String} {r0 : BPRow}
    (r : BPRow) (h : GetRowBP t k = some r0) : GetRowBP (t ++ [r]) k = some r0 := by
  unfold GetRowBP at h ⊢
  rw [List.find?_append, h]
  rfl

theorem getRowBP_none_iff {t : List BPRow} {k : String × String} :
    GetRowBP t k = none ↔ ∀ r ∈ t, r.key ≠ k := by
  simp [GetRowBP, List.find?_eq_none]

theorem DocKind.submitDoc_setTable (k : DocKind) (stub : Store) (args : List String) :
    ∃ t, (k.SubmitDoc stub args).2 = k.setTable stub t := by
  by_cases hlen : args.length = 2
  · obtain ⟨UID, p, rfl⟩ : ∃ a b, args = [a, b] := by
      match args, hlen with
      | [a, b], _ => exact ⟨a, b, rfl⟩
    cases hrow : GetRow (k.table stub) ("DOC", UID) with
    | none => exact ⟨_, by rw [k.submitDoc_absent p hrow]⟩
    | some row => exact ⟨k.table stub, by rw [k.submitDoc_present p hrow, k.setTable_table]⟩
  · refine ⟨k.table stub, ?_⟩
    rw [k.setTable_table]
    match args, hlen with
    | [], _ => cases k <;> rfl
    | [_], _ => cases k <;> rfl
    | [_, _], h => exact absurd rfl h
    | _ :: _ :: _ :: _, _ => cases k <;> rfl

theorem DocKind.updateStatus_setTable (k : DocKind) (stub : Store) (args : List String) :
    ∃ t, (k.UpdateStatus stub args).2 = k.setTable stub t := by
  by_cases hlen : args.length = 2
  · obtain ⟨UID, n, rfl⟩ : ∃ a b, args = [a, b] := by
      match args, hlen with
      | [a, b], _ => exact ⟨a, b, rfl⟩
    cases hrow : GetRow (k.table stub) ("DOC", UID) with
    | none => exact ⟨k.table stub, by rw [k.updateStatus_absent n hrow, k.setTable_table]⟩
    | some row =>
      rw [k.updateStatus_found n hrow]
      by_cases hm : (row.Status, n) ∈ legalEdges
      · exact ⟨_, by rw [if_pos hm]⟩
      · exact ⟨k.table stub, by rw [if_neg hm, k.setTable_table]⟩
  · exact ⟨k.table stub, by rw [k.updateStatus_arity stub hlen, k.setTable_table]⟩

theorem DocKind.submitDoc_BPTable (k : DocKind) (stub : Store) (args : List String) :
    (k.SubmitDoc stub args).2.BPTable = stub.BPTable := by
  obtain ⟨t, ht⟩ := k.submitDoc_setTable stub args
  rw [ht, k.BPTable_setTable]

theorem DocKind.updateStatus_BPTable (k : DocKind) (stub : Store) (args : List String) :
    (k.UpdateStatus stub args).2.BPTable = stub.BPTable := by
  obtain ⟨t, ht⟩ := k.updateStatus_setTable stub args
  rw [ht, k.BPTable_setTable]

theorem updateAll_BPTable (stub : Store) (args : List String) :
    (updateAll stub args).2.BPTable = stub.BPTable := by
  have h1 := DocKind.BL.updateStatus_BPTable stub args
  have h2 := DocKind.Invoice.updateStatus_BPTable (DocKind.BL.UpdateStatus stub args).2 args
  have h3 := DocKind.PL.updateStatus_BPTable
    (DocKind.Invoice.UpdateStatus (DocKind.BL.UpdateStatus stub args).2 args).2 args
  rw [updateAll_eq]
  rcases e1 : DocKind.BL.UpdateStatus stub args with ⟨r1, s1⟩
  rw [e1] at h1 h2 h3
  cases r1 with
  | error err => exact h1
  | ok b1 =>
    simp only
    rcases e2 : DocKind.Invoice.UpdateStatus s1 args with ⟨r2, s2⟩
    rw [e2] at h2 h3
    cases r2 with
    | error err => exact h2.trans h1
    | ok b2 =>
      simp only
      rcases e3 : DocKind.PL.UpdateStatus s2 args with ⟨r3, s3⟩
      rw [e3] at h3
      cases r3 with
      | error err => exact h3.trans (h2.trans h1)
      | ok b3 => exact h3.trans (h2.trans h1)

theorem invoke_submitED_BPTable (po : POComponent) (caller : Caller) (stub : Store)
    (args : List String) :
    (Invoke po caller stub "submitED" args).2.BPTable = stub.BPTable := by
  simp only [Invoke, InvokeWith, guarded, accessControlFlag]
  simp only [String.reduceEq, if_false, Bool.false_eq_true, if_true]
  match args with
  | [] => rfl
  | [_] => rfl
  | [_, _] => rfl
  | [_, _, _] => rfl
  | id :: bl :: inv :: pl :: rest =>
    simp only
    have h1 := DocKind.BL.submitDoc_BPTable stub [id, bl]
    have h2 := fun s => DocKind.Invoice.submitDoc_BPTable s [id, inv]
    have h3 := fun s => DocKind.PL.submitDoc_BPTable s [id, pl]
    simp only [DocKind.SubmitDoc] at h1 h2 h3
    have hpl : ∀ s : Store, s.BPTable = stub.BPTable →
        (if pl ≠ "" then
          match PL.SubmitDoc s [id, pl] with
          | (.error err, stub) => ((.error err : Outcome), stub)
          | (.ok _, stub) => (.ok (.raw none), stub)
        else (.ok (.raw none), s)).2.BPTable = stub.BPTable := by
      intro s hs
      split
      · have := h3 s
        split <;> simp_all
      · exact hs
    have hinv : ∀ s : Store, s.BPTable = stub.BPTable →
        (if inv ≠ "" then
          match Invoice.SubmitDoc s [id, inv] with
          | (.error err, stub) => ((.error err : Outcome), stub)
          | (.ok _, stub) =>
            if pl ≠ "" then
              match PL.SubmitDoc stub [id, pl] with
              | (.error err, stub) => ((.error err : Outcome), stub)
              | (.ok _, stub) => (.ok (.raw none), stub)
            else (.ok (.raw none), stub)
        else
          if pl ≠ "" then
            match PL.SubmitDoc s [id, pl] with
            | (.error err, stub) => ((.error err : Outcome), stub)
            | (.ok _, stub) => (.ok (.raw none), stub)
          else (.ok (.raw none), s)).2.BPTable = stub.BPTable := by
      intro s hs
      split
      · have := h2 s
        split
        · simp_all
        · apply hpl
          simp_all
      · exact hpl s hs
    split
    · split
      · simp_all
      · apply hinv
        simp_all
    · exact hinv stub rfl

theorem invoke_acceptED_BPTable (po : POComponent) (caller : Caller) (stub : Store)
    (args : List String) :
    (Invoke po caller stub "acceptED" args).2.BPTable = stub.BPTable := by
  simp only [Invoke, InvokeWith, guarded, accessControlFlag]
  simp only [String.reduceEq, if_false, Bool.false_eq_true]
  match args with
  | [] => rfl
  | a0 :: rest =>
    have h := DocKind.BL.statusOf_getStatus stub a0
    simp only [DocKind.GetStatus] at h
    simp only [h]
    exact updateAll_BPTable _ _

theorem invoke_rejectED_BPTable (po : POComponent) (caller : Caller) (stub : Store)
    (args : List String) :
    (Invoke po caller stub "rejectED" args).2.BPTable = stub.BPTable := by
  rw [invoke_rejectED]
  exact updateAll_BPTable _ _

theorem invoke_updatePO_BPTable (po : POComponent) (caller : Caller) (stub : Store)
    (args : List String) :
    (Invoke po caller stub "updatePO" args).2.BPTable = stub.BPTable := by
  simp only [Invoke, InvokeWith, guarded, accessControlFlag]
  simp only [String.reduceEq, if_false, if_true, Bool.false_eq_true]
  split <;> rfl

theorem invoke_BPTable_of_ne (po : POComponent) (caller : Caller) (stub : Store)
    {f : String} (hf : f ≠ "initTrade") (args : List String) :
    (Invoke po caller stub f args).2.BPTable = stub.BPTable := by
  by_cases h1 : f = "updatePO"
  · subst h1; exact invoke_updatePO_BPTable po caller stub args
  by_cases h2 : f = "submitED"
  · subst h2; exact invoke_submitED_BPTable po caller stub args
  by_cases h3 : f = "acceptED"
  · subst h3; exact invoke_acceptED_BPTable po caller stub args
  by_cases h4 : f = "rejectED"
  · subst h4; exact invoke_rejectED_BPTable po caller stub args
  simp [Invoke, InvokeWith, hf, h1, h2, h3, h4]

theorem invoke_initTrade_arity (po : POComponent) (caller : Caller) (stub : Store)
    {args : List String} (h : args.length ≠ 10) :
    Invoke po caller stub "initTrade" args =
      (.error ("Incorrect number of arguments. Expecting 10. Got: " ++ toString args.length
        ++ "."), stub) := by
  simp only [Invoke, InvokeWith, if_true]
  split
  · simp at h
  · rfl

theorem invoke_initTrade_present (po : POComponent) (caller : Caller) {stub : Store}
    {UID : String} {row : BPRow} (h : GetRowBP stub.BPTable ("BP", UID) = some row)
    (POJSON i e ib eb c1 c2 c3 c4 : String) :
    Invoke po caller stub "initTrade" [UID, POJSON, i, e, ib, eb, c1, c2, c3, c4] =
      (.error "Row already exists.", stub) := by
  simp [Invoke, InvokeWith, InsertRowBP, BPRow.key, h]

theorem invoke_initTrade_absent (po : POComponent) (caller : Caller) {stub : Store}
    {UID : String} (h : GetRowBP stub.BPTable ("BP", UID) = none)
    (POJSON i e ib eb c1 c2 c3 c4 : String) :
    Invoke po caller stub "initTrade" [UID, POJSON, i, e, ib, eb, c1, c2, c3, c4] =
      (Outcome.ofBytes (po.SubmitDoc stub.POTable [UID, POJSON]).1,
        { stub with
          BPTable := stub.BPTable ++ [contractRow UID i e ib eb c1 c2 c3 c4]
          POTable := (po.SubmitDoc stub.POTable [UID, POJSON]).2 }) := by
  simp [Invoke, InvokeWith, InsertRowBP, BPRow.key, h, runPO, contractRow]

theorem list_of_length_ten {args : List String} (h : args.length = 10) :
    ∃ a0 a1 a2 a3 a4 a5 a6 a7 a8 a9, args = [a0, a1, a2, a3, a4, a5, a6, a7, a8, a9] := by
  match args, h with
  | [a0, a1, a2, a3, a4, a5, a6, a7, a8, a9], _ =>
    exact ⟨a0, a1, a2, a3, a4, a5, a6, a7, a8, a9, rfl⟩

theorem getRowBP_none_iff_of_tagged {t : List BPRow} (htag : ∀ r ∈ t, r.TypeTag = "BP")
    (id : String) : GetRowBP t ("BP", id) = none ↔ id ∉ t.map BPRow.UID := by
  rw [getRowBP_none_iff]
  simp only [BPRow.key, ne_eq, Prod.mk.injEq, not_and, List.mem_map, not_exists]
  constructor
  · intro h r hr
    exact h r hr (htag r hr)
  · intro h r hr _
    exact h r hr

theorem contractsWellFormed_nil : ContractsWellFormed [] :=
  ⟨fun _ h => absurd h (List.not_mem_nil _), List.nodup_nil⟩

theorem contractsWellFormed_append {t : List BPRow} (h : ContractsWellFormed t) {r : BPRow}
    (htag : r.TypeTag = "BP") (hnew : GetRowBP t ("BP", r.UID) = none) :
    ContractsWellFormed (t ++ [r]) := by
  obtain ⟨h1, h2⟩ := h
  have hnot := (getRowBP_none_iff_of_tagged h1 r.UID).1 hnew
  refine ⟨?_, ?_⟩
  · intro x hx
    rcases List.mem_append.1 hx with hx | hx
    · exact h1 x hx
    · rw [List.mem_singleton.1 hx]; exact htag
  · rw [List.map_append, List.nodup_append]
    refine ⟨h2, List.nodup_singleton _, ?_⟩
    intro a ha hb
    simp only [List.map_cons, List.map_nil, List.mem_singleton] at hb
    exact hnot (hb ▸ ha)

/-- One `Invoke` call on a well-formed contract table: the table stays
well-formed and gains exactly the id of a ten-argument `initTrade`. -/
theorem invoke_contract_ids (po : POComponent) (caller : Caller) {stub : Store}
    (hwf : ContractsWellFormed stub.BPTable) (f : String) (args : List String) :
    ContractsWellFormed (Invoke po caller stub f args).2.BPTable ∧
      ∀ x, x ∈ (Invoke po caller stub f args).2.BPTable.map BPRow.UID ↔
        x ∈ stub.BPTable.map BPRow.UID ∨ x ∈ initTradeIds [(f, args)] := by
  by_cases hf : f = "initTrade"
  · subst hf
    by_cases hlen : args.length = 10
    · obtain ⟨id, a1, a2, a3, a4, a5, a6, a7, a8, a9, rfl⟩ := list_of_length_ten hlen
      have hids : initTradeIds [("initTrade", [id, a1, a2, a3, a4, a5, a6, a7, a8, a9])] = [id] := by
        simp [initTradeIds]
      rw [hids]
      cases hrow : GetRowBP stub.BPTable ("BP", id) with
      | none =>
        rw [invoke_initTrade_absent po caller hrow]
        refine ⟨contractsWellFormed_append hwf rfl hrow, ?_⟩
        intro x
        simp [contractRow]
      | some row =>
        rw [invoke_initTrade_present po caller hrow]
        refine ⟨hwf, ?_⟩
        intro x
        have hmem : id ∈ stub.BPTable.map BPRow.UID := by
          by_contra hno
          rw [(getRowBP_none_iff_of_tagged hwf.1 id).2 hno] at hrow
          cases hrow
        constructor
        · exact Or.inl
        · rintro (h | h)
          · exact h
          · rw [List.mem_singleton.1 h]; exact hmem
    · rw [invoke_initTrade_arity po caller stub hlen]
      refine ⟨hwf, ?_⟩
      intro x
      simp [initTradeIds, hlen]
  · rw [invoke_BPTable_of_ne po caller stub hf]
    refine ⟨hwf, ?_⟩
    intro x
    simp [initTradeIds, hf]

theorem runCommands_contract_ids (po : POComponent) (caller : Caller) (cmds : List Command) :
    ∀ stub : Store, ContractsWellFormed stub.BPTable →
      ContractsWellFormed (runCommands po caller stub cmds).BPTable ∧
        ∀ x, x ∈ (runCommands po caller stub cmds).BPTable.map BPRow.UID ↔
          x ∈ stub.BPTable.map BPRow.UID ∨ x ∈ initTradeIds cmds := by
  induction cmds with
  | nil =>
    intro stub hwf
    exact ⟨hwf, fun x => by simp [runCommands, initTradeIds]⟩
  | cons c cs ih =>
    intro stub hwf
    obtain ⟨hwf1, hmem1⟩ := invoke_contract_ids po caller hwf c.1 c.2
    obtain ⟨hwf2, hmem2⟩ := ih _ hwf1
    refine ⟨hwf2, ?_⟩
    intro x
    rw [runCommands, hmem2 x, hmem1 x]
    have hsplit : initTradeIds (c :: cs) = initTradeIds [c] ++ initTradeIds cs := by
      simp only [initTradeIds, List.filterMap_cons, List.filterMap_nil]
      split <;> simp
    rw [hsplit, List.mem_append, or_assoc]

/-- One `Invoke` call never deletes or alters a contract row: the old table is
an initial segment of the new one and lookups that succeeded still give the same
row. -/
theorem invoke_keeps_contract_rows (po : POComponent) (caller : Caller) (stub : Store)
    (f : String) (args : List String) :
    stub.BPTable <+: (Invoke po caller stub f args).2.BPTable ∧
      ∀ key row, GetRowBP stub.BPTable key = some row →
        GetRowBP (Invoke po caller stub f args).2.BPTable key = some row := by
  by_cases hf : f = "initTrade"
  · subst hf
    by_cases hlen : args.length = 10
    · obtain ⟨id, a1, a2, a3, a4, a5, a6, a7, a8, a9, rfl⟩ := list_of_length_ten hlen
      cases hrow : GetRowBP stub.BPTable ("BP", id) with
      | none =>
        rw [invoke_initTrade_absent po caller hrow]
        exact ⟨List.prefix_append _ _, fun key row h => getRowBP_append_of_present _ h⟩
      | some row =>
        rw [invoke_initTrade_present po caller hrow]
        exact ⟨List.prefix_refl _, fun _ _ h => h⟩
    · rw [invoke_initTrade_arity po caller stub hlen]
      exact ⟨List.prefix_refl _, fun _ _ h => h⟩
  · rw [invoke_BPTable_of_ne po caller stub hf]
    exact ⟨List.prefix_refl _, fun _ _ h => h⟩

theorem runCommands_keeps_contract_rows (po : POComponent) (caller : Caller)
    (cmds : List Command) :
    ∀ stub : Store, stub.BPTable <+: (runCommands po caller stub cmds).BPTable ∧
      ∀ key row, GetRowBP stub.BPTable key = some row →
        GetRowBP (runCommands po caller stub cmds).BPTable key = some row := by
  induction cmds with
  | nil => intro stub; exact ⟨List.prefix_refl _, fun _ _ h => h⟩
  | cons c cs ih =>
    intro stub
    obtain ⟨hp1, hk1⟩ := invoke_keeps_contract_rows po caller stub c.1 c.2
    obtain ⟨hp2, hk2⟩ := ih (Invoke po caller stub c.1 c.2).2
    exact ⟨hp1.trans hp2, fun key row h => hk2 key row (hk1 key row h)⟩

theorem invoke_independent_of_context (po : POComponent) (caller : Caller) (stub : Store)
    {f : String} (h1 : f ≠ "initTrade") (h2 : f ≠ "updatePO") (args : List String) :
    Invoke po caller stub f args =
      Invoke POComponent.idle Caller.anonymous stub f args := by
  simp only [Invoke, InvokeWith, guarded, accessControlFlag, h1, h2, if_false,
    Bool.false_eq_true]

theorem runCommands_independent_of_context (po : POComponent) (caller : Caller)
    (cmds : List Command) (h : ∀ c ∈ cmds, c.1 ≠ "initTrade" ∧ c.1 ≠ "updatePO") :
    ∀ stub : Store, runCommands po caller stub cmds =
      runCommands POComponent.idle Caller.anonymous stub cmds := by
  induction cmds with
  | nil => intro stub; rfl
  | cons c cs ih =>
    intro stub
    have hc := h c (List.mem_cons_self _ _)
    rw [runCommands, runCommands, invoke_independent_of_context po caller stub hc.1 hc.2,
      ih (fun d hd => h d (List.mem_cons_of_mem _ hd))]

/-! ## The export documents under `submitED` and `rejectED` -/

theorem invoke_submitED_absent_eq (po : POComponent) (caller : Caller) {stub : Store}
    {id : String} (bl inv pl : String)
    (habsent : ∀ k : DocKind, GetRow (k.table stub) ("DOC", id) = none) :
    Invoke po caller stub "submitED" [id, bl, inv, pl] =
      (.ok (.raw none),
        { stub with
          BLTable :=
            if bl = "" then stub.BLTable
            else stub.BLTable ++ [⟨"DOC", id, bl, "SUBMITTED_BY_EB"⟩]
          invoiceTable :=
            if inv = "" then stub.invoiceTable
            else stub.invoiceTable ++ [⟨"DOC", id, inv, "SUBMITTED_BY_EB"⟩]
          PLTable :=
            if pl = "" then stub.PLTable
            else stub.PLTable ++ [⟨"DOC", id, pl, "SUBMITTED_BY_EB"⟩] }) := by
  have h1 : InsertRow stub.BLTable ⟨"DOC", id, bl, "SUBMITTED_BY_EB"⟩ = _ :=
    insertRow_of_absent (by simpa [DocRow.key] using habsent .BL)
  have h2 : InsertRow stub.invoiceTable ⟨"DOC", id, inv, "SUBMITTED_BY_EB"⟩ = _ :=
    insertRow_of_absent (by simpa [DocRow.key] using habsent .Invoice)
  have h3 : InsertRow stub.PLTable ⟨"DOC", id, pl, "SUBMITTED_BY_EB"⟩ = _ :=
    insertRow_of_absent (by simpa [DocRow.key] using habsent .PL)
  by_cases hbl : bl = "" <;> by_cases hinv : inv = "" <;> by_cases hpl : pl = "" <;>
    simp [Invoke, InvokeWith, guarded, accessControlFlag, hbl, hinv, hpl, BL.SubmitDoc,
      Invoice.SubmitDoc, PL.SubmitDoc, h1, h2, h3]

theorem DocKind.statusOf_some {k : DocKind} {stub : Store} {id c : String}
    (h : k.statusOf stub id = some c) :
    ∃ row, GetRow (k.table stub) ("DOC", id) = some row ∧ row.Status = c := by
  unfold DocKind.statusOf at h
  cases hrow : GetRow (k.table stub) ("DOC", id) with
  | none => rw [hrow] at h; cases h
  | some row =>
    rw [hrow] at h
    exact ⟨row, rfl, by simpa using h⟩

theorem DocKind.updateStatus_illegal (k : DocKind) {stub : Store} {id c n : String}
    (hc : k.statusOf stub id = some c) (hm : (c, n) ∉ legalEdges) :
    k.UpdateStatus stub [id, n] = (.error "This state transition is not allowed.", stub) := by
  obtain ⟨row, hrow, rfl⟩ := DocKind.statusOf_some hc
  rw [k.updateStatus_found n hrow, if_neg hm]

theorem rejected_edge_iff (c : String) :
    (c, "REJECTED_BY_IB") ∈ legalEdges ↔ c = "SUBMITTED_BY_EB" := by
  simp [legalEdges]

theorem DocKind.statusOf_setTable_self (k : DocKind) (s : Store) (t : List DocRow)
    (id : String) : k.statusOf (k.setTable s t) id = (GetRow t ("DOC", id)).map DocRow.Status := by
  unfold DocKind.statusOf
  rw [k.table_setTable]

/-! ## Submission and rejection of the export documents -/

/-- C12: for every contract id with none of the three export documents and every
triple of payloads, `submitED([id, bl, inv, pl])` succeeds, and afterwards a row
for `id` exists in the table of a kind exactly when the payload given for that
kind is non-empty; such a row carries the given payload and status
`SUBMITTED_BY_EB`, and the table of a kind whose payload is empty is left as it
was. -/
theorem submitED_inserts_what_is_given (po : POComponent) (caller : Caller) (stub : Store)
    (id bl inv pl : String)
    (habsent : ∀ k : DocKind, GetRow (k.table stub) ("DOC", id) = none) :
    (Invoke po caller stub "submitED" [id, bl, inv, pl]).1 = .ok (.raw none) ∧
    ∀ k : DocKind,
      ((GetRow (k.table (Invoke po caller stub "submitED" [id, bl, inv, pl]).2)
          ("DOC", id)).isSome ↔ k.payload bl inv pl ≠ "") ∧
      (k.payload bl inv pl ≠ "" →
        GetRow (k.table (Invoke po caller stub "submitED" [id, bl, inv, pl]).2) ("DOC", id) =
          some ⟨"DOC", id, k.payload bl inv pl, "SUBMITTED_BY_EB"⟩) ∧
      (k.payload bl inv pl = "" →
        k.table (Invoke po caller stub "submitED" [id, bl, inv, pl]).2 = k.table stub) := by
  rw [invoke_submitED_absent_eq po caller bl inv pl habsent]
  refine ⟨rfl, ?_⟩
  intro k
  have hnew := getRow_append_new (k.table stub) "DOC" id (k.payload bl inv pl)
    "SUBMITTED_BY_EB" (habsent k)
  have hold := habsent k
  cases k <;> simp only [DocKind.table, DocKind.payload] at hnew hold ⊢
  · by_cases h : bl = "" <;> simp [h, hnew, hold]
  · by_cases h : inv = "" <;> simp [h, hnew, hold]
  · by_cases h : pl = "" <;> simp [h, hnew, hold]

/-- Witness for C12: a bill of lading and a packing list, no invoice, on the
empty store. -/
theorem submitED_inserts_what_is_given_witness :
    (∀ k : DocKind, GetRow (k.table Store.empty) ("DOC", "1000") = none) ∧
      (Invoke POComponent.idle Caller.anonymous Store.empty "submitED"
        ["1000", "BLPDF", "", "PLPDF"]).1 = .ok (.raw none) :=
  ⟨fun k => by cases k <;> decide,
    (submitED_inserts_what_is_given POComponent.idle Caller.anonymous Store.empty "1000"
      "BLPDF" "" "PLPDF" (fun k => by cases k <;> decide)).1⟩

/-- C13: `submitED` is not atomic across kinds: when no bill of lading exists for
`id` but an invoice does, `submitED([id, bl, inv, pl])` with non-empty `bl` and
`inv` returns the invoice's already-exists error, the bill of lading inserted
earlier in the call stays in the store with status `SUBMITTED_BY_EB`, and the
packing list is not submitted. -/
theorem submitED_keeps_earlier_insert (po : POComponent) (caller : Caller) (stub : Store)
    (id bl inv pl : String) (row : DocRow) (hbl : bl ≠ "") (hinv : inv ≠ "")
    (hb : GetRow stub.BLTable ("DOC", id) = none)
    (hi : GetRow stub.invoiceTable ("DOC", id) = some row) :
    (Invoke po caller stub "submitED" [id, bl, inv, pl]).1 =
      .error "Document already exists." ∧
    GetRow (Invoke po caller stub "submitED" [id, bl, inv, pl]).2.BLTable ("DOC", id) =
      some ⟨"DOC", id, bl, "SUBMITTED_BY_EB"⟩ ∧
    (BL.GetStatus (Invoke po caller stub "submitED" [id, bl, inv, pl]).2 [id]).1 =
      .ok (some "SUBMITTED_BY_EB") ∧
    (Invoke po caller stub "submitED" [id, bl, inv, pl]).2.invoiceTable = stub.invoiceTable ∧
    (Invoke po caller stub "submitED" [id, bl, inv, pl]).2.PLTable = stub.PLTable := by
  have h1 : InsertRow stub.BLTable ⟨"DOC", id, bl, "SUBMITTED_BY_EB"⟩ = _ :=
    insertRow_of_absent (by simpa [DocRow.key] using hb)
  have h2 : InsertRow stub.invoiceTable ⟨"DOC", id, inv, "SUBMITTED_BY_EB"⟩ = _ :=
    insertRow_of_present row (by simpa [DocRow.key] using hi)
  have e : Invoke po caller stub "submitED" [id, bl, inv, pl] =
      (.error "Document already exists.",
        { stub with BLTable := stub.BLTable ++ [⟨"DOC", id, bl, "SUBMITTED_BY_EB"⟩] }) := by
    simp [Invoke, InvokeWith, guarded, accessControlFlag, hbl, hinv, BL.SubmitDoc,
      Invoice.SubmitDoc, h1, h2]
  have hnew := getRow_append_new stub.BLTable "DOC" id bl "SUBMITTED_BY_EB" hb
  rw [e]
  refine ⟨rfl, hnew, ?_, rfl, rfl⟩
  simp [BL.GetStatus, hnew]

/-- Witness for C13: the invoice of contract "1000" is on file, the bill of
lading is not. -/
theorem submitED_keeps_earlier_insert_witness :
    GetRow ({ Store.submitted with BLTable := [] } : Store).BLTable ("DOC", "1000") = none ∧
      GetRow ({ Store.submitted with BLTable := [] } : Store).invoiceTable ("DOC", "1000") =
        some ⟨"DOC", "1000", "INPDF", "SUBMITTED_BY_EB"⟩ ∧
      (Invoke POComponent.idle Caller.anonymous { Store.submitted with BLTable := [] }
        "submitED" ["1000", "BL2", "IN2", "PL2"]).1 = .error "Document already exists." :=
  ⟨by decide, by decide,
    (submitED_keeps_earlier_insert POComponent.idle Caller.anonymous
      { Store.submitted with BLTable := [] } "1000" "BL2" "IN2" "PL2"
      ⟨"DOC", "1000", "INPDF", "SUBMITTED_BY_EB"⟩ (by decide) (by decide) (by decide)
      (by decide)).1⟩

/-- C15: when the bill of lading, the invoice and the packing list of `id` all
exist, `rejectED([id])` succeeds exactly when all three are at `SUBMITTED_BY_EB`,
and then all three are at `REJECTED_BY_IB`; otherwise it returns the
illegal-transition error at the first document, in the order bill of lading,
invoice, packing list, that is not at `SUBMITTED_BY_EB`: the documents before it
are at `REJECTED_BY_IB` and the tables of that document and of those after it
are unchanged. -/
theorem rejectED_stops_at_first_refusal (po : POComponent) (caller : Caller) (stub : Store)
    (id sb si sp : String) (hb : DocKind.BL.statusOf stub id = some sb)
    (hi : DocKind.Invoice.statusOf stub id = some si)
    (hp : DocKind.PL.statusOf stub id = some sp) :
    ((Invoke po caller stub "rejectED" [id]).1 = .ok (.raw none) ↔
      sb = "SUBMITTED_BY_EB" ∧ si = "SUBMITTED_BY_EB" ∧ sp = "SUBMITTED_BY_EB") ∧
    (sb = "SUBMITTED_BY_EB" ∧ si = "SUBMITTED_BY_EB" ∧ sp = "SUBMITTED_BY_EB" →
      AllAt (Invoke po caller stub "rejectED" [id]).2 id "REJECTED_BY_IB") ∧
    (sb ≠ "SUBMITTED_BY_EB" →
      Invoke po caller stub "rejectED" [id] =
        (.error "This state transition is not allowed.", stub)) ∧
    (sb = "SUBMITTED_BY_EB" → si ≠ "SUBMITTED_BY_EB" →
      (Invoke po caller stub "rejectED" [id]).1 =
        .error "This state transition is not allowed." ∧
      DocKind.BL.statusOf (Invoke po caller stub "rejectED" [id]).2 id =
        some "REJECTED_BY_IB" ∧
      (Invoke po caller stub "rejectED" [id]).2.invoiceTable = stub.invoiceTable ∧
      (Invoke po caller stub "rejectED" [id]).2.PLTable = stub.PLTable) ∧
    (sb = "SUBMITTED_BY_EB" → si = "SUBMITTED_BY_EB" → sp ≠ "SUBMITTED_BY_EB" →
      (Invoke po caller stub "rejectED" [id]).1 =
        .error "This state transition is not allowed." ∧
      DocKind.BL.statusOf (Invoke po caller stub "rejectED" [id]).2 id =
        some "REJECTED_BY_IB" ∧
      DocKind.Invoice.statusOf (Invoke po caller stub "rejectED" [id]).2 id =
        some "REJECTED_BY_IB" ∧
      (Invoke po caller stub "rejectED" [id]).2.PLTable = stub.PLTable) := by
  rw [invoke_rejectED]
  simp only [List.singleton_append]
  -- the three calls, taken one after the other
  have first : sb ≠ "SUBMITTED_BY_EB" →
      updateAll stub [id, "REJECTED_BY_IB"] =
        (.error "This state transition is not allowed.", stub) := by
    intro h
    have e1 := DocKind.BL.updateStatus_illegal hb (mt (rejected_edge_iff sb).1 h)
    rw [updateAll_eq, e1]
  have second : sb = "SUBMITTED_BY_EB" → si ≠ "SUBMITTED_BY_EB" →
      ∃ t1, updateAll stub [id, "REJECTED_BY_IB"] =
          (.error "This state transition is not allowed.", DocKind.BL.setTable stub t1) ∧
        (GetRow t1 ("DOC", id)).map DocRow.Status = some "REJECTED_BY_IB" := by
    intro h1 h2
    obtain ⟨t1, e1, g1⟩ := DocKind.BL.updateStatus_legal hb ((rejected_edge_iff sb).2 h1)
    have hi1 : DocKind.Invoice.statusOf (DocKind.BL.setTable stub t1) id = some si := by
      rw [DocKind.statusOf_setTable_ne (by decide)]; exact hi
    have e2 := DocKind.Invoice.updateStatus_illegal hi1 (mt (rejected_edge_iff si).1 h2)
    refine ⟨t1, ?_, g1⟩
    rw [updateAll_eq, e1]
    simp only [e2]
  have third : sb = "SUBMITTED_BY_EB" → si = "SUBMITTED_BY_EB" → sp ≠ "SUBMITTED_BY_EB" →
      ∃ t1 t2, updateAll stub [id, "REJECTED_BY_IB"] =
          (.error "This state transition is not allowed.",
            DocKind.Invoice.setTable (DocKind.BL.setTable stub t1) t2) ∧
        (GetRow t1 ("DOC", id)).map DocRow.Status = some "REJECTED_BY_IB" ∧
        (GetRow t2 ("DOC", id)).map DocRow.Status = some "REJECTED_BY_IB" := by
    intro h1 h2 h3
    obtain ⟨t1, e1, g1⟩ := DocKind.BL.updateStatus_legal hb ((rejected_edge_iff sb).2 h1)
    have hi1 : DocKind.Invoice.statusOf (DocKind.BL.setTable stub t1) id = some si := by
      rw [DocKind.statusOf_setTable_ne (by decide)]; exact hi
    obtain ⟨t2, e2, g2⟩ := DocKind.Invoice.updateStatus_legal hi1 ((rejected_edge_iff si).2 h2)
    have hp2 : DocKind.PL.statusOf
        (DocKind.Invoice.setTable (DocKind.BL.setTable stub t1) t2) id = some sp := by
      rw [DocKind.statusOf_setTable_ne (by decide), DocKind.statusOf_setTable_ne (by decide)]
      exact hp
    have e3 := DocKind.PL.updateStatus_illegal hp2 (mt (rejected_edge_iff sp).1 h3)
    refine ⟨t1, t2, ?_, g1, g2⟩
    rw [updateAll_eq, e1]
    simp only [e2, e3]
  have all : sb = "SUBMITTED_BY_EB" ∧ si = "SUBMITTED_BY_EB" ∧ sp = "SUBMITTED_BY_EB" →
      (updateAll stub [id, "REJECTED_BY_IB"]).1 = .ok (.raw none) ∧
        AllAt (updateAll stub [id, "REJECTED_BY_IB"]).2 id "REJECTED_BY_IB" := by
    rintro ⟨rfl, rfl, rfl⟩
    exact updateAll_legal ⟨hb, hi, hp⟩ (by decide)
  refine ⟨⟨?_, fun h => (all h).1⟩, fun h => (all h).2, first, ?_, ?_⟩
  · intro hok
    by_cases h1 : sb = "SUBMITTED_BY_EB"
    · by_cases h2 : si = "SUBMITTED_BY_EB"
      · by_cases h3 : sp = "SUBMITTED_BY_EB"
        · exact ⟨h1, h2, h3⟩
        · obtain ⟨t1, t2, e, _⟩ := third h1 h2 h3
          rw [e] at hok
          cases hok
      · obtain ⟨t1, e, _⟩ := second h1 h2
        rw [e] at hok
        cases hok
    · rw [first h1] at hok
      cases hok
  · intro h1 h2
    obtain ⟨t1, e, g1⟩ := second h1 h2
    rw [e]
    refine ⟨rfl, ?_, rfl, rfl⟩
    rw [DocKind.statusOf_setTable_self]
    exact g1
  · intro h1 h2 h3
    obtain ⟨t1, t2, e, g1, g2⟩ := third h1 h2 h3
    rw [e]
    refine ⟨rfl, ?_, ?_, rfl⟩
    · rw [DocKind.statusOf_setTable_ne (by decide), DocKind.statusOf_setTable_self]
      exact g1
    · rw [DocKind.statusOf_setTable_self]
      exact g2

/-- Witness for C15: contract "1000" with its three documents just submitted. -/
theorem rejectED_stops_at_first_refusal_witness :
    DocKind.BL.statusOf Store.submitted "1000" = some "SUBMITTED_BY_EB" ∧
      DocKind.Invoice.statusOf Store.diverged "1000" = some "SUBMITTED_BY_EB" ∧
      Invoke POComponent.idle Caller.anonymous Store.diverged "rejectED" ["1000"] =
        (.error "This state transition is not allowed.", Store.diverged) :=
  ⟨by decide, by decide,
    (rejectED_stops_at_first_refusal POComponent.idle Caller.anonymous Store.diverged "1000"
      "ACCEPTED_BY_IB" "SUBMITTED_BY_EB" "SUBMITTED_BY_EB" (by decide) (by decide)
      (by decide)).2.2.1 (by decide)⟩

/-! ## Lockstep of the export documents -/

theorem runCommands_diverging (po : POComponent) (caller : Caller) :
    runCommands po caller Store.empty divergingCommands = Store.diverged := by
  rw [runCommands_independent_of_context po caller divergingCommands
    (fun c hc => by
      simp only [divergingCommands, List.mem_cons, List.mem_singleton, List.not_mem_nil,
        or_false] at hc
      rcases hc with rfl | rfl | rfl <;> decide)]
  decide

theorem reachable_diverged (po : POComponent) (caller : Caller) :
    Reachable po caller Store.diverged :=
  ⟨divergingCommands, fun c hc => by
      simp only [divergingCommands, List.mem_cons, List.mem_singleton, List.not_mem_nil,
        or_false] at hc
      rcases hc with rfl | rfl | rfl <;> decide,
    runCommands_diverging po caller⟩

/-- C11, the code at the failing input: from the empty store the workflow
commands `submitED(["1000", "BLPDF", "", ""])`, `acceptED(["1000"])`,
`submitED(["1000", "", "INPDF", "PLPDF"])` all succeed and reach a store where
`BL.GetStatus(["1000"])` returns `ACCEPTED_BY_IB` while `Invoice.GetStatus` and
`PL.GetStatus` return `SUBMITTED_BY_EB`; after the first command alone the bill
of lading is at `SUBMITTED_BY_EB` while the other two `GetStatus` calls return
nil. -/
theorem lockstep_broken_by_partial_submission (po : POComponent) (caller : Caller) :
    Reachable po caller (runCommands po caller Store.empty divergingCommands) ∧
    (BL.GetStatus (runCommands po caller Store.empty divergingCommands) ["1000"]).1 =
      .ok (some "ACCEPTED_BY_IB") ∧
    (Invoice.GetStatus (runCommands po caller Store.empty divergingCommands) ["1000"]).1 =
      .ok (some "SUBMITTED_BY_EB") ∧
    (PL.GetStatus (runCommands po caller Store.empty divergingCommands) ["1000"]).1 =
      .ok (some "SUBMITTED_BY_EB") ∧
    (BL.GetStatus
      (Invoke po caller Store.empty "submitED" ["1000", "BLPDF", "", ""]).2 ["1000"]).1 =
      .ok (some "SUBMITTED_BY_EB") ∧
    (Invoice.GetStatus
      (Invoke po caller Store.empty "submitED" ["1000", "BLPDF", "", ""]).2 ["1000"]).1 =
      .ok none := by
  rw [runCommands_diverging po caller,
    invoke_independent_of_context po caller Store.empty (by decide) (by decide)]
  exact ⟨reachable_diverged po caller, by decide, by decide, by decide, by decide, by decide⟩

/-- C14: `acceptED` performs no compensation: in a store reachable by workflow
commands, with the bill of lading at a status `s` that has a next status and the
invoice at a different status from which that next status is an illegal edge,
`acceptED([id])` returns an error although the bill of lading has been moved to
`next(s)`; the invoice keeps its status, so the two now differ. -/
theorem acceptED_leaves_documents_diverged (po : POComponent) (caller : Caller) :
    ∃ (stub : Store) (id s si : String),
      Reachable po caller stub ∧
      (BL.GetStatus stub [id]).1 = .ok (some s) ∧
      (Invoice.GetStatus stub [id]).1 = .ok (some si) ∧
      nextStatus s ≠ s ∧ si ≠ s ∧ (si, nextStatus s) ∉ legalEdges ∧
      (Invoke po caller stub "acceptED" [id]).1 =
        .error "This state transition is not allowed." ∧
      (BL.GetStatus (Invoke po caller stub "acceptED" [id]).2 [id]).1 =
        .ok (some (nextStatus s)) ∧
      (Invoice.GetStatus (Invoke po caller stub "acceptED" [id]).2 [id]).1 =
        .ok (some si) ∧
      nextStatus s ≠ si := by
  refine ⟨Store.diverged, "1000", "ACCEPTED_BY_IB", "SUBMITTED_BY_EB",
    reachable_diverged po caller, by decide, by decide, by decide, by decide, by decide, ?_⟩
  rw [invoke_independent_of_context po caller Store.diverged (by decide) (by decide)]
  exact ⟨by decide, by decide, by decide, by decide⟩

/-! ## The contract registry -/

theorem query_getNumContracts (po : POComponent) (caller : Caller) (stub : Store) :
    Query po caller stub "getNumContracts" [] =
      (.ok (.numContracts (GetRowsBP stub.BPTable "BP").length), stub) := by
  have hfold : ∀ (l : List BPRow) (n : Nat),
      l.foldl (fun counter _ => counter + 1) n = n + l.length := by
    intro l
    induction l with
    | nil => intro n; rfl
    | cons a l ih => intro n; rw [List.foldl_cons, ih, List.length_cons]; omega
  simp [Query, QueryWith, getNumContracts, hfold]

theorem query_getContractParticipants (po : POComponent) (caller : Caller) (stub : Store)
    (args : List String) :
    Query po caller stub "getContractParticipants" args = getContractParticipants stub args := by
  simp [Query, QueryWith, guarded, accessControlFlag]

/-- C16: `initTrade` with a contract id that already has a contract row fails
with "Row already exists." and writes nothing: the purchase order is not
submitted, the existing contract row is still the one stored under the id, and
`getNumContracts` reports the same count. -/
theorem initTrade_duplicate_rejected (po : POComponent) (caller : Caller) (stub : Store)
    (id POJSON i e ib eb c1 c2 c3 c4 : String) (row : BPRow)
    (h : GetRowBP stub.BPTable ("BP", id) = some row) :
    Invoke po caller stub "initTrade" [id, POJSON, i, e, ib, eb, c1, c2, c3, c4] =
      (.error "Row already exists.", stub) ∧
    (Invoke po caller stub "initTrade" [id, POJSON, i, e, ib, eb, c1, c2, c3, c4]).2.POTable =
      stub.POTable ∧
    GetRowBP (Invoke po caller stub "initTrade"
      [id, POJSON, i, e, ib, eb, c1, c2, c3, c4]).2.BPTable ("BP", id) = some row ∧
    (Query po caller (Invoke po caller stub "initTrade"
      [id, POJSON, i, e, ib, eb, c1, c2, c3, c4]).2 "getNumContracts" []).1 =
      (Query po caller stub "getNumContracts" []).1 := by
  rw [invoke_initTrade_present po caller h]
  exact ⟨rfl, rfl, h, rfl⟩

/-- Witness for C16: contract "1000" is initiated a second time, with other
names. -/
theorem initTrade_duplicate_rejected_witness :
    GetRowBP Store.initiated.BPTable ("BP", "1000") =
        some (contractRow "1000" "I" "E" "IB" "EB" "ICert" "ECert" "IBCert" "EBCert") ∧
      Invoke POComponent.idle Caller.anonymous Store.initiated "initTrade"
          ["1000", "po", "X", "Y", "XB", "YB", "c1", "c2", "c3", "c4"] =
        (.error "Row already exists.", Store.initiated) :=
  ⟨by decide,
    (initTrade_duplicate_rejected POComponent.idle Caller.anonymous Store.initiated "1000"
      "po" "X" "Y" "XB" "YB" "c1" "c2" "c3" "c4"
      (contractRow "1000" "I" "E" "IB" "EB" "ICert" "ECert" "IBCert" "EBCert")
      (by decide)).1⟩

/-- C17: for every contract id without a contract row, once
`initTrade([id, po, i, e, ib, eb, c1, c2, c3, c4])` has run,
`getContractParticipants([id])` returns exactly `(i, Importer)`, `(e, Exporter)`,
`(ib, ImporterBank)`, `(eb, ExporterBank)` in that order, and it still does after
any sequence of later commands, `submitED`, `acceptED` and `rejectED` among
them. -/
theorem participants_round_trip (po : POComponent) (caller : Caller) (stub : Store)
    (id POJSON i e ib eb c1 c2 c3 c4 : String)
    (hfresh : GetRowBP stub.BPTable ("BP", id) = none) (cmds : List Command) :
    (Query po caller
      (runCommands po caller
        (Invoke po caller stub "initTrade" [id, POJSON, i, e, ib, eb, c1, c2, c3, c4]).2 cmds)
      "getContractParticipants" [id]).1 =
    .ok (.participants
      [⟨i, "Importer"⟩, ⟨e, "Exporter"⟩, ⟨ib, "ImporterBank"⟩, ⟨eb, "ExporterBank"⟩]) := by
  have hrow : GetRowBP
      (Invoke po caller stub "initTrade" [id, POJSON, i, e, ib, eb, c1, c2, c3, c4]).2.BPTable
      ("BP", id) = some (contractRow id i e ib eb c1 c2 c3 c4) := by
    rw [invoke_initTrade_absent po caller hfresh]
    exact @getRowBP_append_of_absent stub.BPTable (contractRow id i e ib eb c1 c2 c3 c4) hfresh
  have hkept := (runCommands_keeps_contract_rows po caller cmds _).2 _ _ hrow
  rw [query_getContractParticipants]
  simp [getContractParticipants, hkept, contractRow]

/-- Witness for C17: contract "1000" of the test scenario, followed by a
submission and an acceptance. -/
theorem participants_round_trip_witness :
    GetRowBP Store.empty.BPTable ("BP", "1000") = none ∧
      (Query POComponent.idle Caller.anonymous
        (runCommands POComponent.idle Caller.anonymous
          (Invoke POComponent.idle Caller.anonymous Store.empty "initTrade"
            ["1000", "po", "I", "E", "IB", "EB", "ICert", "ECert", "IBCert", "EBCert"]).2
          [("submitED", ["1000", "BLPDF", "INPDF", "PLPDF"]), ("acceptED", ["1000"])])
        "getContractParticipants" ["1000"]).1 =
      .ok (.participants
        [⟨"I", "Importer"⟩, ⟨"E", "Exporter"⟩, ⟨"IB", "ImporterBank"⟩,
          ⟨"EB", "ExporterBank"⟩]) :=
  ⟨by decide,
    participants_round_trip POComponent.idle Caller.anonymous Store.empty "1000" "po" "I" "E"
      "IB" "EB" "ICert" "ECert" "IBCert" "EBCert" (by decide)
      [("submitED", ["1000", "BLPDF", "INPDF", "PLPDF"]), ("acceptED", ["1000"])]⟩

/-- C18, counterexample: on the empty store `getContractParticipants(["1000"])`,
called directly or through `Query`, returns `(nil, nil)`, not an error. -/
theorem getContractParticipants_absent_is_not_an_error :
    GetRowBP Store.empty.BPTable ("BP", "1000") = none ∧
      getContractParticipants Store.empty ["1000"] = (.ok (.raw none), Store.empty) ∧
      Query POComponent.idle Caller.anonymous Store.empty "getContractParticipants" ["1000"] =
        (.ok (.raw none), Store.empty) ∧
      ¬ ∃ msg, (getContractParticipants Store.empty ["1000"]).1 = .error msg := by
  refine ⟨by decide, by decide, by decide, ?_⟩
  rintro ⟨msg, h⟩
  have h2 : (getContractParticipants Store.empty ["1000"]).1 = .ok (.raw none) := by decide
  rw [h2] at h
  cases h

/-- C18, amended: `getContractParticipants([id])` for a contract id that has no
contract row returns a nil result and no error, called directly or through
`Query` as compiled; only with access control switched on does `Query` fail, with
the participant check's "Failed retrieving row with contract ID" error. -/
theorem getContractParticipants_absent (po : POComponent) (caller : Caller) (stub : Store)
    (id : String) (h : GetRowBP stub.BPTable ("BP", id) = none) :
    getContractParticipants stub [id] = (.ok (.raw none), stub) ∧
    Query po caller stub "getContractParticipants" [id] = (.ok (.raw none), stub) ∧
    QueryWith true po caller stub "getContractParticipants" [id] =
      (.error ("Failed retrieving row with contract ID " ++ id), stub) := by
  refine ⟨?_, ?_, ?_⟩
  · simp [getContractParticipants, h]
  · rw [query_getContractParticipants]
    simp [getContractParticipants, h]
  · simp [QueryWith, guarded, isCallerParticipant, h]

/-- Witness for C18, amended: contract "2000" is unknown to a store that holds
contract "1000". -/
theorem getContractParticipants_absent_witness :
    GetRowBP Store.initiated.BPTable ("BP", "2000") = none ∧
      getContractParticipants Store.initiated ["2000"] = (.ok (.raw none), Store.initiated) :=
  ⟨by decide,
    (getContractParticipants_absent POComponent.idle Caller.anonymous Store.initiated "2000"
      (by decide)).1⟩

/-- C19: contract rows are write-once.  In every store reachable from the empty
store by workflow commands no contract id has two contract rows; and on any
store, whatever the command and its arguments and whether it succeeds or fails,
`Invoke` deletes and changes no contract row: the old contract table is an
initial segment of the new one, and a row stored under a contract id is still
the row stored under it, with its status, names and certificates. -/
theorem contract_rows_write_once (po : POComponent) (caller : Caller) :
    (∀ s, Reachable po caller s →
      (s.BPTable.map BPRow.UID).Nodup ∧ ∀ r ∈ s.BPTable, r.TypeTag = "BP") ∧
    (∀ (stub : Store) (f : String) (args : List String),
      stub.BPTable <+: (Invoke po caller stub f args).2.BPTable ∧
      ∀ id row, GetRowBP stub.BPTable ("BP", id) = some row →
        GetRowBP (Invoke po caller stub f args).2.BPTable ("BP", id) = some row) ∧
    (∀ (stub : Store) (cmds : List Command) (id : String) (row : BPRow),
      GetRowBP stub.BPTable ("BP", id) = some row →
        GetRowBP (runCommands po caller stub cmds).BPTable ("BP", id) = some row) := by
  refine ⟨?_, ?_, ?_⟩
  · rintro s ⟨cmds, _, rfl⟩
    have h := (runCommands_contract_ids po caller cmds Store.empty contractsWellFormed_nil).1
    exact ⟨h.2, h.1⟩
  · intro stub f args
    have h := invoke_keeps_contract_rows po caller stub f args
    exact ⟨h.1, fun id row hrow => h.2 _ row hrow⟩
  · intro stub cmds id row hrow
    exact (runCommands_keeps_contract_rows po caller cmds stub).2 _ row hrow

/-- Witness for C19: contract "1000" survives a second `initTrade` under its
id. -/
theorem contract_rows_write_once_witness :
    GetRowBP Store.initiated.BPTable ("BP", "1000") =
        some (contractRow "1000" "I" "E" "IB" "EB" "ICert" "ECert" "IBCert" "EBCert") ∧
      GetRowBP
          (Invoke POComponent.idle Caller.anonymous Store.initiated "initTrade"
            ["1000", "po", "X", "Y", "XB", "YB", "c1", "c2", "c3", "c4"]).2.BPTable
          ("BP", "1000") =
        some (contractRow "1000" "I" "E" "IB" "EB" "ICert" "ECert" "IBCert" "EBCert") :=
  ⟨by decide,
    ((contract_rows_write_once POComponent.idle Caller.anonymous).2.1 Store.initiated
      "initTrade" ["1000", "po", "X", "Y", "XB", "YB", "c1", "c2", "c3", "c4"]).2 "1000"
      (contractRow "1000" "I" "E" "IB" "EB" "ICert" "ECert" "IBCert" "EBCert") (by decide)⟩

/-- C20, the code at the failing input.  `getNumContracts([])` counts the rows the
scan of the contract table delivers: 0 on the empty store, and after any command
sequence from the empty store the number of distinct non-empty contract ids
carried by the ten-argument `initTrade` commands of the sequence; `submitED`,
`acceptED`, `rejectED` and an `initTrade` whose contract id already has a row
never change it.  `initTrade` accepts the empty string as contract id and stores
the row, `getContractParticipants([""])` finds it, but the scan does not deliver
it: after that one `initTrade` the contract table has one row and
`getNumContracts([])` returns 0. -/
theorem getNumContracts_counts_contracts (po : POComponent) (caller : Caller) :
    (Query po caller Store.empty "getNumContracts" []).1 = .ok (.numContracts 0) ∧
    (∀ cmds : List Command,
      (Query po caller (runCommands po caller Store.empty cmds) "getNumContracts" []).1 =
        .ok (.numContracts
          ((initTradeIds cmds).dedup.filter fun id => decide (id ≠ "")).length)) ∧
    (∀ (stub : Store) (f : String) (args : List String),
      f ∈ ["submitED", "acceptED", "rejectED"] →
      (Query po caller (Invoke po caller stub f args).2 "getNumContracts" []).1 =
        (Query po caller stub "getNumContracts" []).1) ∧
    (∀ (stub : Store) (id : String) (rest : List String) (row : BPRow),
      GetRowBP stub.BPTable ("BP", id) = some row →
      (Query po caller (Invoke po caller stub "initTrade" (id :: rest)).2
        "getNumContracts" []).1 = (Query po caller stub "getNumContracts" []).1) ∧
    ((runCommands po caller Store.empty
        [("initTrade", ["", "po", "I", "E", "IB", "EB", "c1", "c2", "c3", "c4"])]).BPTable =
        [contractRow "" "I" "E" "IB" "EB" "c1" "c2" "c3" "c4"] ∧
      (Query po caller
        (runCommands po caller Store.empty
          [("initTrade", ["", "po", "I", "E", "IB", "EB", "c1", "c2", "c3", "c4"])])
        "getContractParticipants" [""]).1 =
        .ok (.participants [⟨"I", "Importer"⟩, ⟨"E", "Exporter"⟩, ⟨"IB", "ImporterBank"⟩,
          ⟨"EB", "ExporterBank"⟩]) ∧
      (Query po caller
        (runCommands po caller Store.empty
          [("initTrade", ["", "po", "I", "E", "IB", "EB", "c1", "c2", "c3", "c4"])])
        "getNumContracts" []).1 = .ok (.numContracts 0)) := by
  refine ⟨?_, ?_, ?_, ?_, ?_⟩
  · rw [query_getNumContracts]
    rfl
  · intro cmds
    obtain ⟨hwf, hmem⟩ :=
      runCommands_contract_ids po caller cmds Store.empty contractsWellFormed_nil
    rw [query_getNumContracts, length_getRowsBP]
    have hperm : ((runCommands po caller Store.empty cmds).BPTable.map BPRow.UID).Perm
        (initTradeIds cmds).dedup := by
      rw [List.perm_ext_iff_of_nodup hwf.2 (List.nodup_dedup _)]
      intro x
      rw [hmem x, List.mem_dedup]
      simp [Store.empty]
    have hf : ((runCommands po caller Store.empty cmds).BPTable.filter
          fun r => r.TypeTag == "BP" && r.UID != "").map BPRow.UID =
        ((runCommands po caller Store.empty cmds).BPTable.map BPRow.UID).filter
          fun id => decide (id ≠ "") := by
      rw [List.filter_map]
      congr 1
      apply List.filter_congr
      intro r hr
      simp only [Function.comp, hwf.1 r hr, beq_self_eq_true, Bool.true_and, bne, ne_eq,
        decide_not]
      by_cases hu : r.UID = "" <;> simp [hu]
    have hlen := (hperm.filter fun id => decide (id ≠ "")).length_eq
    rw [← hf, List.length_map] at hlen
    rw [hlen]
  · intro stub f args hf
    have hne : f ≠ "initTrade" := by
      simp only [List.mem_cons, List.mem_singleton, List.not_mem_nil, or_false] at hf
      rcases hf with rfl | rfl | rfl <;> decide
    rw [query_getNumContracts, query_getNumContracts,
      invoke_BPTable_of_ne po caller stub hne]
  · intro stub id rest row hrow
    rw [query_getNumContracts, query_getNumContracts]
    by_cases hlen : (id :: rest).length = 10
    · obtain ⟨a0, a1, a2, a3, a4, a5, a6, a7, a8, a9, hargs⟩ := list_of_length_ten hlen
      have hid : a0 = id := by
        have := congrArg List.head? hargs
        simpa using this.symm
      subst hid
      rw [hargs, invoke_initTrade_present po caller hrow]
    · rw [invoke_initTrade_arity po caller stub hlen]
  · have hfresh : GetRowBP Store.empty.BPTable ("BP", "") = none := rfl
    simp only [runCommands]
    rw [invoke_initTrade_absent po caller hfresh]
    refine ⟨rfl, ?_, ?_⟩
    · rw [query_getContractParticipants]
      rfl
    · rw [query_getNumContracts]
      rfl

/-- Witness for C20: submitting the export documents of contract "1000" leaves
the count as it was. -/
theorem getNumContracts_counts_contracts_witness :
    ("submitED" ∈ ["submitED", "acceptED", "rejectED"]) ∧
      (Query POComponent.idle Caller.anonymous
        (Invoke POComponent.idle Caller.anonymous Store.initiated "submitED"
          ["1000", "BLPDF", "INPDF", "PLPDF"]).2 "getNumContracts" []).1 =
      (Query POComponent.idle Caller.anonymous Store.initiated "getNumContracts" []).1 :=
  ⟨by decide,
    (getNumContracts_counts_contracts POComponent.idle Caller.anonymous).2.2.1 Store.initiated
      "submitED" ["1000", "BLPDF", "INPDF", "PLPDF"] (by decide)⟩

/-! ## The audit queries in closed form -/

theorem bl_getStatus_eq (stub : Store) (id : String) :
    BL.GetStatus stub [id] = (.ok (DocKind.BL.statusOf stub id), stub) :=
  DocKind.BL.statusOf_getStatus stub id

theorem listContractsLoop_off (caller : Caller) (stub : Store) (rows : List BPRow) :
    ∀ acc : List Contract,
      listContractsLoop false caller rows stub acc =
        (.ok (.contracts (acc ++ rows.map fun row =>
          if bytesToString (DocKind.BL.statusOf stub row.UID) ≠ "" then
            ⟨row.UID, bytesToString (DocKind.BL.statusOf stub row.UID)⟩
          else ⟨row.UID, row.Status⟩)), stub) := by
  induction rows with
  | nil => intro acc; simp [listContractsLoop]
  | cons row rows ih =>
    intro acc
    rw [listContractsLoop, bl_getStatus_eq]
    simp only [Bool.false_eq_true, if_false]
    rw [ih]
    simp

theorem listContractsByRoleLoop_off (caller : Caller) (role : String) (stub : Store)
    (rows : List BPRow) :
    ∀ acc : List Contract,
      listContractsByRoleLoop false caller role rows stub acc =
        listContractsLoop false caller rows stub acc := by
  induction rows with
  | nil => intro acc; simp [listContractsLoop, listContractsByRoleLoop]
  | cons row rows ih =>
    intro acc
    rw [listContractsLoop, listContractsByRoleLoop, bl_getStatus_eq]
    simp only [Bool.false_eq_true, if_false, and_false]
    rw [ih]

theorem listEDsByStatusLoop_off (caller : Caller) (status : String) (stub : Store)
    (rows : List BPRow) :
    ∀ acc : List Contract,
      listEDsByStatusLoop false caller status rows stub acc =
        (.ok (.contracts (acc ++
          (rows.filter fun row =>
            decide (bytesToString (DocKind.BL.statusOf stub row.UID) = status)).map
            fun row => ⟨row.UID, status⟩)), stub) := by
  induction rows with
  | nil => intro acc; simp [listEDsByStatusLoop]
  | cons row rows ih =>
    intro acc
    rw [listEDsByStatusLoop, bl_getStatus_eq]
    simp only [Bool.false_eq_true, if_false]
    by_cases h : status = bytesToString (DocKind.BL.statusOf stub row.UID)
    · rw [if_pos h, ih]
      simp [List.filter_cons, ← h]
    · rw [if_neg h, ih]
      have h2 : ¬ bytesToString (DocKind.BL.statusOf stub row.UID) = status := fun e => h e.symm
      simp [List.filter_cons, h2]

theorem query_listContracts (po : POComponent) (caller : Caller) (stub : Store)
    (args : List String) :
    Query po caller stub "listContracts" args = listContracts false caller stub args := by
  simp [Query, QueryWith, accessControlFlag]

theorem query_listContractsByRole (po : POComponent) (caller : Caller) (stub : Store)
    (args : List String) :
    Query po caller stub "listContractsByRole" args =
      listContractsByRole false caller stub args := by
  simp [Query, QueryWith, accessControlFlag]

theorem query_listEDsByStatus (po : POComponent) (caller : Caller) (stub : Store)
    (args : List String) :
    Query po caller stub "listEDsByStatus" args = listEDsByStatus false caller stub args := by
  simp [Query, QueryWith, accessControlFlag]

theorem statusOf_ne_empty {stub : Store} (h : ∀ r ∈ stub.BLTable, r.Status ≠ "") (id : String) :
    bytesToString (DocKind.BL.statusOf stub id) ≠ "" ↔
      (GetRow stub.BLTable ("DOC", id)).isSome := by
  unfold DocKind.statusOf DocKind.table
  cases hrow : GetRow stub.BLTable ("DOC", id) with
  | none => simp [bytesToString]
  | some row =>
    have hmem : row ∈ stub.BLTable := List.mem_of_find?_eq_some hrow
    simpa [bytesToString] using h row hmem

/-! ## The audit queries -/

/-- C21, the code at the failing input.  With access control off,
`listContracts([])` returns one entry per row the scan of the contract table
delivers, in scan order, whose `ContractID` is the row's id and whose
`ContractStatus` is the status `BL.GetStatus` reports for that id when it is not
empty and the row's own status field otherwise; as every status the code writes
is non-empty, that is the bill of lading's status when a bill of lading exists
and the row's own status when none does.  The scan delivers the contract rows
with a non-empty id, each once, in the order of their ledger keys, so contract
"1000" is listed before "1001" also when it is created after it.  On the empty
store the list is empty and there is no error.  The contract row that
`initTrade` stores under the empty id is not delivered: after that one
`initTrade` the contract table has one row and `listContracts([])` returns the
empty list. -/
theorem listContracts_overlays_bl_status (po : POComponent) (caller : Caller) (stub : Store) :
    Query po caller stub "listContracts" [] =
      (.ok (.contracts ((GetRowsBP stub.BPTable "BP").map fun row =>
        if bytesToString (DocKind.BL.statusOf stub row.UID) ≠ "" then
          ⟨row.UID, bytesToString (DocKind.BL.statusOf stub row.UID)⟩
        else ⟨row.UID, row.Status⟩)), stub) ∧
    ((∀ r ∈ stub.BLTable, r.Status ≠ "") →
      (Query po caller stub "listContracts" []).1 =
        .ok (.contracts ((GetRowsBP stub.BPTable "BP").map fun row =>
          match GetRow stub.BLTable ("DOC", row.UID) with
          | some doc => ⟨row.UID, doc.Status⟩
          | none => ⟨row.UID, row.Status⟩))) ∧
    ((GetRowsBP stub.BPTable "BP").Perm
        (stub.BPTable.filter fun r => decide (r.TypeTag = "BP" ∧ r.UID ≠ "")) ∧
      (GetRowsBP stub.BPTable "BP").Sorted
        fun a b => keyLe (scanKey a.UID) (scanKey b.UID) = true) ∧
    Query po caller Store.empty "listContracts" [] = (.ok (.contracts []), Store.empty) ∧
    (Query po caller
      (runCommands po caller Store.empty
        [("initTrade", ["1001", "po", "I", "E", "IB", "EB", "c1", "c2", "c3", "c4"]),
         ("initTrade", ["1000", "po", "I", "E", "IB", "EB", "c1", "c2", "c3", "c4"])])
      "listContracts" []).1 =
      .ok (.contracts [⟨"1000", "IN_PROGRESS"⟩, ⟨"1001", "IN_PROGRESS"⟩]) ∧
    ((Invoke po caller Store.empty "initTrade"
        ["", "po", "I", "E", "IB", "EB", "c1", "c2", "c3", "c4"]).2.BPTable =
        [contractRow "" "I" "E" "IB" "EB" "c1" "c2" "c3" "c4"] ∧
      (Query po caller
        (Invoke po caller Store.empty "initTrade"
          ["", "po", "I", "E", "IB", "EB", "c1", "c2", "c3", "c4"]).2
        "listContracts" []).1 = .ok (.contracts [])) := by
  have e : ∀ s : Store, Query po caller s "listContracts" [] = _ := fun s => by
    rw [query_listContracts, listContracts, listContractsLoop_off, List.nil_append]
  refine ⟨e stub, ?_, ⟨?_, getRowsBP_sorted _ _⟩, ?_, ?_, ?_⟩
  · intro h
    rw [e stub]
    simp only
    congr 2
    apply List.map_congr_left
    intro row _
    have hiff := statusOf_ne_empty h row.UID
    cases hrow : GetRow stub.BLTable ("DOC", row.UID) with
    | none =>
      rw [hrow] at hiff
      simp at hiff
      simp [hiff]
    | some doc =>
      rw [hrow] at hiff
      simp only [Option.isSome_some, iff_true] at hiff
      rw [if_pos hiff]
      simp [DocKind.statusOf, DocKind.table, hrow, bytesToString]
  · have hp := getRowsBP_perm stub.BPTable "BP"
    have hfil : (stub.BPTable.filter fun r => r.TypeTag == "BP" && r.UID != "") =
        stub.BPTable.filter fun r => decide (r.TypeTag = "BP" ∧ r.UID ≠ "") := by
      apply List.filter_congr
      intro r _
      by_cases h1 : r.TypeTag = "BP" <;> by_cases h2 : r.UID = "" <;> simp [h1, h2]
    rw [hfil] at hp
    exact hp
  · rw [e Store.empty]
    rfl
  · have h1 : GetRowBP Store.empty.BPTable ("BP", "1001") = none := rfl
    simp only [runCommands]
    rw [invoke_initTrade_absent po caller h1]
    rw [invoke_initTrade_absent po caller (by rfl)]
    rw [e]
    rfl
  · have hfresh : GetRowBP Store.empty.BPTable ("BP", "") = none := rfl
    rw [invoke_initTrade_absent po caller hfresh]
    refine ⟨rfl, ?_⟩
    rw [e]
    rfl

/-- Witness for C21: the three contracts of the audited store. -/
theorem listContracts_overlays_bl_status_witness :
    (∀ r ∈ Store.audited.BLTable, r.Status ≠ "") ∧
      (Query POComponent.idle Caller.anonymous Store.audited "listContracts" []).1 =
        .ok (.contracts
          [⟨"1000", "PAYMENT_INITIATED"⟩, ⟨"1001", "REJECTED_BY_IB"⟩, ⟨"1002", "IN_PROGRESS"⟩]) :=
  ⟨by decide,
    ((listContracts_overlays_bl_status POComponent.idle Caller.anonymous Store.audited).2.1
      (by decide)).trans (by decide)⟩

/-- C22: with access control off, for every store and every role among
`Importer`, `Exporter`, `ImporterBank`, `ExporterBank`,
`listContractsByRole([role])` returns what `listContracts([])` returns, nothing
being filtered; for any other role string it returns the usage error. -/
theorem listContractsByRole_is_listContracts (po : POComponent) (caller : Caller)
    (stub : Store) (role : String) :
    (role ∈ ["Importer", "Exporter", "ImporterBank", "ExporterBank"] →
      Query po caller stub "listContractsByRole" [role] =
        Query po caller stub "listContracts" []) ∧
    (role ∉ ["Importer", "Exporter", "ImporterBank", "ExporterBank"] →
      Query po caller stub "listContractsByRole" [role] =
        (.error "Role should be Importer, Exporter, ImporterBank or ExporterBank.", stub)) := by
  rw [query_listContractsByRole, query_listContracts]
  simp only [List.mem_cons, List.mem_singleton, List.not_mem_nil, or_false, not_or]
  constructor
  · intro h
    have hne : ¬ (role ≠ "Importer" ∧ role ≠ "Exporter" ∧ role ≠ "ImporterBank" ∧
        role ≠ "ExporterBank") := by
      rintro ⟨h1, h2, h3, h4⟩
      rcases h with h | h | h | h
      · exact h1 h
      · exact h2 h
      · exact h3 h
      · exact h4 h
    rw [listContractsByRole, if_neg hne, listContractsByRoleLoop_off, listContracts]
  · intro h
    rw [listContractsByRole, if_pos h]

/-- Witness for C22: the importer bank's listing of the audited store, and a
role that does not exist. -/
theorem listContractsByRole_is_listContracts_witness :
    Query POComponent.idle Caller.anonymous Store.audited "listContractsByRole"
        ["ImporterBank"] =
        Query POComponent.idle Caller.anonymous Store.audited "listContracts" [] ∧
      Query POComponent.idle Caller.anonymous Store.audited "listContractsByRole" ["Carrier"] =
        (.error "Role should be Importer, Exporter, ImporterBank or ExporterBank.",
          Store.audited) :=
  ⟨(listContractsByRole_is_listContracts POComponent.idle Caller.anonymous Store.audited
      "ImporterBank").1 (by decide),
    (listContractsByRole_is_listContracts POComponent.idle Caller.anonymous Store.audited
      "Carrier").2 (by decide)⟩

/-- C23, the code at the failing input.  With access control off, for every
store and every status string `s`, `listEDsByStatus([s])` returns exactly the rows
the scan of the contract table delivers for whose id `BL.GetStatus` reports `s`,
in scan order, each with `ContractStatus` `s`; in particular, after `initTrade`
and then `submitED` with a non-empty bill of lading on the empty store, for a
non-empty contract id, `listEDsByStatus(["SUBMITTED_BY_EB"])` returns the single
contract with the submitted id.  For the empty contract id, which `initTrade`
and `submitED` accept as well, the bill of lading is stored with status
`SUBMITTED_BY_EB` and `getEDStatus([""])` reports it, but the scan does not
deliver the contract row and `listEDsByStatus(["SUBMITTED_BY_EB"])` returns the
empty list. -/
theorem listEDsByStatus_filters_on_bl_status (po : POComponent) (caller : Caller)
    (stub : Store) (s : String) :
    Query po caller stub "listEDsByStatus" [s] =
      (.ok (.contracts
        (((GetRowsBP stub.BPTable "BP").filter fun row =>
            decide (bytesToString (DocKind.BL.statusOf stub row.UID) = s)).map
          fun row => ⟨row.UID, s⟩)), stub) ∧
    (∀ id POJSON i e ib eb c1 c2 c3 c4 bl inv pl : String, bl ≠ "" → id ≠ "" →
      (Query po caller
        (runCommands po caller Store.empty
          [("initTrade", [id, POJSON, i, e, ib, eb, c1, c2, c3, c4]),
           ("submitED", [id, bl, inv, pl])])
        "listEDsByStatus" ["SUBMITTED_BY_EB"]).1 =
      .ok (.contracts [⟨id, "SUBMITTED_BY_EB"⟩])) ∧
    ((Query po caller
        (runCommands po caller Store.empty
          [("initTrade", ["", "po", "I", "E", "IB", "EB", "c1", "c2", "c3", "c4"]),
           ("submitED", ["", "BLPDF", "INPDF", "PLPDF"])])
        "getEDStatus" [""]).1 = .ok (.status "SUBMITTED_BY_EB") ∧
      (Query po caller
        (runCommands po caller Store.empty
          [("initTrade", ["", "po", "I", "E", "IB", "EB", "c1", "c2", "c3", "c4"]),
           ("submitED", ["", "BLPDF", "INPDF", "PLPDF"])])
        "listEDsByStatus" ["SUBMITTED_BY_EB"]).1 = .ok (.contracts [])) := by
  have e : ∀ (t : Store) (st : String), Query po caller t "listEDsByStatus" [st] = _ :=
    fun t st => by
      rw [query_listEDsByStatus, listEDsByStatus, listEDsByStatusLoop_off, List.nil_append]
  have hs : ∀ id POJSON i e1 ib eb c1 c2 c3 c4 bl inv pl : String, bl ≠ "" →
      runCommands po caller Store.empty
        [("initTrade", [id, POJSON, i, e1, ib, eb, c1, c2, c3, c4]),
         ("submitED", [id, bl, inv, pl])] =
        { BPTable := [contractRow id i e1 ib eb c1 c2 c3 c4]
          POTable := (po.SubmitDoc [] [id, POJSON]).2
          BLTable := [⟨"DOC", id, bl, "SUBMITTED_BY_EB"⟩]
          invoiceTable := if inv = "" then [] else [⟨"DOC", id, inv, "SUBMITTED_BY_EB"⟩]
          PLTable := if pl = "" then [] else [⟨"DOC", id, pl, "SUBMITTED_BY_EB"⟩] } := by
    intro id POJSON i e1 ib eb c1 c2 c3 c4 bl inv pl hbl
    have hfresh : GetRowBP Store.empty.BPTable ("BP", id) = none := rfl
    simp only [runCommands]
    rw [invoke_initTrade_absent po caller hfresh]
    rw [invoke_submitED_absent_eq po caller bl inv pl (fun k => by cases k <;> rfl)]
    simp [Store.empty, hbl]
  refine ⟨e stub s, ?_, ?_, ?_⟩
  · intro id POJSON i e1 ib eb c1 c2 c3 c4 bl inv pl hbl hid
    rw [hs id POJSON i e1 ib eb c1 c2 c3 c4 bl inv pl hbl, e]
    simp only
    rw [getRowsBP_singleton]
    simp [contractRow, hid, DocKind.statusOf, DocKind.table, GetRow, DocRow.key, bytesToString]
  · rw [hs "" "po" "I" "E" "IB" "EB" "c1" "c2" "c3" "c4" "BLPDF" "INPDF" "PLPDF" (by decide),
      query_getEDStatus]
    rfl
  · rw [hs "" "po" "I" "E" "IB" "EB" "c1" "c2" "c3" "c4" "BLPDF" "INPDF" "PLPDF" (by decide), e]
    rfl

/-- Witness for C23: the test scenario's first trade. -/
theorem listEDsByStatus_filters_on_bl_status_witness :
    ("BLPDF" ≠ "") ∧ ("1000" ≠ "") ∧
      (Query POComponent.idle Caller.anonymous
        (runCommands POComponent.idle Caller.anonymous Store.empty
          [("initTrade", ["1000", "po", "I", "E", "IB", "EB", "ICert", "ECert", "IBCert",
            "EBCert"]),
           ("submitED", ["1000", "BLPDF", "INPDF", "PLPDF"])])
        "listEDsByStatus" ["SUBMITTED_BY_EB"]).1 =
      .ok (.contracts [⟨"1000", "SUBMITTED_BY_EB"⟩]) :=
  ⟨by decide, by decide,
    (listEDsByStatus_filters_on_bl_status POComponent.idle Caller.anonymous Store.empty
      "SUBMITTED_BY_EB").2.1 "1000" "po" "I" "E" "IB" "EB" "ICert" "ECert" "IBCert" "EBCert"
      "BLPDF" "INPDF" "PLPDF" (by decide) (by decide)⟩

/-! ## Reads leave the store alone -/

theorem isCaller_store (caller : Caller) (stub : Store) (certificate : String) :
    (isCaller caller stub certificate).2 = stub := by
  unfold isCaller
  split
  · rfl
  · split
    · rfl
    · split <;> rfl

theorem isCallerImporter_found (caller : Caller) {stub : Store} {UID : String} {row : BPRow}
    (h : GetRowBP stub.BPTable ("BP", UID) = some row) :
    isCallerImporter caller stub [UID] =
      ((match (isCaller caller stub row.ImporterCert).1 with
        | (_, some _) => (false, some "Failed checking importer's identity")
        | (ok, none) => (ok, none)), stub) := by
  have hs := isCaller_store caller stub row.ImporterCert
  rcases hc : isCaller caller stub row.ImporterCert with ⟨⟨ok, err⟩, s2⟩
  rw [hc] at hs
  simp only at hs
  subst hs
  simp only [isCallerImporter, h, hc]
  cases err with
  | some e => rfl
  | none => cases ok <;> rfl

theorem isCallerImporter_absent (caller : Caller) {stub : Store} {UID : String}
    (h : GetRowBP stub.BPTable ("BP", UID) = none) :
    isCallerImporter caller stub [UID] =
      ((false, some ("Failed retrieving row with contract ID " ++ UID)), stub) := by
  simp only [isCallerImporter, h]

theorem isCallerImporter_store (caller : Caller) (stub : Store) (args : List String) :
    (isCallerImporter caller stub args).2 = stub := by
  match args with
  | [] => rfl
  | _ :: _ :: _ => rfl
  | [UID] =>
    cases h : GetRowBP stub.BPTable ("BP", UID) with
    | none => rw [isCallerImporter_absent caller h]
    | some row => rw [isCallerImporter_found caller h]

theorem isCallerExporter_found (caller : Caller) {stub : Store} {UID : String} {row : BPRow}
    (h : GetRowBP stub.BPTable ("BP", UID) = some row) :
    isCallerExporter caller stub [UID] =
      ((match (isCaller caller stub row.ExporterCert).1 with
        | (_, some err) => (false, some ("Failed checking exporter identity " ++ err))
        | (ok, none) => (ok, none)), stub) := by
  have hs := isCaller_store caller stub row.ExporterCert
  rcases hc : isCaller caller stub row.ExporterCert with ⟨⟨ok, err⟩, s2⟩
  rw [hc] at hs
  simp only at hs
  subst hs
  simp only [isCallerExporter, h, hc]
  cases err with
  | some e => rfl
  | none => cases ok <;> rfl

theorem isCallerExporter_absent (caller : Caller) {stub : Store} {UID : String}
    (h : GetRowBP stub.BPTable ("BP", UID) = none) :
    isCallerExporter caller stub [UID] =
      ((false, some ("Failed retrieving row with contract ID " ++ UID)), stub) := by
  simp only [isCallerExporter, h]

theorem isCallerExporter_store (caller : Caller) (stub : Store) (args : List String) :
    (isCallerExporter caller stub args).2 = stub := by
  match args with
  | [] => rfl
  | _ :: _ :: _ => rfl
  | [UID] =>
    cases h : GetRowBP stub.BPTable ("BP", UID) with
    | none => rw [isCallerExporter_absent caller h]
    | some row => rw [isCallerExporter_found caller h]

theorem isCallerImporterBank_found (caller : Caller) {stub : Store} {UID : String} {row : BPRow}
    (h : GetRowBP stub.BPTable ("BP", UID) = some row) :
    isCallerImporterBank caller stub [UID] =
      ((match (isCaller caller stub row.ImporterBankCert).1 with
        | (_, some _) => (false, some "Failed checking importer bank's identity")
        | (ok, none) => (ok, none)), stub) := by
  have hs := isCaller_store caller stub row.ImporterBankCert
  rcases hc : isCaller caller stub row.ImporterBankCert with ⟨⟨ok, err⟩, s2⟩
  rw [hc] at hs
  simp only at hs
  subst hs
  simp only [isCallerImporterBank, h, hc]
  cases err with
  | some e => rfl
  | none => cases ok <;> rfl

theorem isCallerImporterBank_absent (caller : Caller) {stub : Store} {UID : String}
    (h : GetRowBP stub.BPTable ("BP", UID) = none) :
    isCallerImporterBank caller stub [UID] =
      ((false, some ("Failed retrieving row with contract ID " ++ UID)), stub) := by
  simp only [isCallerImporterBank, h]

theorem isCallerImporterBank_store (caller : Caller) (stub : Store) (args : List String) :
    (isCallerImporterBank caller stub args).2 = stub := by
  match args with
  | [] => rfl
  | _ :: _ :: _ => rfl
  | [UID] =>
    cases h : GetRowBP stub.BPTable ("BP", UID) with
    | none => rw [isCallerImporterBank_absent caller h]
    | some row => rw [isCallerImporterBank_found caller h]

theorem isCallerExporterBank_found (caller : Caller) {stub : Store} {UID : String} {row : BPRow}
    (h : GetRowBP stub.BPTable ("BP", UID) = some row) :
    isCallerExporterBank caller stub [UID] =
      ((match (isCaller caller stub row.ExporterBankCert).1 with
        | (_, some err) => (false, some ("Failed checking exporter bank's identity " ++ err))
        | (ok, none) => (ok, none)), stub) := by
  have hs := isCaller_store caller stub row.ExporterBankCert
  rcases hc : isCaller caller stub row.ExporterBankCert with ⟨⟨ok, err⟩, s2⟩
  rw [hc] at hs
  simp only at hs
  subst hs
  simp only [isCallerExporterBank, h, hc]
  cases err with
  | some e => rfl
  | none => cases ok <;> rfl

theorem isCallerExporterBank_absent (caller : Caller) {stub : Store} {UID : String}
    (h : GetRowBP stub.BPTable ("BP", UID) = none) :
    isCallerExporterBank caller stub [UID] =
      ((false, some ("Failed retrieving row with contract ID " ++ UID)), stub) := by
  simp only [isCallerExporterBank, h]

theorem isCallerExporterBank_store (caller : Caller) (stub : Store) (args : List String) :
    (isCallerExporterBank caller stub args).2 = stub := by
  match args with
  | [] => rfl
  | _ :: _ :: _ => rfl
  | [UID] =>
    cases h : GetRowBP stub.BPTable ("BP", UID) with
    | none => rw [isCallerExporterBank_absent caller h]
    | some row => rw [isCallerExporterBank_found caller h]

theorem isCallerParticipant_found (caller : Caller) {stub : Store} {UID : String}
    {row : BPRow} (h : GetRowBP stub.BPTable ("BP", UID) = some row) :
    isCallerParticipant caller stub [UID] =
      ((match (isCaller caller stub row.ImporterCert).1, (isCaller caller stub row.ExporterCert).1,
          (isCaller caller stub row.ImporterBankCert).1,
          (isCaller caller stub row.ExporterBankCert).1 with
        | (_, some e1), (_, some e2), (_, some e3), (_, some e4) =>
          (false, some (e1 ++ " " ++ e2 ++ " " ++ e3 ++ " " ++ e4))
        | (ok1, _), (ok2, _), (ok3, _), (ok4, _) => (ok1 || ok2 || ok3 || ok4, none)), stub) := by
  have hs1 := isCaller_store caller stub row.ImporterCert
  rcases hc1 : isCaller caller stub row.ImporterCert with ⟨⟨ok1, err1⟩, s1⟩
  rw [hc1] at hs1
  simp only at hs1
  subst hs1
  have hs2 := isCaller_store caller s1 row.ExporterCert
  rcases hc2 : isCaller caller s1 row.ExporterCert with ⟨⟨ok2, err2⟩, s2⟩
  rw [hc2] at hs2
  simp only at hs2
  subst hs2
  have hs3 := isCaller_store caller s2 row.ImporterBankCert
  rcases hc3 : isCaller caller s2 row.ImporterBankCert with ⟨⟨ok3, err3⟩, s3⟩
  rw [hc3] at hs3
  simp only at hs3
  subst hs3
  have hs4 := isCaller_store caller s3 row.ExporterBankCert
  rcases hc4 : isCaller caller s3 row.ExporterBankCert with ⟨⟨ok4, err4⟩, s4⟩
  rw [hc4] at hs4
  simp only at hs4
  subst hs4
  simp only [isCallerParticipant, h, hc1, hc2, hc3, hc4]
  cases err1 <;> cases err2 <;> cases err3 <;> cases err4 <;>
    cases ok1 <;> cases ok2 <;> cases ok3 <;> cases ok4 <;> rfl

theorem isCallerParticipant_absent (caller : Caller) {stub : Store} {UID : String}
    (h : GetRowBP stub.BPTable ("BP", UID) = none) :
    isCallerParticipant caller stub [UID] =
      ((false, some ("Failed retrieving row with contract ID " ++ UID)), stub) := by
  simp only [isCallerParticipant, h]

theorem isCallerParticipant_store (caller : Caller) (stub : Store) (args : List String) :
    (isCallerParticipant caller stub args).2 = stub := by
  match args with
  | [] => rfl
  | _ :: _ :: _ => rfl
  | [UID] =>
    cases h : GetRowBP stub.BPTable ("BP", UID) with
    | none => rw [isCallerParticipant_absent caller h]
    | some row => rw [isCallerParticipant_found caller h]

theorem guarded_on (check : Store → List String → (Bool × Option String) × Store)
    (hcheck : ∀ s a, (check s a).2 = s) (stub : Store) (a0 : String) (rest : List String)
    (body : Store → Outcome × Store) :
    guarded true check stub (a0 :: rest) body =
      match (check stub [a0]).1 with
      | (_, some err) => (.error err, stub)
      | (false, none) => (.error "Access denied.", stub)
      | (true, none) => body stub := by
  have hs := hcheck stub [a0]
  rcases hc : check stub [a0] with ⟨⟨res, err⟩, s2⟩
  rw [hc] at hs
  simp only at hs
  subst hs
  simp only [guarded, if_true, hc]
  cases err <;> cases res <;> rfl

theorem guarded_store (flag : Bool)
    (check : Store → List String → (Bool × Option String) × Store)
    (hcheck : ∀ s a, (check s a).2 = s) (stub : Store) (args : List String)
    (body : Store → Outcome × Store) (hbody : (body stub).2 = stub) :
    (guarded flag check stub args body).2 = stub := by
  cases flag with
  | false => simpa [guarded] using hbody
  | true =>
    match args with
    | [] => rfl
    | a0 :: rest =>
      rw [guarded_on check hcheck]
      split
      · rfl
      · rfl
      · exact hbody

theorem DocKind.getStatus_store (k : DocKind) (stub : Store) (args : List String) :
    (k.GetStatus stub args).2 = stub := by
  match args with
  | [] => cases k <;> rfl
  | _ :: _ :: _ => cases k <;> rfl
  | [id] => rw [k.getStatus_one]

theorem DocKind.getPDF_store (k : DocKind) (stub : Store) (args : List String) :
    (k.GetPDF stub args).2 = stub := by
  match args with
  | [] => cases k <;> rfl
  | _ :: _ :: _ => cases k <;> rfl
  | [id] => rw [k.getPDF_one]

theorem check_match_store (x : (Bool × Option String) × Store) (stub : Store)
    (hx : x.2 = stub) (f : Bool → Store → Outcome × Store) (hf : ∀ b, (f b stub).2 = stub) :
    (match x with
      | ((_, some err), s) => ((.error err : Outcome), s)
      | ((res, none), s) => f res s).2 = stub := by
  rcases x with ⟨⟨res, err⟩, s⟩
  simp only at hx
  subst hx
  cases err with
  | some e => rfl
  | none => exact hf res

theorem listContractsLoop_store (flag : Bool) (caller : Caller) (stub : Store)
    (rows : List BPRow) :
    ∀ acc : List Contract, (listContractsLoop flag caller rows stub acc).2 = stub := by
  induction rows with
  | nil => intro acc; rfl
  | cons row rows ih =>
    intro acc
    rw [listContractsLoop, bl_getStatus_eq]
    simp only
    cases flag with
    | false => simpa using ih _
    | true =>
      simp only [if_true]
      exact check_match_store _ stub (isCallerParticipant_store caller stub _) _
        (fun b => by split <;> exact ih _)

theorem listEDsByStatusLoop_store (flag : Bool) (caller : Caller) (status : String)
    (stub : Store) (rows : List BPRow) :
    ∀ acc : List Contract, (listEDsByStatusLoop flag caller status rows stub acc).2 = stub := by
  induction rows with
  | nil => intro acc; rfl
  | cons row rows ih =>
    intro acc
    rw [listEDsByStatusLoop, bl_getStatus_eq]
    simp only
    split
    · cases flag with
      | false => simpa using ih _
      | true =>
        simp only [if_true]
        exact check_match_store _ stub (isCallerParticipant_store caller stub _) _
          (fun b => by split <;> exact ih _)
    · exact ih _

theorem listContractsByRoleLoop_store (flag : Bool) (caller : Caller) (role : String)
    (stub : Store) (rows : List BPRow) :
    ∀ acc : List Contract,
      (listContractsByRoleLoop flag caller role rows stub acc).2 = stub := by
  induction rows with
  | nil => intro acc; rfl
  | cons row rows ih =>
    intro acc
    rw [listContractsByRoleLoop, bl_getStatus_eq]
    simp only
    split
    · exact check_match_store _ stub (isCallerImporter_store caller stub _) _
        (fun b => by split <;> exact ih _)
    · split
      · exact check_match_store _ stub (isCallerExporter_store caller stub _) _
          (fun b => by split <;> exact ih _)
      · split
        · exact check_match_store _ stub (isCallerImporterBank_store caller stub _) _
            (fun b => by split <;> exact ih _)
        · split
          · exact check_match_store _ stub (isCallerExporterBank_store caller stub _) _
              (fun b => by split <;> exact ih _)
          · exact ih _

theorem getNumContracts_store (stub : Store) (args : List String) :
    (getNumContracts stub args).2 = stub := by
  unfold getNumContracts
  split <;> rfl

theorem getContractParticipants_store (stub : Store) (args : List String) :
    (getContractParticipants stub args).2 = stub := by
  unfold getContractParticipants
  split
  · split <;> rfl
  · rfl

theorem listContracts_store (flag : Bool) (caller : Caller) (stub : Store)
    (args : List String) : (listContracts flag caller stub args).2 = stub := by
  unfold listContracts
  split
  · exact listContractsLoop_store flag caller stub _ _
  · rfl

theorem listContractsByRole_store (flag : Bool) (caller : Caller) (stub : Store)
    (args : List String) : (listContractsByRole flag caller stub args).2 = stub := by
  unfold listContractsByRole
  split
  · split
    · rfl
    · exact listContractsByRoleLoop_store flag caller _ stub _ _
  · rfl

theorem listEDsByStatus_store (flag : Bool) (caller : Caller) (stub : Store)
    (args : List String) : (listEDsByStatus flag caller stub args).2 = stub := by
  unfold listEDsByStatus
  split
  · exact listEDsByStatusLoop_store flag caller _ stub _ _
  · rfl

theorem getED_body_store (stub : Store) (args : List String) :
    (match args with
      | [contractID, docType] =>
        if docType ≠ "BL" ∧ docType ≠ "INVOICE" ∧ docType ≠ "PACKINGLIST" then
          ((.error "Document type should be BL or INVOICE or PACKINGLIST" : Outcome), stub)
        else if docType = "BL" then
          (Outcome.ofBytes (BL.GetPDF stub [contractID]).1, (BL.GetPDF stub [contractID]).2)
        else if docType = "INVOICE" then
          (Outcome.ofBytes (Invoice.GetPDF stub [contractID]).1,
            (Invoice.GetPDF stub [contractID]).2)
        else if docType = "PACKINGLIST" then
          (Outcome.ofBytes (PL.GetPDF stub [contractID]).1, (PL.GetPDF stub [contractID]).2)
        else (.ok (.raw none), stub)
      | _ => (.error "Incorrect number of arguments. Expecting 2.", stub)).2 = stub := by
  split
  · split
    · rfl
    · split
      · exact DocKind.BL.getPDF_store stub _
      · split
        · exact DocKind.Invoice.getPDF_store stub _
        · split
          · exact DocKind.PL.getPDF_store stub _
          · rfl
  · rfl

theorem queryWith_store (flag : Bool) (po : POComponent) (caller : Caller) (stub : Store)
    {f : String} (hf : f ≠ "getPO") (args : List String) :
    (QueryWith flag po caller stub f args).2 = stub := by
  unfold QueryWith
  split
  · exact guarded_store flag _ (isCallerParticipant_store caller) stub args _
      (getED_body_store stub args)
  · split
    · apply guarded_store flag _ (isCallerParticipant_store caller) stub args
      have h := DocKind.BL.getStatus_store stub args
      simp only [DocKind.GetStatus] at h
      rcases hb : BL.GetStatus stub args with ⟨r, s2⟩
      rw [hb] at h
      simp only at h
      subst h
      cases r <;> rfl
    · split
      · exact getNumContracts_store stub args
      · split
        · exact listContracts_store flag caller stub args
        · split
          · exact listContractsByRole_store flag caller stub args
          · split
            · exact listEDsByStatus_store flag caller stub args
            · split
              · exact guarded_store flag _ (isCallerParticipant_store caller) stub args _
                  (getContractParticipants_store stub args)
              · rfl

/-- C30: the `Query` entry point is read-only: for every store, every function
name among `getED`, `getEDStatus`, `getNumContracts`, `listContracts`,
`listContractsByRole`, `listEDsByStatus` and `getContractParticipants` and every
argument list, the store after the call is the store before it, whether the call
succeeds or fails; this holds as compiled and with access control switched on,
and for every function name other than `getPO`, which hands the store to the
purchase-order component. -/
theorem query_is_read_only (po : POComponent) (caller : Caller) (stub : Store)
    (f : String) (args : List String) :
    (f ∈ ["getED", "getEDStatus", "getNumContracts", "listContracts", "listContractsByRole",
        "listEDsByStatus", "getContractParticipants"] →
      (Query po caller stub f args).2 = stub) ∧
    (f ≠ "getPO" → ∀ flag, (QueryWith flag po caller stub f args).2 = stub) := by
  constructor
  · intro hf
    apply queryWith_store
    simp only [List.mem_cons, List.mem_singleton, List.not_mem_nil, or_false] at hf
    rcases hf with rfl | rfl | rfl | rfl | rfl | rfl | rfl <;> decide
  · intro hf flag
    exact queryWith_store flag po caller stub hf args

/-- Witness for C30: a listing and a failing call on the audited store. -/
theorem query_is_read_only_witness :
    (Query POComponent.idle Caller.anonymous Store.audited "listEDsByStatus"
        ["REJECTED_BY_IB"]).2 = Store.audited ∧
      (QueryWith true POComponent.idle Caller.anonymous Store.audited "getED"
        ["1000", "BL"]).2 = Store.audited :=
  ⟨(query_is_read_only POComponent.idle Caller.anonymous Store.audited "listEDsByStatus"
      ["REJECTED_BY_IB"]).1 (by decide),
    (query_is_read_only POComponent.idle Caller.anonymous Store.audited "getED"
      ["1000", "BL"]).2 (by decide) true⟩

theorem query_getED (po : POComponent) (caller : Caller) (stub : Store) (id : String)
    (k : DocKind) :
    Query po caller stub "getED"
        [id, match k with
          | .BL => "BL"
          | .Invoice => "INVOICE"
          | .PL => "PACKINGLIST"] =
      (.ok (.raw ((GetRow (k.table stub) ("DOC", id)).map DocRow.DocPDF)), stub) := by
  have h := k.getPDF_one stub id
  cases k <;> simp only [DocKind.GetPDF] at h <;>
    simp [Query, QueryWith, guarded, accessControlFlag, h, Outcome.ofBytes]

/-- C28: for every contract id with none of the three export documents and
non-empty payloads `bl`, `inv`, `pl`, `submitED([id, bl, inv, pl])` succeeds and
afterwards `getED([id, "BL"])`, `getED([id, "INVOICE"])` and
`getED([id, "PACKINGLIST"])` return exactly `bl`, `inv` and `pl`; for a document
that has no row, `GetPDF` and `getED` return a nil result and no error. -/
theorem payload_round_trip (po : POComponent) (caller : Caller) (stub : Store)
    (id bl inv pl : String) :
    ((∀ k : DocKind, GetRow (k.table stub) ("DOC", id) = none) →
      bl ≠ "" → inv ≠ "" → pl ≠ "" →
      (Invoke po caller stub "submitED" [id, bl, inv, pl]).1 = .ok (.raw none) ∧
      (Query po caller (Invoke po caller stub "submitED" [id, bl, inv, pl]).2
        "getED" [id, "BL"]).1 = .ok (.raw (some bl)) ∧
      (Query po caller (Invoke po caller stub "submitED" [id, bl, inv, pl]).2
        "getED" [id, "INVOICE"]).1 = .ok (.raw (some inv)) ∧
      (Query po caller (Invoke po caller stub "submitED" [id, bl, inv, pl]).2
        "getED" [id, "PACKINGLIST"]).1 = .ok (.raw (some pl))) ∧
    (∀ k : DocKind, GetRow (k.table stub) ("DOC", id) = none →
      k.GetPDF stub [id] = (.ok none, stub) ∧
      Query po caller stub "getED"
          [id, match k with
            | .BL => "BL"
            | .Invoice => "INVOICE"
            | .PL => "PACKINGLIST"] =
        (.ok (.raw none), stub)) := by
  constructor
  · intro habsent hbl hinv hpl
    have hB := query_getED po caller
      (Invoke po caller stub "submitED" [id, bl, inv, pl]).2 id .BL
    have hI := query_getED po caller
      (Invoke po caller stub "submitED" [id, bl, inv, pl]).2 id .Invoice
    have hP := query_getED po caller
      (Invoke po caller stub "submitED" [id, bl, inv, pl]).2 id .PL
    simp only at hB hI hP
    rw [hB, hI, hP, invoke_submitED_absent_eq po caller bl inv pl habsent]
    have nB := getRow_append_new stub.BLTable "DOC" id bl "SUBMITTED_BY_EB" (habsent .BL)
    have nI := getRow_append_new stub.invoiceTable "DOC" id inv "SUBMITTED_BY_EB"
      (habsent .Invoice)
    have nP := getRow_append_new stub.PLTable "DOC" id pl "SUBMITTED_BY_EB" (habsent .PL)
    simp [DocKind.table, hbl, hinv, hpl, nB, nI, nP]
  · intro k h
    rw [k.getPDF_one, query_getED, h]
    exact ⟨rfl, rfl⟩

/-- Witness for C28: the three documents of contract "1000" on the empty
store. -/
theorem payload_round_trip_witness :
    (∀ k : DocKind, GetRow (k.table Store.empty) ("DOC", "1000") = none) ∧
      (Query POComponent.idle Caller.anonymous
        (Invoke POComponent.idle Caller.anonymous Store.empty "submitED"
          ["1000", "BLPDF", "INPDF", "PLPDF"]).2 "getED" ["1000", "INVOICE"]).1 =
        .ok (.raw (some "INPDF")) :=
  ⟨fun k => by cases k <;> decide,
    ((payload_round_trip POComponent.idle Caller.anonymous Store.empty "1000" "BLPDF" "INPDF"
      "PLPDF").1 (fun k => by cases k <;> decide) (by decide) (by decide)
      (by decide)).2.2.1⟩

/-! ## The access-control gate -/

theorem isCaller_verifies (caller : Caller) (stub : Store) (certificate : String)
    {sigma p b : String} (hm : caller.metadata = some sigma) (hp : caller.payload = some p)
    (hb : caller.binding = some b) :
    (isCaller caller stub certificate).1 = caller.VerifySignature certificate sigma (p ++ b) := by
  simp only [isCaller, hm, hp, hb]

theorem isCaller_getter_fails (caller : Caller) (stub : Store) (certificate : String)
    (h : caller.metadata = none ∨ caller.payload = none ∨ caller.binding = none) :
    ∃ e, (isCaller caller stub certificate).1 = (false, some e) := by
  unfold isCaller
  cases hm : caller.metadata with
  | none => exact ⟨_, rfl⟩
  | some sigma =>
    cases hp : caller.payload with
    | none => exact ⟨_, rfl⟩
    | some p =>
      cases hb : caller.binding with
      | none => exact ⟨_, rfl⟩
      | some b =>
        rw [hm, hp, hb] at h
        simp at h

/-- C26: each role check verifies the caller against the certificate `initTrade`
stored for that role.  For a contract created by `initTrade` with certificates
`c1`, `c2`, `c3`, `c4`, also after any later commands, `isCallerImporter`,
`isCallerExporter`, `isCallerImporterBank` and `isCallerExporterBank` hand the
verifier `c1`, `c2`, `c3` and `c4` respectively, with the caller's signature
over payload and binding; each returns the verifier's verdict, `(true, nil)` or
`(false, nil)`, when the verifier returns no error, and an error when the verifier
errs, when a getter of the caller context errs, or when the contract row is
missing. -/
theorem role_checks_use_own_certificate (po : POComponent) (initiator caller : Caller)
    (stub : Store) (id POJSON i e ib eb c1 c2 c3 c4 : String) (cmds : List Command)
    (hfresh : GetRowBP stub.BPTable ("BP", id) = none) :
    (∀ sigma p b : String, caller.metadata = some sigma → caller.payload = some p →
      caller.binding = some b →
      (isCallerImporter caller
          (runCommands po initiator (Invoke po initiator stub "initTrade"
            [id, POJSON, i, e, ib, eb, c1, c2, c3, c4]).2 cmds) [id]).1 =
        (match caller.VerifySignature c1 sigma (p ++ b) with
          | (_, some _) => (false, some "Failed checking importer's identity")
          | (ok, none) => (ok, none)) ∧
      (isCallerExporter caller
          (runCommands po initiator (Invoke po initiator stub "initTrade"
            [id, POJSON, i, e, ib, eb, c1, c2, c3, c4]).2 cmds) [id]).1 =
        (match caller.VerifySignature c2 sigma (p ++ b) with
          | (_, some err) => (false, some ("Failed checking exporter identity " ++ err))
          | (ok, none) => (ok, none)) ∧
      (isCallerImporterBank caller
          (runCommands po initiator (Invoke po initiator stub "initTrade"
            [id, POJSON, i, e, ib, eb, c1, c2, c3, c4]).2 cmds) [id]).1 =
        (match caller.VerifySignature c3 sigma (p ++ b) with
          | (_, some _) => (false, some "Failed checking importer bank's identity")
          | (ok, none) => (ok, none)) ∧
      (isCallerExporterBank caller
          (runCommands po initiator (Invoke po initiator stub "initTrade"
            [id, POJSON, i, e, ib, eb, c1, c2, c3, c4]).2 cmds) [id]).1 =
        (match caller.VerifySignature c4 sigma (p ++ b) with
          | (_, some err) => (false, some ("Failed checking exporter bank's identity " ++ err))
          | (ok, none) => (ok, none))) ∧
    (caller.metadata = none ∨ caller.payload = none ∨ caller.binding = none →
      ∀ check ∈ [isCallerImporter, isCallerExporter, isCallerImporterBank,
          isCallerExporterBank],
        ∃ err, (check caller
          (runCommands po initiator (Invoke po initiator stub "initTrade"
            [id, POJSON, i, e, ib, eb, c1, c2, c3, c4]).2 cmds) [id]).1 = (false, some err)) ∧
    (∀ (s : Store) (uid : String), GetRowBP s.BPTable ("BP", uid) = none →
      ∀ check ∈ [isCallerImporter, isCallerExporter, isCallerImporterBank,
          isCallerExporterBank],
        (check caller s [uid]).1 =
          (false, some ("Failed retrieving row with contract ID " ++ uid))) := by
  have hrow0 : GetRowBP
      (Invoke po initiator stub "initTrade" [id, POJSON, i, e, ib, eb, c1, c2, c3, c4]).2.BPTable
      ("BP", id) = some (contractRow id i e ib eb c1 c2 c3 c4) := by
    rw [invoke_initTrade_absent po initiator hfresh]
    exact @getRowBP_append_of_absent stub.BPTable (contractRow id i e ib eb c1 c2 c3 c4) hfresh
  have hrow := (runCommands_keeps_contract_rows po initiator cmds _).2 _ _ hrow0
  generalize runCommands po initiator
    (Invoke po initiator stub "initTrade" [id, POJSON, i, e, ib, eb, c1, c2, c3, c4]).2 cmds
    = s at hrow
  refine ⟨?_, ?_, ?_⟩
  · intro sigma p b hm hp hb
    rw [isCallerImporter_found caller hrow, isCallerExporter_found caller hrow,
      isCallerImporterBank_found caller hrow, isCallerExporterBank_found caller hrow]
    simp only [isCaller_verifies caller s _ hm hp hb, contractRow]
    refine ⟨?_, ?_, ?_, ?_⟩ <;> first | rfl | trivial
  · intro hget check hcheck
    simp only [List.mem_cons, List.mem_singleton, List.not_mem_nil, or_false] at hcheck
    rcases hcheck with rfl | rfl | rfl | rfl
    · obtain ⟨err, he⟩ := isCaller_getter_fails caller s
        (contractRow id i e ib eb c1 c2 c3 c4).ImporterCert hget
      rw [isCallerImporter_found caller hrow, he]
      exact ⟨_, rfl⟩
    · obtain ⟨err, he⟩ := isCaller_getter_fails caller s
        (contractRow id i e ib eb c1 c2 c3 c4).ExporterCert hget
      rw [isCallerExporter_found caller hrow, he]
      exact ⟨_, rfl⟩
    · obtain ⟨err, he⟩ := isCaller_getter_fails caller s
        (contractRow id i e ib eb c1 c2 c3 c4).ImporterBankCert hget
      rw [isCallerImporterBank_found caller hrow, he]
      exact ⟨_, rfl⟩
    · obtain ⟨err, he⟩ := isCaller_getter_fails caller s
        (contractRow id i e ib eb c1 c2 c3 c4).ExporterBankCert hget
      rw [isCallerExporterBank_found caller hrow, he]
      exact ⟨_, rfl⟩
  · intro s2 uid habs check hcheck
    simp only [List.mem_cons, List.mem_singleton, List.not_mem_nil, or_false] at hcheck
    rcases hcheck with rfl | rfl | rfl | rfl
    · rw [isCallerImporter_absent caller habs]
    · rw [isCallerExporter_absent caller habs]
    · rw [isCallerImporterBank_absent caller habs]
    · rw [isCallerExporterBank_absent caller habs]

/-- Witness for C26: the importer bank of contract "1000" passes the importer
bank check. -/
theorem role_checks_use_own_certificate_witness :
    GetRowBP Store.empty.BPTable ("BP", "1000") = none ∧
      (isCallerImporterBank Caller.importerBank
        (runCommands POComponent.idle Caller.anonymous
          (Invoke POComponent.idle Caller.anonymous Store.empty "initTrade"
            ["1000", "po", "I", "E", "IB", "EB", "ICert", "ECert", "IBCert", "EBCert"]).2 [])
        ["1000"]).1 =
      (match Caller.importerBank.VerifySignature "IBCert" "sigma" ("payload" ++ "binding") with
        | (_, some _) => (false, some "Failed checking importer bank's identity")
        | (ok, none) => (ok, none)) :=
  ⟨by decide,
    ((role_checks_use_own_certificate POComponent.idle Caller.anonymous Caller.importerBank
      Store.empty "1000" "po" "I" "E" "IB" "EB" "ICert" "ECert" "IBCert" "EBCert" []
      (by decide)).1 "sigma" "payload" "binding" rfl rfl rfl).2.2.1⟩

/-- C27: for an existing contract, `isCallerParticipant` returns an error exactly
when all four per-certificate verifications return an error, and the error is the
four messages joined by blanks; otherwise it returns, without error, the logical
OR of the four verification results; and as long as a verification that errs
reports `false`, that OR is true exactly when the caller verifies, without error,
against at least one of the four stored certificates. -/
theorem isCallerParticipant_is_or (caller : Caller) (stub : Store) (id : String)
    (row : BPRow) (h : GetRowBP stub.BPTable ("BP", id) = some row)
    (v1 v2 v3 v4 : Bool × Option String)
    (h1 : (isCaller caller stub row.ImporterCert).1 = v1)
    (h2 : (isCaller caller stub row.ExporterCert).1 = v2)
    (h3 : (isCaller caller stub row.ImporterBankCert).1 = v3)
    (h4 : (isCaller caller stub row.ExporterBankCert).1 = v4) :
    ((∃ err, (isCallerParticipant caller stub [id]).1.2 = some err) ↔
      (∃ e1, v1.2 = some e1) ∧ (∃ e2, v2.2 = some e2) ∧ (∃ e3, v3.2 = some e3) ∧
        (∃ e4, v4.2 = some e4)) ∧
    (∀ e1 e2 e3 e4, v1.2 = some e1 → v2.2 = some e2 → v3.2 = some e3 → v4.2 = some e4 →
      (isCallerParticipant caller stub [id]).1 =
        (false, some (e1 ++ " " ++ e2 ++ " " ++ e3 ++ " " ++ e4))) ∧
    (v1.2 = none ∨ v2.2 = none ∨ v3.2 = none ∨ v4.2 = none →
      (isCallerParticipant caller stub [id]).1 = (v1.1 || v2.1 || v3.1 || v4.1, none)) ∧
    (v1.2 = none ∨ v2.2 = none ∨ v3.2 = none ∨ v4.2 = none →
      (∀ v ∈ [v1, v2, v3, v4], v.2 ≠ none → v.1 = false) →
      ((isCallerParticipant caller stub [id]).1 = (true, none) ↔
        v1 = (true, none) ∨ v2 = (true, none) ∨ v3 = (true, none) ∨ v4 = (true, none))) := by
  rw [isCallerParticipant_found caller h, h1, h2, h3, h4]
  obtain ⟨ok1, err1⟩ := v1
  obtain ⟨ok2, err2⟩ := v2
  obtain ⟨ok3, err3⟩ := v3
  obtain ⟨ok4, err4⟩ := v4
  refine ⟨?_, ?_, ?_, ?_⟩
  · cases err1 <;> cases err2 <;> cases err3 <;> cases err4 <;> simp
  · intro e1 e2 e3 e4 g1 g2 g3 g4
    simp only at g1 g2 g3 g4
    subst g1 g2 g3 g4
    rfl
  · intro hnone
    cases err1 <;> cases err2 <;> cases err3 <;> cases err4 <;> simp at hnone ⊢
  · intro hnone hfalse
    simp only [List.mem_cons, List.mem_singleton, List.not_mem_nil, or_false, ne_eq,
      forall_eq_or_imp, forall_eq] at hfalse
    cases err1 <;> cases err2 <;> cases err3 <;> cases err4 <;>
      cases ok1 <;> cases ok2 <;> cases ok3 <;> cases ok4 <;> simp_all

/-- Witness for C27: the importer bank of contract "1000" is a participant. -/
theorem isCallerParticipant_is_or_witness :
    GetRowBP Store.initiated.BPTable ("BP", "1000") =
        some (contractRow "1000" "I" "E" "IB" "EB" "ICert" "ECert" "IBCert" "EBCert") ∧
      (isCallerParticipant Caller.importerBank Store.initiated ["1000"]).1 = (true, none) :=
  ⟨by decide,
    (isCallerParticipant_is_or Caller.importerBank Store.initiated "1000"
      (contractRow "1000" "I" "E" "IB" "EB" "ICert" "ECert" "IBCert" "EBCert") (by decide)
      (false, none) (false, none) (true, none) (false, none) (by decide) (by decide)
      (by decide) (by decide)).2.2.1 (Or.inl rfl)⟩

theorem invokeWith_gated (po : POComponent) (caller : Caller) (stub : Store) (a0 : String)
    (rest : List String) (f : String)
    (check : Store → List String → (Bool × Option String) × Store)
    (hf : (f = "submitED" ∧ check = isCallerExporterBank caller) ∨
      (f = "acceptED" ∧ check = isCallerImporterBank caller) ∨
      (f = "rejectED" ∧ check = isCallerImporterBank caller) ∨
      (f = "updatePO" ∧ check = isCallerImporterBank caller ∧ rest.length = 1)) :
    InvokeWith true po caller stub f (a0 :: rest) =
      match (check stub [a0]).1 with
      | (_, some err) => (.error err, stub)
      | (false, none) => (.error "Access denied.", stub)
      | (true, none) => InvokeWith false po caller stub f (a0 :: rest) := by
  rcases hf with ⟨rfl, rfl⟩ | ⟨rfl, rfl⟩ | ⟨rfl, rfl⟩ | ⟨rfl, rfl, hlen⟩
  · simp only [InvokeWith, String.reduceEq, if_false, if_true]
    rw [guarded_on _ (isCallerExporterBank_store caller)]
    simp only [guarded, Bool.false_eq_true, if_false]
  · simp only [InvokeWith, String.reduceEq, if_false, if_true]
    rw [guarded_on _ (isCallerImporterBank_store caller)]
    simp only [guarded, Bool.false_eq_true, if_false]
  · simp only [InvokeWith, String.reduceEq, if_false, if_true]
    rw [guarded_on _ (isCallerImporterBank_store caller)]
    simp only [guarded, Bool.false_eq_true, if_false]
  · obtain ⟨a1, rfl⟩ : ∃ a1, rest = [a1] := by
      match rest, hlen with
      | [a1], _ => exact ⟨a1, rfl⟩
    simp only [InvokeWith, String.reduceEq, if_false, if_true]
    rw [guarded_on _ (isCallerImporterBank_store caller)]
    simp only [guarded, Bool.false_eq_true, if_false]

/-- C24: with access control on, each gated mutating command checks the caller
against its role before anything is written: `submitED` runs the exporter-bank
check, `updatePO` (given its two arguments), `acceptED` and `rejectED` run the
importer-bank check, each on the first argument; when the check errs the command
returns that error, when it returns false the command returns "Access denied.",
in both cases with the store unchanged, and when it returns true the command goes
on as it does with access control off. -/
theorem gated_commands_check_role_first (po : POComponent) (caller : Caller) (stub : Store)
    (a0 : String) (rest : List String) (f : String)
    (check : Store → List String → (Bool × Option String) × Store)
    (hf : (f = "submitED" ∧ check = isCallerExporterBank caller) ∨
      (f = "acceptED" ∧ check = isCallerImporterBank caller) ∨
      (f = "rejectED" ∧ check = isCallerImporterBank caller) ∨
      (f = "updatePO" ∧ check = isCallerImporterBank caller ∧ rest.length = 1)) :
    (∀ res err, (check stub [a0]).1 = (res, some err) →
      InvokeWith true po caller stub f (a0 :: rest) = (.error err, stub)) ∧
    ((check stub [a0]).1 = (false, none) →
      InvokeWith true po caller stub f (a0 :: rest) = (.error "Access denied.", stub)) ∧
    ((check stub [a0]).1 = (true, none) →
      InvokeWith true po caller stub f (a0 :: rest) =
        InvokeWith false po caller stub f (a0 :: rest)) := by
  rw [invokeWith_gated po caller stub a0 rest f check hf]
  refine ⟨?_, ?_, ?_⟩
  · intro res err h
    rw [h]
    cases res <;> rfl
  · intro h
    rw [h]
  · intro h
    rw [h]

/-- Witness for C24: the importer bank may accept the documents of contract
"1000" but may not submit them. -/
theorem gated_commands_check_role_first_witness :
    (isCallerExporterBank Caller.importerBank Store.initiated ["1000"]).1 = (false, none) ∧
      InvokeWith true POComponent.idle Caller.importerBank Store.initiated "submitED"
          ("1000" :: ["BLPDF", "INPDF", "PLPDF"]) =
        (.error "Access denied.", Store.initiated) :=
  ⟨by decide,
    (gated_commands_check_role_first POComponent.idle Caller.importerBank Store.initiated
      "1000" ["BLPDF", "INPDF", "PLPDF"] "submitED"
      (isCallerExporterBank Caller.importerBank) (Or.inl ⟨rfl, rfl⟩)).2.1 (by decide)⟩

/-! ## Argument counts -/

theorem invoke_updatePO_arity (po : POComponent) (caller : Caller) (stub : Store)
    {args : List String} (h : args.length ≠ 2) :
    Invoke po caller stub "updatePO" args =
      (.error ("Incorrect number of arguments. Expecting 2. Got: " ++ toString args.length
        ++ "."), stub) := by
  simp only [Invoke, InvokeWith, String.reduceEq, if_false, if_true]
  split
  · simp at h
  · rfl

theorem invoke_rejectED_arity (po : POComponent) (caller : Caller) (stub : Store)
    {args : List String} (h : args.length ≠ 1) :
    Invoke po caller stub "rejectED" args =
      (.error "Incorrect number of arguments. Expecting 2.", stub) := by
  rw [invoke_rejectED]
  apply updateAll_arity
  simpa using h

/-- C29, the code at the failing inputs.  `initTrade`, `updatePO` and `rejectED`
do reject every argument list of the wrong length with an error and the store
unchanged.  `submitED` and `acceptED` make no length check: `submitED(["1000"])`
and `acceptED([])` index the argument list out of range; `submitED` with five
arguments ignores the fifth, succeeds and writes the three documents; and
`acceptED(["1000", "REJECTED_BY_IB"])`, on a store where contract "1000" has an
invoice and a packing list but no bill of lading, succeeds and moves both to
`REJECTED_BY_IB`. -/
theorem arity_not_checked_by_submitED_acceptED (po : POComponent) (caller : Caller) :
    (∀ (stub : Store) (args : List String), args.length ≠ 10 →
      ∃ msg, Invoke po caller stub "initTrade" args = (.error msg, stub)) ∧
    (∀ (stub : Store) (args : List String), args.length ≠ 2 →
      ∃ msg, Invoke po caller stub "updatePO" args = (.error msg, stub)) ∧
    (∀ (stub : Store) (args : List String), args.length ≠ 1 →
      ∃ msg, Invoke po caller stub "rejectED" args = (.error msg, stub)) ∧
    Invoke po caller Store.empty "submitED" ["1000"] = (.indexOutOfRange, Store.empty) ∧
    Invoke po caller Store.empty "acceptED" [] = (.indexOutOfRange, Store.empty) ∧
    Invoke po caller Store.empty "submitED" ["1000", "BLPDF", "INPDF", "PLPDF", "extra"] =
      (.ok (.raw none), Store.submitted) ∧
    Invoke po caller { Store.submitted with BLTable := [] } "acceptED"
        ["1000", "REJECTED_BY_IB"] =
      (.ok (.raw none),
        { Store.submitted with
          BLTable := []
          invoiceTable := [⟨"DOC", "1000", "INPDF", "REJECTED_BY_IB"⟩]
          PLTable := [⟨"DOC", "1000", "PLPDF", "REJECTED_BY_IB"⟩] }) := by
  refine ⟨fun stub args h => ⟨_, invoke_initTrade_arity po caller stub h⟩,
    fun stub args h => ⟨_, invoke_updatePO_arity po caller stub h⟩,
    fun stub args h => ⟨_, invoke_rejectED_arity po caller stub h⟩, ?_, ?_, ?_, ?_⟩
  · rw [invoke_independent_of_context po caller _ (by decide) (by decide)]
    decide
  · rw [invoke_independent_of_context po caller _ (by decide) (by decide)]
    decide
  · rw [invoke_independent_of_context po caller _ (by decide) (by decide)]
    decide
  · rw [invoke_independent_of_context po caller _ (by decide) (by decide)]
    decide

/-- Witness for the argument-count facts: `rejectED` with two arguments is
refused. -/
theorem arity_not_checked_by_submitED_acceptED_witness :
    (["1000", "x"] : List String).length ≠ 1 ∧
      ∃ msg, Invoke POComponent.idle Caller.anonymous Store.submitted "rejectED"
        ["1000", "x"] = (.error msg, Store.submitted) :=
  ⟨by decide,
    (arity_not_checked_by_submitED_acceptED POComponent.idle Caller.anonymous).2.2.1
      Store.submitted ["1000", "x"] (by decide)⟩

/-! ## `Invoke` and `Query` do not look at certificates when access control is off -/

theorem DocKind.table_withContracts (k : DocKind) (s : Store) (t : List BPRow) :
    k.table (s.withContracts t) = k.table s := by
  cases k <;> rfl

theorem DocKind.setTable_withContracts (k : DocKind) (s : Store) (t : List BPRow)
    (x : List DocRow) : k.setTable (s.withContracts t) x = (k.setTable s x).withContracts t := by
  cases k <;> rfl

theorem DocKind.submitDoc_arity (k : DocKind) (stub : Store) {args : List String}
    (h : args.length ≠ 2) :
    k.SubmitDoc stub args = (.error "Incorrect number of arguments. Expecting 2.", stub) := by
  match args, h with
  | [], _ => cases k <;> rfl
  | [_], _ => cases k <;> rfl
  | [_, _], h => exact absurd rfl h
  | _ :: _ :: _ :: _, _ => cases k <;> rfl

theorem DocKind.submitDoc_withContracts (k : DocKind) (s : Store) (t : List BPRow)
    (args : List String) :
    k.SubmitDoc (s.withContracts t) args =
      ((k.SubmitDoc s args).1, (k.SubmitDoc s args).2.withContracts t) := by
  by_cases hlen : args.length = 2
  · obtain ⟨UID, p, rfl⟩ : ∃ a b, args = [a, b] := by
      match args, hlen with
      | [a, b], _ => exact ⟨a, b, rfl⟩
    cases hrow : GetRow (k.table s) ("DOC", UID) with
    | none =>
      have hrow2 : GetRow (k.table (s.withContracts t)) ("DOC", UID) = none := by
        rw [k.table_withContracts]; exact hrow
      rw [k.submitDoc_absent p hrow2, k.submitDoc_absent p hrow, k.setTable_withContracts,
        k.table_withContracts]
    | some row =>
      have hrow2 : GetRow (k.table (s.withContracts t)) ("DOC", UID) = some row := by
        rw [k.table_withContracts]; exact hrow
      rw [k.submitDoc_present p hrow2, k.submitDoc_present p hrow]
  · rw [k.submitDoc_arity _ hlen, k.submitDoc_arity _ hlen]

theorem DocKind.updateStatus_withContracts (k : DocKind) (s : Store) (t : List BPRow)
    (args : List String) :
    k.UpdateStatus (s.withContracts t) args =
      ((k.UpdateStatus s args).1, (k.UpdateStatus s args).2.withContracts t) := by
  by_cases hlen : args.length = 2
  · obtain ⟨UID, n, rfl⟩ : ∃ a b, args = [a, b] := by
      match args, hlen with
      | [a, b], _ => exact ⟨a, b, rfl⟩
    cases hrow : GetRow (k.table s) ("DOC", UID) with
    | none =>
      have hrow2 : GetRow (k.table (s.withContracts t)) ("DOC", UID) = none := by
        rw [k.table_withContracts]; exact hrow
      rw [k.updateStatus_absent n hrow2, k.updateStatus_absent n hrow]
    | some row =>
      have hrow2 : GetRow (k.table (s.withContracts t)) ("DOC", UID) = some row := by
        rw [k.table_withContracts]; exact hrow
      rw [k.updateStatus_found n hrow2, k.updateStatus_found n hrow]
      by_cases hm : (row.Status, n) ∈ legalEdges
      · rw [if_pos hm, if_pos hm, k.setTable_withContracts, k.table_withContracts]
      · rw [if_neg hm, if_neg hm]
  · rw [k.updateStatus_arity _ hlen, k.updateStatus_arity _ hlen]

theorem DocKind.statusOf_withContracts (k : DocKind) (s : Store) (t : List BPRow)
    (id : String) : k.statusOf (s.withContracts t) id = k.statusOf s id := by
  unfold DocKind.statusOf
  rw [k.table_withContracts]

theorem updateAll_withContracts (s : Store) (t : List BPRow) (args : List String) :
    updateAll (s.withContracts t) args =
      ((updateAll s args).1, (updateAll s args).2.withContracts t) := by
  rw [updateAll_eq, updateAll_eq, DocKind.BL.updateStatus_withContracts]
  rcases DocKind.BL.UpdateStatus s args with ⟨r1, s1⟩
  cases r1 with
  | error err => rfl
  | ok b1 =>
    simp only
    rw [DocKind.Invoice.updateStatus_withContracts]
    rcases DocKind.Invoice.UpdateStatus s1 args with ⟨r2, s2⟩
    cases r2 with
    | error err => rfl
    | ok b2 =>
      simp only
      rw [DocKind.PL.updateStatus_withContracts]
      rcases DocKind.PL.UpdateStatus s2 args with ⟨r3, s3⟩
      cases r3 <;> rfl

theorem invoke_submitED_withContracts (po : POComponent) (caller : Caller) (s : Store)
    (t : List BPRow) (args : List String) :
    Invoke po caller (s.withContracts t) "submitED" args =
      ((Invoke po caller s "submitED" args).1,
        (Invoke po caller s "submitED" args).2.withContracts t) := by
  simp only [Invoke, InvokeWith, guarded, accessControlFlag]
  simp only [String.reduceEq, if_false, Bool.false_eq_true, if_true]
  match args with
  | [] => rfl
  | [_] => rfl
  | [_, _] => rfl
  | [_, _, _] => rfl
  | id :: bl :: inv :: pl :: rest =>
    simp only
    have h1 := fun u => DocKind.BL.submitDoc_withContracts u t [id, bl]
    have h2 := fun u => DocKind.Invoice.submitDoc_withContracts u t [id, inv]
    have h3 := fun u => DocKind.PL.submitDoc_withContracts u t [id, pl]
    simp only [DocKind.SubmitDoc] at h1 h2 h3
    have hpl : ∀ u : Store,
        (if pl ≠ "" then
          match PL.SubmitDoc (u.withContracts t) [id, pl] with
          | (.error err, stub) => ((.error err : Outcome), stub)
          | (.ok _, stub) => (.ok (.raw none), stub)
        else (.ok (.raw none), u.withContracts t)) =
        ((if pl ≠ "" then
          match PL.SubmitDoc u [id, pl] with
          | (.error err, stub) => ((.error err : Outcome), stub)
          | (.ok _, stub) => (.ok (.raw none), stub)
        else (.ok (.raw none), u)).1,
        (if pl ≠ "" then
          match PL.SubmitDoc u [id, pl] with
          | (.error err, stub) => ((.error err : Outcome), stub)
          | (.ok _, stub) => (.ok (.raw none), stub)
        else (.ok (.raw none), u)).2.withContracts t) := by
      intro u
      split
      · rw [h3 u]
        rcases PL.SubmitDoc u [id, pl] with ⟨r, u2⟩
        cases r <;> rfl
      · rfl
    have hinv : ∀ u : Store,
        (if inv ≠ "" then
          match Invoice.SubmitDoc (u.withContracts t) [id, inv] with
          | (.error err, stub) => ((.error err : Outcome), stub)
          | (.ok _, stub) =>
            if pl ≠ "" then
              match PL.SubmitDoc stub [id, pl] with
              | (.error err, stub) => ((.error err : Outcome), stub)
              | (.ok _, stub) => (.ok (.raw none), stub)
            else (.ok (.raw none), stub)
        else
          if pl ≠ "" then
            match PL.SubmitDoc (u.withContracts t) [id, pl] with
            | (.error err, stub) => ((.error err : Outcome), stub)
            | (.ok _, stub) => (.ok (.raw none), stub)
          else (.ok (.raw none), u.withContracts t)) =
        ((if inv ≠ "" then
          match Invoice.SubmitDoc u [id, inv] with
          | (.error err, stub) => ((.error err : Outcome), stub)
          | (.ok _, stub) =>
            if pl ≠ "" then
              match PL.SubmitDoc stub [id, pl] with
              | (.error err, stub) => ((.error err : Outcome), stub)
              | (.ok _, stub) => (.ok (.raw none), stub)
            else (.ok (.raw none), stub)
        else
          if pl ≠ "" then
            match PL.SubmitDoc u [id, pl] with
            | (.error err, stub) => ((.error err : Outcome), stub)
            | (.ok _, stub) => (.ok (.raw none), stub)
          else (.ok (.raw none), u)).1,
        (if inv ≠ "" then
          match Invoice.SubmitDoc u [id, inv] with
          | (.error err, stub) => ((.error err : Outcome), stub)
          | (.ok _, stub) =>
            if pl ≠ "" then
              match PL.SubmitDoc stub [id, pl] with
              | (.error err, stub) => ((.error err : Outcome), stub)
              | (.ok _, stub) => (.ok (.raw none), stub)
            else (.ok (.raw none), stub)
        else
          if pl ≠ "" then
            match PL.SubmitDoc u [id, pl] with
            | (.error err, stub) => ((.error err : Outcome), stub)
            | (.ok _, stub) => (.ok (.raw none), stub)
          else (.ok (.raw none), u)).2.withContracts t) := by
      intro u
      split
      · rw [h2 u]
        rcases Invoice.SubmitDoc u [id, inv] with ⟨r, u2⟩
        cases r with
        | error err => rfl
        | ok b => exact hpl u2
      · exact hpl u
    split
    · rw [h1 s]
      rcases BL.SubmitDoc s [id, bl] with ⟨r, u2⟩
      cases r with
      | error err => rfl
      | ok b => exact hinv u2
    · exact hinv s

theorem invoke_withContracts (po : POComponent) (caller : Caller) (s : Store)
    (t : List BPRow) {f : String} (hf : f ≠ "initTrade") (args : List String) :
    Invoke po caller (s.withContracts t) f args =
      ((Invoke po caller s f args).1, (Invoke po caller s f args).2.withContracts t) := by
  by_cases h1 : f = "updatePO"
  · subst h1
    simp only [Invoke, InvokeWith, guarded, accessControlFlag]
    simp only [String.reduceEq, if_false, if_true, Bool.false_eq_true]
    split <;> rfl
  by_cases h2 : f = "submitED"
  · subst h2; exact invoke_submitED_withContracts po caller s t args
  by_cases h3 : f = "acceptED"
  · subst h3
    simp only [Invoke, InvokeWith, guarded, accessControlFlag]
    simp only [String.reduceEq, if_false, if_true, Bool.false_eq_true]
    match args with
    | [] => rfl
    | a0 :: rest =>
      simp only [bl_getStatus_eq, DocKind.statusOf_withContracts]
      exact updateAll_withContracts s t _
  by_cases h4 : f = "rejectED"
  · subst h4
    rw [invoke_rejectED, invoke_rejectED]
    exact updateAll_withContracts s t _
  simp [Invoke, InvokeWith, hf, h1, h2, h3, h4]

theorem invoke_caller_irrelevant (po : POComponent) (c1 c2 : Caller) (s : Store)
    (f : String) (args : List String) :
    Invoke po c1 s f args = Invoke po c2 s f args := by
  simp only [Invoke, InvokeWith, guarded, accessControlFlag, Bool.false_eq_true, if_false]

theorem getRowBP_map_eraseCerts (t : List BPRow) (k : String × String) :
    GetRowBP (t.map BPRow.eraseCerts) k = (GetRowBP t k).map BPRow.eraseCerts := by
  unfold GetRowBP
  rw [List.find?_map]
  rfl

theorem getRowsBP_map_eraseCerts (t : List BPRow) (tag : String) :
    GetRowsBP (t.map BPRow.eraseCerts) tag = (GetRowsBP t tag).map BPRow.eraseCerts := by
  unfold GetRowsBP
  rw [List.filter_map]
  symm
  apply List.map_insertionSort
  intro a _ b _
  rfl

theorem eraseCerts_eq_iff (s1 s2 : Store) :
    s1.eraseCerts = s2.eraseCerts ↔
      s1.BPTable.map BPRow.eraseCerts = s2.BPTable.map BPRow.eraseCerts ∧
        s2 = s1.withContracts s2.BPTable := by
  cases s1
  cases s2
  simp only [Store.eraseCerts, Store.withContracts, Store.mk.injEq, true_and]
  constructor
  · rintro ⟨h1, h2, h3, h4, h5⟩
    exact ⟨h1, h2.symm, h3.symm, h4.symm, h5.symm⟩
  · rintro ⟨h1, h2, h3, h4, h5⟩
    exact ⟨h1, h2.symm, h3.symm, h4.symm, h5.symm⟩

theorem eraseCerts_withContracts (s : Store) (t : List BPRow) :
    (s.withContracts t).eraseCerts = s.eraseCerts.withContracts (t.map BPRow.eraseCerts) := rfl

theorem invoke_erasure (po : POComponent) (c1 c2 : Caller) (s1 s2 : Store)
    (h : s1.eraseCerts = s2.eraseCerts) (f : String) (args : List String) :
    (Invoke po c1 s1 f args).1 = (Invoke po c2 s2 f args).1 ∧
      (Invoke po c1 s1 f args).2.eraseCerts = (Invoke po c2 s2 f args).2.eraseCerts := by
  rw [invoke_caller_irrelevant po c1 c2 s1 f args]
  obtain ⟨hmap, hs2⟩ := (eraseCerts_eq_iff s1 s2).1 h
  by_cases hf : f = "initTrade"
  · subst hf
    by_cases hlen : args.length = 10
    · obtain ⟨id, a1, a2, a3, a4, a5, a6, a7, a8, a9, rfl⟩ := list_of_length_ten hlen
      have hlook : (GetRowBP s1.BPTable ("BP", id)).map BPRow.eraseCerts =
          (GetRowBP s2.BPTable ("BP", id)).map BPRow.eraseCerts := by
        rw [← getRowBP_map_eraseCerts, ← getRowBP_map_eraseCerts, hmap]
      have hpo : s1.POTable = s2.POTable := by rw [hs2]; rfl
      cases h1 : GetRowBP s1.BPTable ("BP", id) with
      | none =>
        cases h2 : GetRowBP s2.BPTable ("BP", id) with
        | none =>
          rw [invoke_initTrade_absent po c2 h1, invoke_initTrade_absent po c2 h2, hpo]
          refine ⟨rfl, ?_⟩
          have hd := (eraseCerts_eq_iff s1 s2).2 ⟨hmap, hs2⟩
          simp only [Store.eraseCerts, Store.mk.injEq] at hd ⊢
          simp only [List.map_append, hd.1, hd.2, and_self]
        | some r2 => rw [h1, h2] at hlook; cases hlook
      | some r1 =>
        cases h2 : GetRowBP s2.BPTable ("BP", id) with
        | none => rw [h1, h2] at hlook; cases hlook
        | some r2 =>
          rw [invoke_initTrade_present po c2 h1, invoke_initTrade_present po c2 h2]
          exact ⟨rfl, h⟩
    · rw [invoke_initTrade_arity po c2 s1 hlen, invoke_initTrade_arity po c2 s2 hlen]
      exact ⟨rfl, h⟩
  · have hb1 := invoke_BPTable_of_ne po c2 s1 hf args
    rw [hs2, invoke_withContracts po c2 s1 s2.BPTable hf args]
    refine ⟨rfl, ?_⟩
    rw [eraseCerts_withContracts, ← hmap]
    generalize Invoke po c2 s1 f args = r at hb1
    rcases r with ⟨o, x⟩
    cases x
    simp only at hb1
    subst hb1
    rfl

theorem map_eq_of_eraseCerts {α : Type} (g : BPRow → α) (hg : ∀ r, g r.eraseCerts = g r)
    {l1 l2 : List BPRow} (h : l1.map BPRow.eraseCerts = l2.map BPRow.eraseCerts) :
    l1.map g = l2.map g := by
  have e : ∀ l : List BPRow, l.map g = (l.map BPRow.eraseCerts).map g := by
    intro l
    rw [List.map_map]
    apply List.map_congr_left
    intro r _
    exact (hg r).symm
  rw [e l1, e l2, h]

theorem filter_map_eq_of_eraseCerts {α : Type} (p : BPRow → Bool) (g : BPRow → α)
    (hp : ∀ r, p r.eraseCerts = p r) (hg : ∀ r, g r.eraseCerts = g r)
    {l1 l2 : List BPRow} (h : l1.map BPRow.eraseCerts = l2.map BPRow.eraseCerts) :
    (l1.filter p).map g = (l2.filter p).map g := by
  have e : ∀ l : List BPRow,
      (l.filter p).map g = ((l.map BPRow.eraseCerts).filter p).map g := by
    intro l
    induction l with
    | nil => rfl
    | cons a l ih =>
      simp only [List.map_cons, List.filter_cons, hp a]
      cases p a <;> simp [ih, hg a]
  rw [e l1, e l2, h]

theorem getRowsBP_erasure {t1 t2 : List BPRow}
    (h : t1.map BPRow.eraseCerts = t2.map BPRow.eraseCerts) (tag : String) :
    (GetRowsBP t1 tag).map BPRow.eraseCerts = (GetRowsBP t2 tag).map BPRow.eraseCerts := by
  rw [← getRowsBP_map_eraseCerts, ← getRowsBP_map_eraseCerts, h]

theorem getNumContracts_eq (s : Store) :
    getNumContracts s [] = (.ok (.numContracts (GetRowsBP s.BPTable "BP").length), s) := by
  have hfold : ∀ (l : List BPRow) (n : Nat),
      l.foldl (fun counter _ => counter + 1) n = n + l.length := by
    intro l
    induction l with
    | nil => intro n; rfl
    | cons a l ih => intro n; rw [List.foldl_cons, ih, List.length_cons]; omega
  simp [getNumContracts, hfold]

theorem getNumContracts_erasure (s : Store) (t : List BPRow)
    (h : t.map BPRow.eraseCerts = s.BPTable.map BPRow.eraseCerts) (args : List String) :
    (getNumContracts (s.withContracts t) args).1 = (getNumContracts s args).1 := by
  match args with
  | [] =>
    rw [getNumContracts_eq, getNumContracts_eq]
    have := congrArg List.length (getRowsBP_erasure h "BP")
    simp only [List.length_map] at this
    simp only [Store.withContracts, this]
  | _ :: _ => rfl

theorem listContracts_erasure (c1 c2 : Caller) (s : Store) (t : List BPRow)
    (h : t.map BPRow.eraseCerts = s.BPTable.map BPRow.eraseCerts) (args : List String) :
    (listContracts false c1 (s.withContracts t) args).1 = (listContracts false c2 s args).1 := by
  match args with
  | [] =>
    simp only [listContracts, listContractsLoop_off, List.nil_append,
      DocKind.statusOf_withContracts]
    congr 2
    refine map_eq_of_eraseCerts _ ?_ (getRowsBP_erasure h "BP")
    intro r
    rfl
  | _ :: _ => rfl

theorem listContractsByRole_erasure (c1 c2 : Caller) (s : Store) (t : List BPRow)
    (h : t.map BPRow.eraseCerts = s.BPTable.map BPRow.eraseCerts) (args : List String) :
    (listContractsByRole false c1 (s.withContracts t) args).1 =
      (listContractsByRole false c2 s args).1 := by
  match args with
  | [] => rfl
  | _ :: _ :: _ => rfl
  | [role] =>
    simp only [listContractsByRole]
    split
    · rfl
    · have := listContracts_erasure c1 c2 s t h []
      simp only [listContracts] at this
      rw [listContractsByRoleLoop_off, listContractsByRoleLoop_off]
      exact this

theorem listEDsByStatus_erasure (c1 c2 : Caller) (s : Store) (t : List BPRow)
    (h : t.map BPRow.eraseCerts = s.BPTable.map BPRow.eraseCerts) (args : List String) :
    (listEDsByStatus false c1 (s.withContracts t) args).1 =
      (listEDsByStatus false c2 s args).1 := by
  match args with
  | [] => rfl
  | _ :: _ :: _ => rfl
  | [status] =>
    simp only [listEDsByStatus, listEDsByStatusLoop_off, List.nil_append,
      DocKind.statusOf_withContracts]
    congr 2
    refine filter_map_eq_of_eraseCerts _ _ ?_ ?_ (getRowsBP_erasure h "BP")
    · intro r
      rfl
    · intro r
      rfl

theorem getContractParticipants_erasure (s : Store) (t : List BPRow)
    (h : t.map BPRow.eraseCerts = s.BPTable.map BPRow.eraseCerts) (args : List String) :
    (getContractParticipants (s.withContracts t) args).1 =
      (getContractParticipants s args).1 := by
  match args with
  | [] => rfl
  | _ :: _ :: _ => rfl
  | [id] =>
    have hlook : (GetRowBP t ("BP", id)).map BPRow.eraseCerts =
        (GetRowBP s.BPTable ("BP", id)).map BPRow.eraseCerts := by
      rw [← getRowBP_map_eraseCerts, ← getRowBP_map_eraseCerts, h]
    simp only [getContractParticipants, Store.withContracts]
    cases h1 : GetRowBP t ("BP", id) with
    | none =>
      cases h2 : GetRowBP s.BPTable ("BP", id) with
      | none => rfl
      | some r2 => rw [h1, h2] at hlook; cases hlook
    | some r1 =>
      cases h2 : GetRowBP s.BPTable ("BP", id) with
      | none => rw [h1, h2] at hlook; cases hlook
      | some r2 =>
        rw [h1, h2] at hlook
        simp only [Option.map_some', Option.some.injEq] at hlook
        have e1 := congrArg BPRow.ImporterName hlook
        have e2 := congrArg BPRow.ExporterName hlook
        have e3 := congrArg BPRow.ImporterBankName hlook
        have e4 := congrArg BPRow.ExporterBankName hlook
        simp only [BPRow.eraseCerts] at e1 e2 e3 e4
        simp only [e1, e2, e3, e4]

theorem DocKind.getPDF_withContracts (k : DocKind) (s : Store) (t : List BPRow)
    (args : List String) :
    k.GetPDF (s.withContracts t) args =
      ((k.GetPDF s args).1, (k.GetPDF s args).2.withContracts t) := by
  match args with
  | [] => cases k <;> rfl
  | _ :: _ :: _ => cases k <;> rfl
  | [id] => rw [k.getPDF_one, k.getPDF_one, k.table_withContracts]

theorem DocKind.getStatus_withContracts (k : DocKind) (s : Store) (t : List BPRow)
    (args : List String) :
    k.GetStatus (s.withContracts t) args =
      ((k.GetStatus s args).1, (k.GetStatus s args).2.withContracts t) := by
  match args with
  | [] => cases k <;> rfl
  | _ :: _ :: _ => cases k <;> rfl
  | [id] => rw [k.getStatus_one, k.getStatus_one, k.table_withContracts]

theorem query_getED_withContracts (po : POComponent) (caller : Caller) (s : Store)
    (t : List BPRow) (args : List String) :
    Query po caller (s.withContracts t) "getED" args =
      ((Query po caller s "getED" args).1,
        (Query po caller s "getED" args).2.withContracts t) := by
  have hB := fun a => DocKind.BL.getPDF_withContracts s t a
  have hI := fun a => DocKind.Invoice.getPDF_withContracts s t a
  have hP := fun a => DocKind.PL.getPDF_withContracts s t a
  simp only [DocKind.GetPDF] at hB hI hP
  simp only [Query, QueryWith, guarded, accessControlFlag, if_true, Bool.false_eq_true,
    if_false]
  split
  · simp only [hB, hI, hP]
    split
    · rfl
    · split
      · rfl
      · split
        · rfl
        · split <;> rfl
  · rfl

theorem query_getEDStatus_withContracts (po : POComponent) (caller : Caller) (s : Store)
    (t : List BPRow) (args : List String) :
    Query po caller (s.withContracts t) "getEDStatus" args =
      ((Query po caller s "getEDStatus" args).1,
        (Query po caller s "getEDStatus" args).2.withContracts t) := by
  have hB := DocKind.BL.getStatus_withContracts s t args
  simp only [DocKind.GetStatus] at hB
  simp only [Query, QueryWith, guarded, accessControlFlag, String.reduceEq, if_true,
    Bool.false_eq_true, if_false, hB]
  rcases BL.GetStatus s args with ⟨r, u⟩
  cases r <;> rfl

theorem query_getPO_withContracts (po : POComponent) (caller : Caller) (s : Store)
    (t : List BPRow) (args : List String) :
    Query po caller (s.withContracts t) "getPO" args =
      ((Query po caller s "getPO" args).1,
        (Query po caller s "getPO" args).2.withContracts t) := by
  simp only [Query, QueryWith, guarded, accessControlFlag, String.reduceEq, if_true,
    Bool.false_eq_true, if_false]
  rfl

theorem query_getPO_BPTable (po : POComponent) (caller : Caller) (s : Store)
    (args : List String) : (Query po caller s "getPO" args).2.BPTable = s.BPTable := by
  simp only [Query, QueryWith, guarded, accessControlFlag, String.reduceEq, if_true,
    Bool.false_eq_true, if_false]
  rfl

theorem eraseCerts_withContracts_of_map (s : Store) (t : List BPRow)
    (h : t.map BPRow.eraseCerts = s.BPTable.map BPRow.eraseCerts) :
    (s.withContracts t).eraseCerts = s.eraseCerts := by
  cases s
  simp only [Store.eraseCerts, Store.withContracts, Store.mk.injEq, and_self, and_true] at h ⊢
  exact h

theorem query_erasure (po : POComponent) (c1 c2 : Caller) (s1 s2 : Store)
    (h : s1.eraseCerts = s2.eraseCerts) (f : String) (args : List String) :
    (Query po c1 s1 f args).1 = (Query po c2 s2 f args).1 ∧
      (Query po c1 s1 f args).2.eraseCerts = (Query po c2 s2 f args).2.eraseCerts := by
  obtain ⟨hmap, hs2⟩ := (eraseCerts_eq_iff s1 s2).1 h
  generalize s2.BPTable = t at hmap hs2
  subst hs2
  have hmap2 := hmap.symm
  have hstore : ∀ g : String, g ≠ "getPO" →
      (Query po c1 s1 g args).2.eraseCerts =
        (Query po c2 (s1.withContracts t) g args).2.eraseCerts := by
    intro g hg
    rw [Query, Query, queryWith_store _ po c1 s1 hg, queryWith_store _ po c2 _ hg]
    exact h
  by_cases h0 : f = "getED"
  · subst h0
    refine ⟨?_, hstore _ (by decide)⟩
    rw [query_getED_withContracts]
    simp only [Query, QueryWith, guarded, accessControlFlag, if_true, Bool.false_eq_true,
      if_false]
  by_cases h1 : f = "getPO"
  · subst h1
    rw [query_getPO_withContracts po c2]
    have hc : Query po c1 s1 "getPO" args = Query po c2 s1 "getPO" args := by
      simp only [Query, QueryWith, guarded, accessControlFlag, String.reduceEq, if_true,
        Bool.false_eq_true, if_false]
    rw [hc]
    refine ⟨rfl, ?_⟩
    have hb := query_getPO_BPTable po c2 s1 args
    generalize Query po c2 s1 "getPO" args = r at hb
    rcases r with ⟨o, x⟩
    simp only at hb ⊢
    exact (eraseCerts_withContracts_of_map x t (by rw [hb]; exact hmap2)).symm
  by_cases h2 : f = "getEDStatus"
  · subst h2
    refine ⟨?_, hstore _ (by decide)⟩
    rw [query_getEDStatus_withContracts]
    simp only [Query, QueryWith, guarded, accessControlFlag, String.reduceEq, if_true,
      Bool.false_eq_true, if_false]
  by_cases h3 : f = "getNumContracts"
  · subst h3
    refine ⟨?_, hstore _ (by decide)⟩
    have := getNumContracts_erasure s1 t hmap2 args
    simpa [Query, QueryWith] using this.symm
  by_cases h4 : f = "listContracts"
  · subst h4
    refine ⟨?_, hstore _ (by decide)⟩
    have := listContracts_erasure c2 c1 s1 t hmap2 args
    simpa [Query, QueryWith, accessControlFlag] using this.symm
  by_cases h5 : f = "listContractsByRole"
  · subst h5
    refine ⟨?_, hstore _ (by decide)⟩
    have := listContractsByRole_erasure c2 c1 s1 t hmap2 args
    simpa [Query, QueryWith, accessControlFlag] using this.symm
  by_cases h6 : f = "listEDsByStatus"
  · subst h6
    refine ⟨?_, hstore _ (by decide)⟩
    have := listEDsByStatus_erasure c2 c1 s1 t hmap2 args
    simpa [Query, QueryWith, accessControlFlag] using this.symm
  by_cases h7 : f = "getContractParticipants"
  · subst h7
    refine ⟨?_, hstore _ (by decide)⟩
    have := getContractParticipants_erasure s1 t hmap2 args
    simpa [Query, QueryWith, accessControlFlag, guarded] using this.symm
  refine ⟨?_, hstore _ h1⟩
  simp [Query, QueryWith, h0, h1, h2, h3, h4, h5, h6, h7]

/-! ## With access control off no call is denied -/

theorem arity_message_ne_denied (p x : String) (hp : p.data.head? = some 'I') :
    (p ++ x ++ ".") ≠ "Access denied." := by
  intro h
  have h2 := congrArg (fun s => s.data.head?) h
  rcases p with ⟨l⟩
  cases l with
  | nil => simp at hp
  | cons c l =>
    simp only [List.head?_cons, Option.some.injEq] at hp
    subst hp
    simp at h2

theorem ofBytes_ne_error {b : Bytes} {m : String} (h : b ≠ .error m) :
    Outcome.ofBytes b ≠ .error m := by
  cases b with
  | ok v => simp [Outcome.ofBytes]
  | error e =>
    intro h2
    apply h
    simpa [Outcome.ofBytes] using h2

theorem DocKind.submitDoc_not_denied (k : DocKind) (s : Store) (args : List String) :
    (k.SubmitDoc s args).1 ≠ .error "Access denied." := by
  by_cases hl : args.length = 2
  · match args, hl with
    | [id, p], _ =>
      cases hg : GetRow (k.table s) ("DOC", id) with
      | none => rw [k.submitDoc_absent p hg]; simp
      | some row => rw [k.submitDoc_present p hg]; simp
  · rw [k.submitDoc_arity s hl]; simp

theorem DocKind.updateStatus_not_denied (k : DocKind) (s : Store) (args : List String) :
    (k.UpdateStatus s args).1 ≠ .error "Access denied." := by
  by_cases hl : args.length = 2
  · match args, hl with
    | [id, n], _ =>
      cases hg : GetRow (k.table s) ("DOC", id) with
      | none => rw [k.updateStatus_absent n hg]; simp
      | some row =>
        rw [k.updateStatus_found n hg]
        split <;> simp
  · rw [k.updateStatus_arity s hl]
    cases k <;> simp

theorem DocKind.getStatus_not_denied (k : DocKind) (s : Store) (args : List String) :
    (k.GetStatus s args).1 ≠ .error "Access denied." := by
  match args with
  | [] => cases k <;> simp [DocKind.GetStatus, BL.GetStatus, Invoice.GetStatus, PL.GetStatus]
  | _ :: _ :: _ =>
    cases k <;> simp [DocKind.GetStatus, BL.GetStatus, Invoice.GetStatus, PL.GetStatus]
  | [id] =>
    rw [k.getStatus_one]
    cases GetRow (k.table s) ("DOC", id) <;> simp

theorem DocKind.getPDF_not_denied (k : DocKind) (s : Store) (args : List String) :
    (k.GetPDF s args).1 ≠ .error "Access denied." := by
  match args with
  | [] => cases k <;> simp [DocKind.GetPDF, BL.GetPDF, Invoice.GetPDF, PL.GetPDF]
  | _ :: _ :: _ =>
    cases k <;> simp [DocKind.GetPDF, BL.GetPDF, Invoice.GetPDF, PL.GetPDF]
  | [id] =>
    rw [k.getPDF_one]
    cases GetRow (k.table s) ("DOC", id) <;> simp

theorem updateAll_not_denied (s : Store) (args : List String) :
    (updateAll s args).1 ≠ .error "Access denied." := by
  rw [updateAll_eq]
  have h1 := DocKind.BL.updateStatus_not_denied s args
  generalize DocKind.BL.UpdateStatus s args = x1 at h1 ⊢
  rcases x1 with ⟨r1, s1⟩
  cases r1 with
  | error e => simpa using h1
  | ok v1 =>
    simp only
    have h2 := DocKind.Invoice.updateStatus_not_denied s1 args
    generalize DocKind.Invoice.UpdateStatus s1 args = x2 at h2 ⊢
    rcases x2 with ⟨r2, s2⟩
    cases r2 with
    | error e => simpa using h2
    | ok v2 =>
      simp only
      have h3 := DocKind.PL.updateStatus_not_denied s2 args
      generalize DocKind.PL.UpdateStatus s2 args = x3 at h3 ⊢
      rcases x3 with ⟨r3, s3⟩
      cases r3 with
      | error e => simpa using h3
      | ok v3 => simp

theorem invoke_not_denied (po : POComponent) (hpo : po.NeverDenies) (caller : Caller)
    (s : Store) (f : String) (args : List String) :
    (Invoke po caller s f args).1 ≠ .error "Access denied." := by
  by_cases h0 : f = "initTrade"
  · subst h0
    by_cases hl : args.length = 10
    · obtain ⟨a0, a1, a2, a3, a4, a5, a6, a7, a8, a9, rfl⟩ := list_of_length_ten hl
      cases hg : GetRowBP s.BPTable ("BP", a0) with
      | some row => rw [invoke_initTrade_present po caller hg]; simp
      | none =>
        rw [invoke_initTrade_absent po caller hg]
        exact ofBytes_ne_error (hpo _ _).1
    · rw [invoke_initTrade_arity po caller s hl]
      simp only [ne_eq, Outcome.error.injEq]
      exact arity_message_ne_denied _ _ (by rfl)
  by_cases h1 : f = "updatePO"
  · subst h1
    by_cases hl : args.length = 2
    · match args, hl with
      | [id, p], _ =>
        simp only [Invoke, InvokeWith, guarded, accessControlFlag, String.reduceEq, if_true,
          Bool.false_eq_true, if_false, runPO]
        exact ofBytes_ne_error (hpo _ _).2.1
    · rw [invoke_updatePO_arity po caller s hl]
      simp only [ne_eq, Outcome.error.injEq]
      exact arity_message_ne_denied _ _ (by rfl)
  by_cases h2 : f = "submitED"
  · subst h2
    have hB := fun u a => DocKind.BL.submitDoc_not_denied u a
    have hI := fun u a => DocKind.Invoice.submitDoc_not_denied u a
    have hP := fun u a => DocKind.PL.submitDoc_not_denied u a
    simp only [DocKind.SubmitDoc] at hB hI hP
    simp only [Invoke, InvokeWith, guarded, accessControlFlag, String.reduceEq, if_true,
      Bool.false_eq_true, if_false]
    have hpl : ∀ (u : Store) (id p : String),
        (if p ≠ "" then
          match PL.SubmitDoc u [id, p] with
          | (.error err, stub) => ((.error err : Outcome), stub)
          | (.ok _, stub) => (.ok (.raw none), stub)
        else (.ok (.raw none), u)).1 ≠ .error "Access denied." := by
      intro u id p
      split
      · have := hP u [id, p]
        generalize PL.SubmitDoc u [id, p] = x at this ⊢
        rcases x with ⟨r, u2⟩
        cases r with
        | error e => simpa using this
        | ok v => simp
      · simp
    have hinv : ∀ (u : Store) (id q p : String),
        (if q ≠ "" then
          match Invoice.SubmitDoc u [id, q] with
          | (.error err, stub) => ((.error err : Outcome), stub)
          | (.ok _, stub) =>
            if p ≠ "" then
              match PL.SubmitDoc stub [id, p] with
              | (.error err, stub) => ((.error err : Outcome), stub)
              | (.ok _, stub) => (.ok (.raw none), stub)
            else (.ok (.raw none), stub)
        else
          if p ≠ "" then
            match PL.SubmitDoc u [id, p] with
            | (.error err, stub) => ((.error err : Outcome), stub)
            | (.ok _, stub) => (.ok (.raw none), stub)
          else (.ok (.raw none), u)).1 ≠ .error "Access denied." := by
      intro u id q p
      split
      · have := hI u [id, q]
        generalize Invoice.SubmitDoc u [id, q] = x at this ⊢
        rcases x with ⟨r, u2⟩
        cases r with
        | error e => simpa using this
        | ok v => exact hpl u2 id p
      · exact hpl u id p
    split
    · rename_i id b q p rest
      split
      · have := hB s [id, b]
        generalize BL.SubmitDoc s [id, b] = x at this ⊢
        rcases x with ⟨r, u2⟩
        cases r with
        | error e => simpa using this
        | ok v => exact hinv u2 id q p
      · exact hinv s id q p
    · simp
  by_cases h3 : f = "acceptED"
  · subst h3
    have hG := fun u a => DocKind.BL.getStatus_not_denied u a
    simp only [DocKind.GetStatus] at hG
    simp only [Invoke, InvokeWith, guarded, accessControlFlag, String.reduceEq, if_true,
      Bool.false_eq_true, if_false]
    split
    · simp
    · rename_i a0 rest
      have := hG s [a0]
      generalize BL.GetStatus s [a0] = x at this ⊢
      rcases x with ⟨r, u2⟩
      cases r with
      | error e => simpa using this
      | ok v => exact updateAll_not_denied _ _
  by_cases h4 : f = "rejectED"
  · subst h4
    simp only [Invoke, InvokeWith, guarded, accessControlFlag, String.reduceEq, if_true,
      Bool.false_eq_true, if_false]
    exact updateAll_not_denied _ _
  simp [Invoke, InvokeWith, h0, h1, h2, h3, h4]

theorem query_not_denied (po : POComponent) (hpo : po.NeverDenies) (caller : Caller)
    (s : Store) (f : String) (args : List String) :
    (Query po caller s f args).1 ≠ .error "Access denied." := by
  by_cases h0 : f = "getED"
  · subst h0
    have hB := fun u a => DocKind.BL.getPDF_not_denied u a
    have hI := fun u a => DocKind.Invoice.getPDF_not_denied u a
    have hP := fun u a => DocKind.PL.getPDF_not_denied u a
    simp only [DocKind.GetPDF] at hB hI hP
    simp only [Query, QueryWith, guarded, accessControlFlag, if_true, Bool.false_eq_true,
      if_false]
    split
    · split
      · simp
      · split
        · exact ofBytes_ne_error (hB _ _)
        · split
          · exact ofBytes_ne_error (hI _ _)
          · split
            · exact ofBytes_ne_error (hP _ _)
            · simp
    · simp
  by_cases h1 : f = "getPO"
  · subst h1
    simp only [Query, QueryWith, guarded, accessControlFlag, String.reduceEq, if_true,
      Bool.false_eq_true, if_false, runPO]
    exact ofBytes_ne_error (hpo _ _).2.2
  by_cases h2 : f = "getEDStatus"
  · subst h2
    have hG := fun u a => DocKind.BL.getStatus_not_denied u a
    simp only [DocKind.GetStatus] at hG
    simp only [Query, QueryWith, guarded, accessControlFlag, String.reduceEq, if_true,
      Bool.false_eq_true, if_false]
    have := hG s args
    generalize BL.GetStatus s args = x at this ⊢
    rcases x with ⟨r, u2⟩
    cases r with
    | error e => simpa using this
    | ok v => simp
  by_cases h3 : f = "getNumContracts"
  · subst h3
    simp only [Query, QueryWith, String.reduceEq, if_true, if_false]
    unfold getNumContracts
    split <;> simp
  by_cases h4 : f = "listContracts"
  · subst h4
    rw [query_listContracts]
    unfold listContracts
    split
    · rw [listContractsLoop_off]; simp
    · simp
  by_cases h5 : f = "listContractsByRole"
  · subst h5
    rw [query_listContractsByRole]
    unfold listContractsByRole
    split
    · split
      · simp
      · rw [listContractsByRoleLoop_off, listContractsLoop_off]; simp
    · simp
  by_cases h6 : f = "listEDsByStatus"
  · subst h6
    rw [query_listEDsByStatus]
    unfold listEDsByStatus
    split
    · rw [listEDsByStatusLoop_off]; simp
    · simp
  by_cases h7 : f = "getContractParticipants"
  · subst h7
    rw [query_getContractParticipants]
    unfold getContractParticipants
    split
    · split <;> simp
    · simp
  simp [Query, QueryWith, h0, h1, h2, h3, h4, h5, h6, h7]

/-! ## C25 -/

/-- C25: access control is compiled off, and then Invoke and Query look neither
at the caller nor at the certificates held in contract rows.  Take two stores
that are equal once the four certificates of every contract row are blanked, any
two caller contexts (metadata, payload, binding, verifier), and the same function
name and argument list: the two Invoke runs return the same result and leave
stores that are again equal up to those certificates (same documents, statuses,
purchase orders, contract ids, names and contract statuses), and likewise the two
Query runs.  No run returns "Access denied.", given that the purchase-order
component, which three branches hand their result over from, never does. -/
theorem access_control_off_ignores_identity (po : POComponent) (c1 c2 : Caller)
    (s1 s2 : Store) (h : s1.eraseCerts = s2.eraseCerts) (f : String) (args : List String) :
    accessControlFlag = false ∧
      ((Invoke po c1 s1 f args).1 = (Invoke po c2 s2 f args).1 ∧
        (Invoke po c1 s1 f args).2.eraseCerts = (Invoke po c2 s2 f args).2.eraseCerts) ∧
      ((Query po c1 s1 f args).1 = (Query po c2 s2 f args).1 ∧
        (Query po c1 s1 f args).2.eraseCerts = (Query po c2 s2 f args).2.eraseCerts) ∧
      (po.NeverDenies →
        (Invoke po c1 s1 f args).1 ≠ .error "Access denied." ∧
          (Query po c1 s1 f args).1 ≠ .error "Access denied.") :=
  ⟨rfl, invoke_erasure po c1 c2 s1 s2 h f args, query_erasure po c1 c2 s1 s2 h f args,
    fun hpo => ⟨invoke_not_denied po hpo c1 s1 f args, query_not_denied po hpo c1 s1 f args⟩⟩

theorem access_control_off_ignores_identity_witness :
    Store.initiated.eraseCerts = Store.recertified.eraseCerts ∧
      Store.initiated ≠ Store.recertified ∧
      (Invoke POComponent.idle Caller.anonymous Store.initiated "submitED"
          ["1000", "BLPDF", "INPDF", "PLPDF"]).1 =
        (Invoke POComponent.idle Caller.importerBank Store.recertified "submitED"
          ["1000", "BLPDF", "INPDF", "PLPDF"]).1 ∧
      (Invoke POComponent.idle Caller.anonymous Store.initiated "submitED"
          ["1000", "BLPDF", "INPDF", "PLPDF"]).1 ≠ .error "Access denied." :=
  ⟨by decide, by decide,
    (access_control_off_ignores_identity POComponent.idle Caller.anonymous Caller.importerBank
      Store.initiated Store.recertified (by decide) "submitED"
      ["1000", "BLPDF", "INPDF", "PLPDF"]).2.1.1,
    ((access_control_off_ignores_identity POComponent.idle Caller.anonymous Caller.importerBank
      Store.initiated Store.recertified (by decide) "submitED"
      ["1000", "BLPDF", "INPDF", "PLPDF"]).2.2.2
      (fun _ _ => ⟨by simp [POComponent.idle], by simp [POComponent.idle],
        by simp [POComponent.idle]⟩)).1⟩

/-! ## What a call can do to the document tables -/

theorem DocKind.submitDoc_cases (k : DocKind) (s : Store) (args : List String) :
    (k.SubmitDoc s args).2 = s ∨
      ∃ id p, GetRow (k.table s) ("DOC", id) = none ∧
        (k.SubmitDoc s args).2 =
          k.setTable s (k.table s ++ [⟨"DOC", id, p, "SUBMITTED_BY_EB"⟩]) := by
  by_cases hl : args.length = 2
  · match args, hl with
    | [id, p], _ =>
      cases hg : GetRow (k.table s) ("DOC", id) with
      | none => exact Or.inr ⟨id, p, hg, by rw [k.submitDoc_absent p hg]⟩
      | some row => exact Or.inl (by rw [k.submitDoc_present p hg])
  · exact Or.inl (by rw [k.submitDoc_arity s hl])

theorem DocKind.updateStatus_cases (k : DocKind) (s : Store) (args : List String) :
    (k.UpdateStatus s args).2 = s ∨
      ∃ id n row, GetRow (k.table s) ("DOC", id) = some row ∧ (row.Status, n) ∈ legalEdges ∧
        args = [id, n] ∧ (k.UpdateStatus s args).1 = .ok none ∧
        (k.UpdateStatus s args).2 =
          k.setTable s (DeleteRow (k.table s) ("DOC", id) ++ [⟨"DOC", id, row.DocPDF, n⟩]) := by
  by_cases hl : args.length = 2
  · match args, hl with
    | [id, n], _ =>
      cases hg : GetRow (k.table s) ("DOC", id) with
      | none => exact Or.inl (by rw [k.updateStatus_absent n hg])
      | some row =>
        by_cases hm : (row.Status, n) ∈ legalEdges
        · refine Or.inr ⟨id, n, row, hg, hm, rfl, ?_, ?_⟩ <;>
            rw [k.updateStatus_found n hg, if_pos hm]
        · exact Or.inl (by rw [k.updateStatus_found n hg, if_neg hm])
  · exact Or.inl (by rw [k.updateStatus_arity s hl])

theorem updateAll_preserves {P : Store → Prop}
    (hupd : ∀ (k : DocKind) (s : Store) (args : List String), P s → P (k.UpdateStatus s args).2)
    (s : Store) (args : List String) (h : P s) : P (updateAll s args).2 := by
  rw [updateAll_eq]
  have h1 := hupd .BL s args h
  generalize DocKind.BL.UpdateStatus s args = x1 at h1 ⊢
  rcases x1 with ⟨r1, s1⟩
  cases r1 with
  | error e => exact h1
  | ok v1 =>
    simp only
    have h2 := hupd .Invoice s1 args h1
    generalize DocKind.Invoice.UpdateStatus s1 args = x2 at h2 ⊢
    rcases x2 with ⟨r2, s2⟩
    cases r2 with
    | error e => exact h2
    | ok v2 =>
      simp only
      have h3 := hupd .PL s2 args h2
      generalize DocKind.PL.UpdateStatus s2 args = x3 at h3 ⊢
      rcases x3 with ⟨r3, s3⟩
      cases r3 with
      | error e => exact h3
      | ok v3 => exact h3

theorem invoke_preserves {P : Store → Prop}
    (hsub : ∀ (k : DocKind) (s : Store) (args : List String), P s → P (k.SubmitDoc s args).2)
    (hupd : ∀ (k : DocKind) (s : Store) (args : List String), P s → P (k.UpdateStatus s args).2)
    (hbp : ∀ (s : Store) (t : List BPRow), P s → P { s with BPTable := t })
    (hpo : ∀ (s : Store) (t : List DocRow), P s → P { s with POTable := t })
    (po : POComponent) (caller : Caller) (s : Store) (f : String) (args : List String)
    (h : P s) : P (Invoke po caller s f args).2 := by
  by_cases h0 : f = "initTrade"
  · subst h0
    by_cases hl : args.length = 10
    · obtain ⟨a0, a1, a2, a3, a4, a5, a6, a7, a8, a9, rfl⟩ := list_of_length_ten hl
      cases hg : GetRowBP s.BPTable ("BP", a0) with
      | some row => rw [invoke_initTrade_present po caller hg]; exact h
      | none =>
        rw [invoke_initTrade_absent po caller hg]
        exact hpo _ _ (hbp _ _ h)
    · rw [invoke_initTrade_arity po caller s hl]; exact h
  by_cases h1 : f = "updatePO"
  · subst h1
    by_cases hl : args.length = 2
    · match args, hl with
      | [id, p], _ =>
        simp only [Invoke, InvokeWith, guarded, accessControlFlag, String.reduceEq, if_true,
          Bool.false_eq_true, if_false, runPO]
        exact hpo _ _ h
    · rw [invoke_updatePO_arity po caller s hl]; exact h
  by_cases h2 : f = "submitED"
  · subst h2
    have hB := fun u a => hsub .BL u a
    have hI := fun u a => hsub .Invoice u a
    have hP := fun u a => hsub .PL u a
    simp only [DocKind.SubmitDoc] at hB hI hP
    simp only [Invoke, InvokeWith, guarded, accessControlFlag, String.reduceEq, if_true,
      Bool.false_eq_true, if_false]
    have hpl : ∀ (u : Store) (id p : String), P u →
        P (if p ≠ "" then
          match PL.SubmitDoc u [id, p] with
          | (.error err, stub) => ((.error err : Outcome), stub)
          | (.ok _, stub) => (.ok (.raw none), stub)
        else (.ok (.raw none), u)).2 := by
      intro u id p hu
      split
      · have := hP u [id, p] hu
        generalize PL.SubmitDoc u [id, p] = x at this ⊢
        rcases x with ⟨r, u2⟩
        cases r <;> exact this
      · exact hu
    have hinv : ∀ (u : Store) (id q p : String), P u →
        P (if q ≠ "" then
          match Invoice.SubmitDoc u [id, q] with
          | (.error err, stub) => ((.error err : Outcome), stub)
          | (.ok _, stub) =>
            if p ≠ "" then
              match PL.SubmitDoc stub [id, p] with
              | (.error err, stub) => ((.error err : Outcome), stub)
              | (.ok _, stub) => (.ok (.raw none), stub)
            else (.ok (.raw none), stub)
        else
          if p ≠ "" then
            match PL.SubmitDoc u [id, p] with
            | (.error err, stub) => ((.error err : Outcome), stub)
            | (.ok _, stub) => (.ok (.raw none), stub)
          else (.ok (.raw none), u)).2 := by
      intro u id q p hu
      split
      · have := hI u [id, q] hu
        generalize Invoice.SubmitDoc u [id, q] = x at this ⊢
        rcases x with ⟨r, u2⟩
        cases r with
        | error e => exact this
        | ok v => exact hpl u2 id p this
      · exact hpl u id p hu
    split
    · rename_i id b q p rest
      split
      · have := hB s [id, b] h
        generalize BL.SubmitDoc s [id, b] = x at this ⊢
        rcases x with ⟨r, u2⟩
        cases r with
        | error e => exact this
        | ok v => exact hinv u2 id q p this
      · exact hinv s id q p h
    · exact h
  by_cases h3 : f = "acceptED"
  · subst h3
    have hG := fun u a => DocKind.BL.getStatus_store u a
    simp only [DocKind.GetStatus] at hG
    simp only [Invoke, InvokeWith, guarded, accessControlFlag, String.reduceEq, if_true,
      Bool.false_eq_true, if_false]
    split
    · exact h
    · rename_i a0 rest
      have := hG s [a0]
      generalize BL.GetStatus s [a0] = x at this ⊢
      rcases x with ⟨r, u2⟩
      simp only at this
      subst this
      cases r with
      | error e => exact h
      | ok v => exact updateAll_preserves hupd _ _ h
  by_cases h4 : f = "rejectED"
  · subst h4
    simp only [Invoke, InvokeWith, guarded, accessControlFlag, String.reduceEq, if_true,
      Bool.false_eq_true, if_false]
    exact updateAll_preserves hupd _ _ h
  simp only [Invoke, InvokeWith, h0, h1, h2, h3, h4, if_false]
  exact h

theorem runCalls_preserves {P : Store → Prop}
    (hsub : ∀ (k : DocKind) (s : Store) (args : List String), P s → P (k.SubmitDoc s args).2)
    (hupd : ∀ (k : DocKind) (s : Store) (args : List String), P s → P (k.UpdateStatus s args).2)
    (hbp : ∀ (s : Store) (t : List BPRow), P s → P { s with BPTable := t })
    (hpo : ∀ (s : Store) (t : List DocRow), P s → P { s with POTable := t })
    (po : POComponent) (caller : Caller) (calls : List Call) :
    ∀ s : Store, P s → P (runCalls po caller s calls) := by
  induction calls with
  | nil => intro s h; exact h
  | cons c cs ih =>
    intro s h
    rw [runCalls]
    apply ih
    cases c with
    | invoke f args => exact invoke_preserves hsub hupd hbp hpo po caller s f args h
    | submitDoc k args => exact hsub k s args h
    | updateStatus k args => exact hupd k s args h

/-! ## Rows under the document methods -/

theorem getRow_append_of_some {t : List DocRow} {key : String × String} {r : DocRow}
    (h : GetRow t key = some r) (l : List DocRow) : GetRow (t ++ l) key = some r := by
  unfold GetRow at h ⊢
  rw [List.find?_append, h]
  rfl

theorem DocKind.submitDoc_getRow_of_some (j k : DocKind) (s : Store) (args : List String)
    {id : String} {row : DocRow} (h : GetRow (k.table s) ("DOC", id) = some row) :
    GetRow (k.table (j.SubmitDoc s args).2) ("DOC", id) = some row := by
  rcases j.submitDoc_cases s args with e | ⟨id2, p, _, e⟩
  · rw [e]; exact h
  · rw [e]
    by_cases hjk : k = j
    · subst hjk
      rw [k.table_setTable]
      exact getRow_append_of_some h _
    · rw [DocKind.table_setTable_ne hjk]; exact h

theorem DocKind.updateStatus_getRow_of_some (j k : DocKind) (s : Store) (args : List String)
    {id : String} {row : DocRow} (h : GetRow (k.table s) ("DOC", id) = some row) :
    GetRow (k.table (j.UpdateStatus s args).2) ("DOC", id) = some row ∨
      ∃ n, (row.Status, n) ∈ legalEdges ∧ j = k ∧ args = [id, n] ∧
        GetRow (k.table (j.UpdateStatus s args).2) ("DOC", id) =
          some ⟨"DOC", id, row.DocPDF, n⟩ := by
  rcases j.updateStatus_cases s args with e | ⟨id2, n, row2, hg, hm, ha, _, e⟩
  · rw [e]; exact Or.inl h
  · rw [e]
    by_cases hjk : k = j
    · subst hjk
      rw [k.table_setTable]
      by_cases hid : id = id2
      · subst hid
        rw [h] at hg
        cases hg
        refine Or.inr ⟨n, hm, rfl, ha, ?_⟩
        exact getRow_replaced (k.table s) ⟨"DOC", id, row.DocPDF, n⟩
      · left
        have hne : (("DOC", id) : String × String) ≠ (DocRow.key ⟨"DOC", id2, row2.DocPDF, n⟩) := by
          simp [DocRow.key, hid]
        have hr := getRow_replaced_other (k.table s) ⟨"DOC", id2, row2.DocPDF, n⟩ hne
        simp only [DocRow.key] at hr
        exact hr.trans h
    · rw [DocKind.table_setTable_ne hjk]; exact Or.inl h

/-! ## C31 -/

theorem legal_target_in_domain {c n : String} (h : (c, n) ∈ legalEdges) :
    n ∈ documentStatuses := by
  simp only [legalEdges, List.mem_cons, Prod.mk.injEq, List.mem_singleton, List.not_mem_nil,
    or_false] at h
  rcases h with ⟨_, rfl⟩ | ⟨_, rfl⟩ | ⟨_, rfl⟩ | ⟨_, rfl⟩ | ⟨_, rfl⟩ <;> decide

theorem statusesInDomain_setTable {s : Store} (h : StatusesInDomain s) (k : DocKind)
    {t : List DocRow} (ht : ∀ r ∈ t, r.Status ∈ documentStatuses) :
    StatusesInDomain (k.setTable s t) := by
  intro j r hr
  by_cases hjk : j = k
  · subst hjk
    rw [j.table_setTable] at hr
    exact ht r hr
  · rw [DocKind.table_setTable_ne hjk] at hr
    exact h j r hr

theorem mem_deleteRow {t : List DocRow} {key : String × String} {r : DocRow}
    (h : r ∈ DeleteRow t key) : r ∈ t := by
  unfold DeleteRow at h
  exact List.mem_of_mem_filter h

theorem DocKind.submitDoc_statusesInDomain (k : DocKind) (s : Store) (args : List String)
    (h : StatusesInDomain s) : StatusesInDomain (k.SubmitDoc s args).2 := by
  rcases k.submitDoc_cases s args with e | ⟨id, p, _, e⟩
  · rw [e]; exact h
  · rw [e]
    apply statusesInDomain_setTable h
    intro r hr
    rcases List.mem_append.1 hr with hr | hr
    · exact h k r hr
    · rw [List.mem_singleton.1 hr]; simp [documentStatuses]

theorem DocKind.updateStatus_statusesInDomain (k : DocKind) (s : Store) (args : List String)
    (h : StatusesInDomain s) : StatusesInDomain (k.UpdateStatus s args).2 := by
  rcases k.updateStatus_cases s args with e | ⟨id, n, row, _, hm, _, _, e⟩
  · rw [e]; exact h
  · rw [e]
    apply statusesInDomain_setTable h
    intro r hr
    rcases List.mem_append.1 hr with hr | hr
    · exact h k r (mem_deleteRow hr)
    · rw [List.mem_singleton.1 hr]; exact legal_target_in_domain hm

theorem runCalls_statusesInDomain (po : POComponent) (caller : Caller) (calls : List Call)
    (s : Store) (h : StatusesInDomain s) : StatusesInDomain (runCalls po caller s calls) := by
  refine runCalls_preserves (P := StatusesInDomain) DocKind.submitDoc_statusesInDomain
    DocKind.updateStatus_statusesInDomain ?_ ?_ po caller calls s h
  · intro s t hs k r hr
    exact hs k r (by cases k <;> exact hr)
  · intro s t hs k r hr
    exact hs k r (by cases k <;> exact hr)

theorem statusesInDomain_empty : StatusesInDomain Store.empty := by
  intro k r hr
  cases k <;> simp [DocKind.table, Store.empty] at hr
/-- C31: status-domain invariant.  After any sequence of calls from the empty
store, each call a command sent to Invoke (any function name, any arguments) or
a direct SubmitDoc or UpdateStatus of any kind with arbitrary arguments, every
row of the bill-of-lading, invoice and packing-list tables has one of the six
statuses; and the same sequences keep the invariant from any store that has it. -/
theorem status_domain_invariant (po : POComponent) (caller : Caller) (calls : List Call) :
    (∀ (k : DocKind) (r : DocRow), r ∈ k.table (runCalls po caller Store.empty calls) →
        r.Status ∈ documentStatuses) ∧
      ∀ s : Store, StatusesInDomain s → StatusesInDomain (runCalls po caller s calls) :=
  ⟨runCalls_statusesInDomain po caller calls _ statusesInDomain_empty,
    fun s h => runCalls_statusesInDomain po caller calls s h⟩

theorem status_domain_invariant_witness :
    StatusesInDomain Store.submitted ∧
      StatusesInDomain
        (runCalls POComponent.idle Caller.anonymous Store.submitted
          [.updateStatus .BL ["1000", "SHIPPED"], .invoke "acceptED" ["1000", "SHIPPED"],
            .invoke "rejectED" ["1000"], .submitDoc .PL ["1001", "PLPDF"]]) :=
  ⟨fun k => by cases k <;> decide,
    (status_domain_invariant POComponent.idle Caller.anonymous
      [.updateStatus .BL ["1000", "SHIPPED"], .invoke "acceptED" ["1000", "SHIPPED"],
        .invoke "rejectED" ["1000"], .submitDoc .PL ["1001", "PLPDF"]]).2 Store.submitted
      (fun k => by cases k <;> decide)⟩

theorem no_edge_from_terminal {t n : String}
    (ht : t = "REJECTED_BY_IB" ∨ t = "PAYMENT_COMPLETED") : (t, n) ∉ legalEdges := by
  rcases ht with rfl | rfl <;> simp [legalEdges]

theorem runCalls_terminal (po : POComponent) (caller : Caller) (k : DocKind) (id t : String)
    (ht : t = "REJECTED_BY_IB" ∨ t = "PAYMENT_COMPLETED") (calls : List Call) (s : Store)
    (h : k.statusOf s id = some t) : k.statusOf (runCalls po caller s calls) id = some t := by
  refine runCalls_preserves (P := fun s => k.statusOf s id = some t) ?_ ?_ ?_ ?_
    po caller calls s h
  · intro j s args hs
    obtain ⟨row, hg, hr⟩ := DocKind.statusOf_some hs
    simp only [DocKind.statusOf]
    rw [DocKind.submitDoc_getRow_of_some j k s args hg]
    simp [hr]
  · intro j s args hs
    obtain ⟨row, hg, hr⟩ := DocKind.statusOf_some hs
    simp only [DocKind.statusOf]
    rcases DocKind.updateStatus_getRow_of_some j k s args hg with e | ⟨n, hm, _, _, _⟩
    · rw [e]; simp [hr]
    · rw [hr] at hm
      exact absurd hm (no_edge_from_terminal ht)
  · intro s t hs
    cases k <;> exact hs
  · intro s t hs
    cases k <;> exact hs

/-- C32: terminal statuses are absorbing.  When the row of kind `k` under
contract `id` has status `REJECTED_BY_IB` or `PAYMENT_COMPLETED`, it has the
same status after any sequence of calls, each a command sent to Invoke
(submitED, acceptED, rejectED or any other function, any arguments) or a direct
SubmitDoc or UpdateStatus of any kind with any arguments. -/
theorem terminal_status_absorbing (po : POComponent) (caller : Caller) (s : Store)
    (k : DocKind) (id t : String) (ht : t = "REJECTED_BY_IB" ∨ t = "PAYMENT_COMPLETED")
    (h : k.statusOf s id = some t) (calls : List Call) :
    k.statusOf (runCalls po caller s calls) id = some t :=
  runCalls_terminal po caller k id t ht calls s h

theorem terminal_status_absorbing_witness :
    DocKind.Invoice.statusOf Store.audited "1001" = some "REJECTED_BY_IB" ∧
      DocKind.Invoice.statusOf
        (runCalls POComponent.idle Caller.anonymous Store.audited
          [.invoke "acceptED" ["1001"], .invoke "acceptED" ["1001", "ACCEPTED_BY_IB"],
            .updateStatus .Invoice ["1001", "SUBMITTED_BY_EB"],
            .submitDoc .Invoice ["1001", "NEWPDF"],
            .invoke "submitED" ["1001", "B", "I", "P"]]) "1001" = some "REJECTED_BY_IB" :=
  ⟨by decide,
    terminal_status_absorbing POComponent.idle Caller.anonymous Store.audited .Invoice "1001"
      "REJECTED_BY_IB" (Or.inl rfl) (by decide) _⟩

/-- C36: on a contract id with no bill of lading, invoice or packing list,
rejectED([id]) succeeds and acceptED([id]) fails with the argument-count error
of the bill-of-lading UpdateStatus; both leave the store as it was. -/
theorem acceptED_rejectED_disagree_without_documents (po : POComponent) (caller : Caller)
    (s : Store) (id : String) (h : ∀ k : DocKind, GetRow (k.table s) ("DOC", id) = none) :
    Invoke po caller s "rejectED" [id] = (.ok (.raw none), s) ∧
      Invoke po caller s "acceptED" [id] =
        (.error "Incorrect number of arguments. Expecting 2.", s) ∧
      (BL.UpdateStatus s [id]).1 = .error "Incorrect number of arguments. Expecting 2." := by
  refine ⟨?_, ?_, rfl⟩
  · rw [invoke_rejectED, updateAll_eq]
    simp only [List.singleton_append]
    rw [DocKind.BL.updateStatus_absent _ (h .BL)]
    simp only
    rw [DocKind.Invoice.updateStatus_absent _ (h .Invoice)]
    simp only
    rw [DocKind.PL.updateStatus_absent _ (h .PL)]
  · apply acceptED_of_no_next
    simp [DocKind.statusOf, h .BL, bytesToString]

theorem acceptED_rejectED_disagree_without_documents_witness :
    (∀ k : DocKind, GetRow (k.table Store.initiated) ("DOC", "1000") = none) ∧
      Invoke POComponent.idle Caller.anonymous Store.initiated "rejectED" ["1000"] =
        (.ok (.raw none), Store.initiated) ∧
      Invoke POComponent.idle Caller.anonymous Store.initiated "acceptED" ["1000"] =
        (.error "Incorrect number of arguments. Expecting 2.", Store.initiated) :=
  ⟨fun k => by cases k <;> decide,
    (acceptED_rejectED_disagree_without_documents POComponent.idle Caller.anonymous
      Store.initiated "1000" (fun k => by cases k <;> decide)).1,
    (acceptED_rejectED_disagree_without_documents POComponent.idle Caller.anonymous
      Store.initiated "1000" (fun k => by cases k <;> decide)).2.1⟩
/-! ## C33 -/

theorem uid_ne_of_getRow_none {t : List DocRow} (htag : ∀ r ∈ t, r.TypeTag = "DOC")
    {id : String} (h : GetRow t ("DOC", id) = none) : id ∉ t.map DocRow.UID := by
  intro hmem
  obtain ⟨r, hr, hid⟩ := List.mem_map.1 hmem
  have hnone := List.find?_eq_none.1 h r hr
  apply hnone
  simp [DocRow.key, htag r hr, hid]

theorem docsWellFormed_append {t : List DocRow} (h : DocsWellFormed t) {id : String}
    (hnew : GetRow t ("DOC", id) = none) (p st : String) :
    DocsWellFormed (t ++ [⟨"DOC", id, p, st⟩]) := by
  obtain ⟨h1, h2⟩ := h
  refine ⟨?_, ?_⟩
  · intro x hx
    rcases List.mem_append.1 hx with hx | hx
    · exact h1 x hx
    · rw [List.mem_singleton.1 hx]
  · rw [List.map_append, List.nodup_append]
    refine ⟨h2, List.nodup_singleton _, ?_⟩
    intro a ha hb
    simp only [List.map_cons, List.map_nil, List.mem_singleton] at hb
    exact uid_ne_of_getRow_none h1 hnew (hb ▸ ha)

theorem docsWellFormed_deleteRow {t : List DocRow} (h : DocsWellFormed t)
    (key : String × String) : DocsWellFormed (DeleteRow t key) := by
  obtain ⟨h1, h2⟩ := h
  refine ⟨fun r hr => h1 r (mem_deleteRow hr), ?_⟩
  unfold DeleteRow
  exact h2.sublist ((List.filter_sublist _).map _)

theorem docsWellFormed_replace {t : List DocRow} (h : DocsWellFormed t) (id p st : String) :
    DocsWellFormed (DeleteRow t ("DOC", id) ++ [⟨"DOC", id, p, st⟩]) :=
  docsWellFormed_append (docsWellFormed_deleteRow h _) (getRow_deleteRow_self t ("DOC", id)) p st

theorem docsWellFormed_setTable {s : Store} (h : ∀ k : DocKind, DocsWellFormed (k.table s))
    (k : DocKind) {t : List DocRow} (ht : DocsWellFormed t) :
    ∀ j : DocKind, DocsWellFormed (j.table (k.setTable s t)) := by
  intro j
  by_cases hjk : j = k
  · subst hjk
    rw [j.table_setTable]
    exact ht
  · rw [DocKind.table_setTable_ne hjk]
    exact h j

theorem runCalls_docsWellFormed (po : POComponent) (caller : Caller) (calls : List Call)
    (s : Store) (h : ∀ k : DocKind, DocsWellFormed (k.table s)) :
    ∀ k : DocKind, DocsWellFormed (k.table (runCalls po caller s calls)) := by
  refine runCalls_preserves (P := fun s => ∀ k : DocKind, DocsWellFormed (k.table s))
    ?_ ?_ ?_ ?_ po caller calls s h
  · intro k s args hs
    rcases k.submitDoc_cases s args with e | ⟨id, p, hg, e⟩
    · rw [e]; exact hs
    · rw [e]; exact docsWellFormed_setTable hs k (docsWellFormed_append (hs k) hg _ _)
  · intro k s args hs
    rcases k.updateStatus_cases s args with e | ⟨id, n, row, _, _, _, _, e⟩
    · rw [e]; exact hs
    · rw [e]; exact docsWellFormed_setTable hs k (docsWellFormed_replace (hs k) _ _ _)
  · intro s t hs k
    have := hs k
    cases k <;> exact this
  · intro s t hs k
    have := hs k
    cases k <;> exact this

theorem runCalls_keeps_payload (po : POComponent) (caller : Caller) (k : DocKind)
    (id p : String) (calls : List Call) (s : Store)
    (h : ∃ row, GetRow (k.table s) ("DOC", id) = some row ∧ row.DocPDF = p) :
    ∃ row, GetRow (k.table (runCalls po caller s calls)) ("DOC", id) = some row ∧
      row.DocPDF = p := by
  refine runCalls_preserves
    (P := fun s => ∃ row, GetRow (k.table s) ("DOC", id) = some row ∧ row.DocPDF = p)
    ?_ ?_ ?_ ?_ po caller calls s h
  · rintro j s args ⟨row, hg, hp⟩
    exact ⟨row, DocKind.submitDoc_getRow_of_some j k s args hg, hp⟩
  · rintro j s args ⟨row, hg, hp⟩
    rcases DocKind.updateStatus_getRow_of_some j k s args hg with e | ⟨n, _, _, _, e⟩
    · exact ⟨row, e, hp⟩
    · exact ⟨_, e, hp⟩
  · intro s t hs
    cases k <;> exact hs
  · intro s t hs
    cases k <;> exact hs

/-- C33: documents are never deleted and their payload never changes.  In every
store reached from the empty store by a sequence of calls (commands sent to
Invoke and direct SubmitDoc and UpdateStatus calls, any arguments) each document
table holds rows tagged "DOC" only and no contract id twice; and when a store
holds a row of kind `k` for contract `id`, then after any further sequence of
calls a row is still stored under that id, it has the same payload, and
GetPDF([id]) of that kind returns that payload. -/
theorem documents_persist (po : POComponent) (caller : Caller) (calls : List Call) :
    (∀ k : DocKind, DocsWellFormed (k.table (runCalls po caller Store.empty calls))) ∧
      ∀ (s : Store) (k : DocKind) (id : String) (row : DocRow),
        GetRow (k.table s) ("DOC", id) = some row →
          (∃ row2, GetRow (k.table (runCalls po caller s calls)) ("DOC", id) = some row2 ∧
            row2.DocPDF = row.DocPDF) ∧
          (k.GetPDF (runCalls po caller s calls) [id]).1 = .ok (some row.DocPDF) := by
  refine ⟨runCalls_docsWellFormed po caller calls _ ?_, ?_⟩
  · intro k
    cases k <;> exact ⟨by simp [DocKind.table, Store.empty], by simp [DocKind.table, Store.empty]⟩
  · intro s k id row hg
    have h := runCalls_keeps_payload po caller k id row.DocPDF calls s ⟨row, hg, rfl⟩
    refine ⟨h, ?_⟩
    obtain ⟨row2, hg2, hp2⟩ := h
    rw [k.getPDF_one, hg2]
    simp [hp2]

theorem documents_persist_witness :
    GetRow (DocKind.BL.table Store.submitted) ("DOC", "1000") =
        some ⟨"DOC", "1000", "BLPDF", "SUBMITTED_BY_EB"⟩ ∧
      (DocKind.BL.GetPDF
        (runCalls POComponent.idle Caller.anonymous Store.submitted
          [.invoke "acceptED" ["1000"], .submitDoc .BL ["1000", "OTHER"],
            .invoke "submitED" ["1000", "X", "Y", "Z"], .invoke "rejectED" ["1000"]])
        ["1000"]).1 = .ok (some "BLPDF") :=
  ⟨by decide,
    ((documents_persist POComponent.idle Caller.anonymous
      [.invoke "acceptED" ["1000"], .submitDoc .BL ["1000", "OTHER"],
        .invoke "submitED" ["1000", "X", "Y", "Z"], .invoke "rejectED" ["1000"]]).2
      Store.submitted .BL "1000" ⟨"DOC", "1000", "BLPDF", "SUBMITTED_BY_EB"⟩ (by decide)).2⟩
/-! ## C37 -/

theorem statusRank_lt_of_legal {c n : String} (h : (c, n) ∈ legalEdges) :
    statusRank c < statusRank n := by
  simp only [legalEdges, List.mem_cons, Prod.mk.injEq, List.mem_singleton, List.not_mem_nil,
    or_false] at h
  rcases h with ⟨rfl, rfl⟩ | ⟨rfl, rfl⟩ | ⟨rfl, rfl⟩ | ⟨rfl, rfl⟩ | ⟨rfl, rfl⟩ <;> decide

theorem statusRank_le_four (s : String) : statusRank s ≤ 4 := by
  unfold statusRank
  split_ifs <;> omega

theorem DocKind.updateStatus_getRow_of_none (j k : DocKind) (s : Store) (args : List String)
    {id : String} (h : GetRow (k.table s) ("DOC", id) = none) :
    GetRow (k.table (j.UpdateStatus s args).2) ("DOC", id) = none := by
  rcases j.updateStatus_cases s args with e | ⟨id2, n, row2, hg, _, _, _, e⟩
  · rw [e]; exact h
  · rw [e]
    by_cases hjk : k = j
    · subst hjk
      rw [k.table_setTable]
      have hid : id ≠ id2 := by
        rintro rfl
        rw [h] at hg
        cases hg
      have hne : (("DOC", id) : String × String) ≠
          (DocRow.key ⟨"DOC", id2, row2.DocPDF, n⟩) := by
        simp [DocRow.key, hid]
      have hr := getRow_replaced_other (k.table s) ⟨"DOC", id2, row2.DocPDF, n⟩ hne
      simp only [DocRow.key] at hr
      exact hr.trans h
    · rw [DocKind.table_setTable_ne hjk]; exact h

/-- One `UpdateStatus` call seen from one document: its status stays, or it
moves along a legal edge to the status the call names. -/
theorem DocKind.updateStatus_statusOf_step (j k : DocKind) (s : Store) (args : List String)
    (id : String) :
    k.statusOf (j.UpdateStatus s args).2 id = k.statusOf s id ∨
      ∃ c n, k.statusOf s id = some c ∧ k.statusOf (j.UpdateStatus s args).2 id = some n ∧
        (c, n) ∈ legalEdges ∧ j = k ∧ args = [id, n] := by
  unfold DocKind.statusOf
  cases hg : GetRow (k.table s) ("DOC", id) with
  | none => rw [DocKind.updateStatus_getRow_of_none j k s args hg]; exact Or.inl rfl
  | some row =>
    rcases DocKind.updateStatus_getRow_of_some j k s args hg with e | ⟨n, hm, hjk, ha, e⟩
    · rw [e]; exact Or.inl rfl
    · rw [e]; exact Or.inr ⟨row.Status, n, rfl, rfl, hm, hjk, ha⟩

/-- The rank of the status of a document, 0 when it has no row. -/
theorem statusChanges_add_rank_le (k : DocKind) (id : String) (argss : List (List String)) :
    ∀ s : Store,
      statusChanges k id s argss + ((k.statusOf s id).map statusRank).getD 0 ≤ 4 := by
  induction argss with
  | nil =>
    intro s
    simp only [statusChanges, Nat.zero_add]
    cases k.statusOf s id with
    | none => simp
    | some c => simpa using statusRank_le_four c
  | cons a rest ih =>
    intro s
    have hih := ih (k.UpdateStatus s a).2
    rw [statusChanges]
    rcases DocKind.updateStatus_statusOf_step k k s a id with e | ⟨c, n, hc, hn, hm, _, _⟩
    · rw [if_pos e]
      rw [e] at hih
      omega
    · have hlt := statusRank_lt_of_legal hm
      rw [hn] at hih
      rw [hc]
      simp only [Option.map_some', Option.getD_some] at hih ⊢
      split <;> omega

theorem runUpdates_rank (k : DocKind) (id : String) (argss : List (List String)) :
    ∀ (s : Store) (c : String), k.statusOf s id = some c →
      ∃ c2, k.statusOf (runUpdates k s argss) id = some c2 ∧
        (c2 = c ∨ statusRank c < statusRank c2) := by
  induction argss with
  | nil => intro s c h; exact ⟨c, h, Or.inl rfl⟩
  | cons a rest ih =>
    intro s c h
    rw [runUpdates]
    rcases DocKind.updateStatus_statusOf_step k k s a id with e | ⟨c1, n, hc, hn, hm, _, _⟩
    · exact ih _ c (e.trans h)
    · rw [h] at hc
      cases hc
      obtain ⟨c2, h2, hr⟩ := ih _ n hn
      have hlt := statusRank_lt_of_legal hm
      refine ⟨c2, h2, Or.inr ?_⟩
      rcases hr with rfl | hr
      · exact hlt
      · omega

/-- C37: bounded progress.  The rank strictly increases along every legal edge;
a successful UpdateStatus on an existing row moves it to a status of strictly
higher rank; in any sequence of UpdateStatus calls of one kind (any argument
lists) at most four calls change the status of a given document; and once the
status of a document has moved away from `c`, no further calls bring it back
to `c`. -/
theorem updateStatus_bounded_progress (k : DocKind) (id : String) :
    (∀ c n : String, (c, n) ∈ legalEdges → statusRank c < statusRank n) ∧
    (∀ (s : Store) (n : String) (row : DocRow),
      GetRow (k.table s) ("DOC", id) = some row →
      (k.UpdateStatus s [id, n]).1 = .ok none →
        statusRank row.Status < statusRank n ∧
          k.statusOf (k.UpdateStatus s [id, n]).2 id = some n) ∧
    (∀ (s : Store) (argss : List (List String)), statusChanges k id s argss ≤ 4) ∧
    (∀ (s : Store) (c : String) (first later : List (List String)),
      k.statusOf s id = some c →
      k.statusOf (runUpdates k s first) id ≠ some c →
        k.statusOf (runUpdates k (runUpdates k s first) later) id ≠ some c) := by
  refine ⟨fun c n h => statusRank_lt_of_legal h, ?_, ?_, ?_⟩
  · intro s n row hg hok
    rw [k.updateStatus_found n hg] at hok ⊢
    by_cases hm : (row.Status, n) ∈ legalEdges
    · rw [if_pos hm]
      refine ⟨statusRank_lt_of_legal hm, ?_⟩
      simp only [DocKind.statusOf]
      rw [k.table_setTable]
      have := getRow_replaced (k.table s) ⟨"DOC", id, row.DocPDF, n⟩
      simp only [DocRow.key] at this
      rw [this]
      rfl
    · rw [if_neg hm] at hok
      cases hok
  · intro s argss
    have := statusChanges_add_rank_le k id argss s
    omega
  · intro s c first later hc hleft
    obtain ⟨c1, h1, hr1⟩ := runUpdates_rank k id first s c hc
    have hne : c1 ≠ c := by
      rintro rfl
      exact hleft h1
    have hlt : statusRank c < statusRank c1 := by
      rcases hr1 with rfl | h
      · exact absurd rfl hne
      · exact h
    obtain ⟨c2, h2, hr2⟩ := runUpdates_rank k id later _ c1 h1
    rw [h2]
    intro heq
    cases heq
    rcases hr2 with rfl | h
    · omega
    · omega

theorem updateStatus_bounded_progress_witness :
    (("SUBMITTED_BY_EB", "ACCEPTED_BY_IB") ∈ legalEdges ∧
      statusRank "SUBMITTED_BY_EB" < statusRank "ACCEPTED_BY_IB") ∧
    statusChanges .BL "1000" Store.submitted
      [["1000", "ACCEPTED_BY_IB"], ["1000", "SUBMITTED_BY_EB"], ["1000", "PAYMENT_INITIATED"],
        ["1000", "PAYMENT_INPROGRESS"], ["1000", "PAYMENT_COMPLETED"],
        ["1000", "REJECTED_BY_IB"]] ≤ 4 :=
  ⟨⟨by decide,
    (updateStatus_bounded_progress .BL "1000").1 "SUBMITTED_BY_EB" "ACCEPTED_BY_IB" (by decide)⟩,
    (updateStatus_bounded_progress .BL "1000").2.2.1 Store.submitted _⟩
/-! ## C34 -/

theorem DocKind.getStatus_arity (k : DocKind) (s : Store) {args : List String}
    (h : args.length ≠ 1) :
    k.GetStatus s args = (.error "Incorrect number of arguments. Expecting 1.", s) := by
  match args, h with
  | [], _ => cases k <;> rfl
  | [_], h => exact absurd rfl h
  | _ :: _ :: _, _ => cases k <;> rfl

theorem DocKind.getPDF_arity (k : DocKind) (s : Store) {args : List String}
    (h : args.length ≠ 1) :
    k.GetPDF s args = (.error "Incorrect number of arguments. Expecting 1.", s) := by
  match args, h with
  | [], _ => cases k <;> rfl
  | [_], h => exact absurd rfl h
  | _ :: _ :: _, _ => cases k <;> rfl

theorem DocKind.submitDoc_agree (j k : DocKind) (s u : Store) (h : j.table s = k.table u)
    (args : List String) :
    (j.SubmitDoc s args).1 = (k.SubmitDoc u args).1 ∧
      j.table (j.SubmitDoc s args).2 = k.table (k.SubmitDoc u args).2 := by
  by_cases hl : args.length = 2
  · match args, hl with
    | [id, p], _ =>
      cases hg : GetRow (k.table u) ("DOC", id) with
      | none =>
        rw [k.submitDoc_absent p hg, j.submitDoc_absent p (h ▸ hg), j.table_setTable,
          k.table_setTable, h]
        exact ⟨rfl, rfl⟩
      | some row =>
        rw [k.submitDoc_present p hg, j.submitDoc_present p (h ▸ hg)]
        exact ⟨rfl, h⟩
  · rw [k.submitDoc_arity u hl, j.submitDoc_arity s hl]
    exact ⟨rfl, h⟩

theorem DocKind.reads_agree (j k : DocKind) (s u : Store) (h : j.table s = k.table u)
    (args : List String) :
    (j.GetPDF s args).1 = (k.GetPDF u args).1 ∧ (j.GetStatus s args).1 = (k.GetStatus u args).1 := by
  by_cases hl : args.length = 1
  · match args, hl with
    | [id], _ => rw [j.getPDF_one, k.getPDF_one, j.getStatus_one, k.getStatus_one, h]
                 exact ⟨rfl, rfl⟩
  · rw [j.getPDF_arity s hl, k.getPDF_arity u hl, j.getStatus_arity s hl, k.getStatus_arity u hl]
    exact ⟨rfl, rfl⟩

theorem DocKind.updateStatus_agree (j k : DocKind) (s u : Store) (h : j.table s = k.table u)
    (args : List String) :
    j.table (j.UpdateStatus s args).2 = k.table (k.UpdateStatus u args).2 ∧
      (args.length = 2 → (j.UpdateStatus s args).1 = (k.UpdateStatus u args).1) := by
  by_cases hl : args.length = 2
  · match args, hl with
    | [id, n], _ =>
      cases hg : GetRow (k.table u) ("DOC", id) with
      | none =>
        rw [k.updateStatus_absent n hg, j.updateStatus_absent n (h ▸ hg)]
        exact ⟨h, fun _ => rfl⟩
      | some row =>
        rw [k.updateStatus_found n hg, j.updateStatus_found n (h ▸ hg)]
        by_cases hm : (row.Status, n) ∈ legalEdges
        · rw [if_pos hm, if_pos hm, j.table_setTable, k.table_setTable, h]
          exact ⟨rfl, fun _ => rfl⟩
        · rw [if_neg hm, if_neg hm]
          exact ⟨h, fun _ => rfl⟩
  · rw [k.updateStatus_arity u hl, j.updateStatus_arity s hl]
    exact ⟨h, fun h2 => absurd h2 hl⟩

/-- C34, the code at the failing input.  On equal table contents the three
kinds agree on SubmitDoc, GetPDF and GetStatus (same result, same table
afterwards), and on UpdateStatus they leave the same table and, for two
arguments, return the same result.  For any other argument count the bill of
lading and the invoice answer "Incorrect number of arguments. Expecting 2."
and the packing list answers "Incorrect number of arguments. Expecting 3.":
the error is not the same. -/
theorem packing_list_arity_message_differs (sB sI sP : Store) (t : List DocRow)
    (hB : sB.BLTable = t) (hI : sI.invoiceTable = t) (hP : sP.PLTable = t)
    (args : List String) :
    ((BL.SubmitDoc sB args).1 = (Invoice.SubmitDoc sI args).1 ∧
      (BL.SubmitDoc sB args).1 = (PL.SubmitDoc sP args).1 ∧
      (BL.SubmitDoc sB args).2.BLTable = (Invoice.SubmitDoc sI args).2.invoiceTable ∧
      (BL.SubmitDoc sB args).2.BLTable = (PL.SubmitDoc sP args).2.PLTable) ∧
    ((BL.GetPDF sB args).1 = (Invoice.GetPDF sI args).1 ∧
      (BL.GetPDF sB args).1 = (PL.GetPDF sP args).1 ∧
      (BL.GetStatus sB args).1 = (Invoice.GetStatus sI args).1 ∧
      (BL.GetStatus sB args).1 = (PL.GetStatus sP args).1) ∧
    ((BL.UpdateStatus sB args).1 = (Invoice.UpdateStatus sI args).1 ∧
      (BL.UpdateStatus sB args).2.BLTable = (Invoice.UpdateStatus sI args).2.invoiceTable ∧
      (BL.UpdateStatus sB args).2.BLTable = (PL.UpdateStatus sP args).2.PLTable ∧
      (args.length = 2 → (BL.UpdateStatus sB args).1 = (PL.UpdateStatus sP args).1)) ∧
    (args.length ≠ 2 →
      (BL.UpdateStatus sB args).1 = .error "Incorrect number of arguments. Expecting 2." ∧
      (Invoice.UpdateStatus sI args).1 = .error "Incorrect number of arguments. Expecting 2." ∧
      (PL.UpdateStatus sP args).1 = .error "Incorrect number of arguments. Expecting 3." ∧
      (BL.UpdateStatus sB args).1 ≠ (PL.UpdateStatus sP args).1) := by
  have hBI : DocKind.BL.table sB = DocKind.Invoice.table sI := hB.trans hI.symm
  have hBP : DocKind.BL.table sB = DocKind.PL.table sP := hB.trans hP.symm
  refine ⟨?_, ?_, ?_, ?_⟩
  · exact ⟨(DocKind.submitDoc_agree .BL .Invoice sB sI hBI args).1,
      (DocKind.submitDoc_agree .BL .PL sB sP hBP args).1,
      (DocKind.submitDoc_agree .BL .Invoice sB sI hBI args).2,
      (DocKind.submitDoc_agree .BL .PL sB sP hBP args).2⟩
  · exact ⟨(DocKind.reads_agree .BL .Invoice sB sI hBI args).1,
      (DocKind.reads_agree .BL .PL sB sP hBP args).1,
      (DocKind.reads_agree .BL .Invoice sB sI hBI args).2,
      (DocKind.reads_agree .BL .PL sB sP hBP args).2⟩
  · refine ⟨?_, (DocKind.updateStatus_agree .BL .Invoice sB sI hBI args).1,
      (DocKind.updateStatus_agree .BL .PL sB sP hBP args).1,
      (DocKind.updateStatus_agree .BL .PL sB sP hBP args).2⟩
    by_cases hl : args.length = 2
    · exact (DocKind.updateStatus_agree .BL .Invoice sB sI hBI args).2 hl
    · have h1 := DocKind.BL.updateStatus_arity sB hl
      have h2 := DocKind.Invoice.updateStatus_arity sI hl
      simp only [DocKind.UpdateStatus] at h1 h2
      rw [h1, h2]
      rfl
  · intro hl
    have h1 := DocKind.BL.updateStatus_arity sB hl
    have h2 := DocKind.Invoice.updateStatus_arity sI hl
    have h3 := DocKind.PL.updateStatus_arity sP hl
    simp only [DocKind.UpdateStatus] at h1 h2 h3
    rw [h1, h2, h3]
    exact ⟨rfl, rfl, rfl, by simp⟩

theorem packing_list_arity_message_differs_witness :
    (BL.UpdateStatus Store.submitted ["1000"]).1 =
        .error "Incorrect number of arguments. Expecting 2." ∧
      (PL.UpdateStatus
        { Store.empty with PLTable := Store.submitted.BLTable } ["1000"]).1 =
        .error "Incorrect number of arguments. Expecting 3." :=
  ⟨((packing_list_arity_message_differs Store.submitted
      { Store.empty with invoiceTable := Store.submitted.BLTable }
      { Store.empty with PLTable := Store.submitted.BLTable } Store.submitted.BLTable
      rfl rfl rfl ["1000"]).2.2.2 (by decide)).1,
    ((packing_list_arity_message_differs Store.submitted
      { Store.empty with invoiceTable := Store.submitted.BLTable }
      { Store.empty with PLTable := Store.submitted.BLTable } Store.submitted.BLTable
      rfl rfl rfl ["1000"]).2.2.2 (by decide)).2.2.1⟩
/-! ## C38 and C39 -/

theorem query_listContracts_eq (po : POComponent) (caller : Caller) (s : Store) :
    Query po caller s "listContracts" [] =
      (.ok (.contracts ((GetRowsBP s.BPTable "BP").map fun row =>
        if bytesToString (DocKind.BL.statusOf s row.UID) ≠ "" then
          ⟨row.UID, bytesToString (DocKind.BL.statusOf s row.UID)⟩
        else ⟨row.UID, row.Status⟩)), s) := by
  rw [query_listContracts, listContracts, listContractsLoop_off, List.nil_append]

theorem query_listEDsByStatus_eq (po : POComponent) (caller : Caller) (s : Store)
    (st : String) :
    Query po caller s "listEDsByStatus" [st] =
      (.ok (.contracts
        (((GetRowsBP s.BPTable "BP").filter fun row =>
            decide (bytesToString (DocKind.BL.statusOf s row.UID) = st)).map
          fun row => ⟨row.UID, st⟩)), s) := by
  rw [query_listEDsByStatus, listEDsByStatus, listEDsByStatusLoop_off, List.nil_append]

theorem filter_overlay (b : String → String) (st : String) (hst : st ≠ "") :
    ∀ rows : List BPRow, (∀ r ∈ rows, r.Status ≠ st) →
      (rows.map fun row =>
          if b row.UID ≠ "" then (⟨row.UID, b row.UID⟩ : Contract)
          else ⟨row.UID, row.Status⟩).filter (fun c => decide (c.ContractStatus = st)) =
        (rows.filter fun row => decide (b row.UID = st)).map fun row => ⟨row.UID, st⟩ := by
  intro rows
  induction rows with
  | nil => intro _; rfl
  | cons r rows ih =>
    intro h
    have hr : r.Status ≠ st := h r (List.mem_cons_self _ _)
    have ih2 := ih fun x hx => h x (List.mem_cons_of_mem _ hx)
    rw [List.map_cons, List.filter_cons, List.filter_cons, ih2]
    by_cases hb : b r.UID = st
    · have hne : b r.UID ≠ "" := by rw [hb]; exact hst
      simp [hb, hst]
    · by_cases he : b r.UID = ""
      · have hst2 : ¬ "" = st := fun e => hst e.symm
        simp [he, hr, hst2]
      · simp [he, hb]

theorem runCalls_contracts_in_progress (po : POComponent) (caller : Caller)
    (calls : List Call) :
    ∀ s : Store, (∀ r ∈ s.BPTable, r.Status = "IN_PROGRESS") →
      ∀ r ∈ (runCalls po caller s calls).BPTable, r.Status = "IN_PROGRESS" := by
  induction calls with
  | nil => intro s h; exact h
  | cons c cs ih =>
    intro s h
    rw [runCalls]
    apply ih
    cases c with
    | submitDoc k args =>
      simp only [Call.run]
      rw [k.submitDoc_BPTable]; exact h
    | updateStatus k args =>
      simp only [Call.run]
      rw [k.updateStatus_BPTable]; exact h
    | invoke f args =>
      simp only [Call.run]
      by_cases hf : f = "initTrade"
      · subst hf
        by_cases hl : args.length = 10
        · obtain ⟨a0, a1, a2, a3, a4, a5, a6, a7, a8, a9, rfl⟩ := list_of_length_ten hl
          cases hg : GetRowBP s.BPTable ("BP", a0) with
          | some row => rw [invoke_initTrade_present po caller hg]; exact h
          | none =>
            rw [invoke_initTrade_absent po caller hg]
            intro r hr
            rcases List.mem_append.1 hr with hr | hr
            · exact h r hr
            · rw [List.mem_singleton.1 hr]; rfl
        · rw [invoke_initTrade_arity po caller s hl]; exact h
      · rw [invoke_BPTable_of_ne po caller s hf]; exact h

theorem bl_status_in_domain {s : Store} (h : StatusesInDomain s) (id : String) :
    bytesToString (DocKind.BL.statusOf s id) = "" ∨
      bytesToString (DocKind.BL.statusOf s id) ∈ documentStatuses := by
  unfold DocKind.statusOf
  cases hg : GetRow (DocKind.BL.table s) ("DOC", id) with
  | none => exact Or.inl rfl
  | some row =>
    right
    have hmem : row ∈ DocKind.BL.table s := List.mem_of_find?_eq_some hg
    simpa [bytesToString] using h .BL row hmem
theorem runCalls_contracts_tagged (po : POComponent) (caller : Caller)
    (calls : List Call) :
    ∀ s : Store, (∀ r ∈ s.BPTable, r.TypeTag = "BP") →
      ∀ r ∈ (runCalls po caller s calls).BPTable, r.TypeTag = "BP" := by
  induction calls with
  | nil => intro s h; exact h
  | cons c cs ih =>
    intro s h
    rw [runCalls]
    apply ih
    cases c with
    | submitDoc k args =>
      simp only [Call.run]
      rw [k.submitDoc_BPTable]; exact h
    | updateStatus k args =>
      simp only [Call.run]
      rw [k.updateStatus_BPTable]; exact h
    | invoke f args =>
      simp only [Call.run]
      by_cases hf : f = "initTrade"
      · subst hf
        by_cases hl : args.length = 10
        · obtain ⟨a0, a1, a2, a3, a4, a5, a6, a7, a8, a9, rfl⟩ := list_of_length_ten hl
          cases hg : GetRowBP s.BPTable ("BP", a0) with
          | some row => rw [invoke_initTrade_present po caller hg]; exact h
          | none =>
            rw [invoke_initTrade_absent po caller hg]
            intro r hr
            rcases List.mem_append.1 hr with hr | hr
            · exact h r hr
            · rw [List.mem_singleton.1 hr]; rfl
        · rw [invoke_initTrade_arity po caller s hl]; exact h
      · rw [invoke_BPTable_of_ne po caller s hf]; exact h

/-- C38, the code at the failing input.  In every store reached from the empty
store by a sequence of calls, and for each of the six document statuses `st`,
listEDsByStatus([st]) returns the list listContracts([]) returns, filtered to
the entries whose ContractStatus is `st`, in the same order.  For "IN_PROGRESS"
the two differ as soon as some contract with a non-empty id has no bill of
lading: listEDsByStatus(["IN_PROGRESS"]) is empty while listContracts reports
that contract as IN_PROGRESS.  A contract stored under the empty id is not
delivered by the scan behind either query: after that one `initTrade` there is a
contract row without a bill of lading, and both listContracts([]) and
listEDsByStatus(["IN_PROGRESS"]) return the empty list, so the two do not
differ. -/
theorem audit_queries_agree_on_live_status (po : POComponent) (caller : Caller)
    (calls : List Call) :
    (∀ st ∈ documentStatuses, ∃ l : List Contract,
      (Query po caller (runCalls po caller Store.empty calls) "listContracts" []).1 =
        .ok (.contracts l) ∧
      (Query po caller (runCalls po caller Store.empty calls) "listEDsByStatus" [st]).1 =
        .ok (.contracts (l.filter fun c => decide (c.ContractStatus = st)))) ∧
    (∀ row ∈ (runCalls po caller Store.empty calls).BPTable, row.UID ≠ "" →
      GetRow (runCalls po caller Store.empty calls).BLTable ("DOC", row.UID) = none →
      ∃ l : List Contract,
        (Query po caller (runCalls po caller Store.empty calls) "listContracts" []).1 =
          .ok (.contracts l) ∧
        (⟨row.UID, "IN_PROGRESS"⟩ : Contract) ∈
          l.filter (fun c => decide (c.ContractStatus = "IN_PROGRESS")) ∧
        (Query po caller (runCalls po caller Store.empty calls) "listEDsByStatus"
          ["IN_PROGRESS"]).1 = .ok (.contracts [])) ∧
    ((runCalls po caller Store.empty
        [.invoke "initTrade" ["", "po", "I", "E", "IB", "EB", "c1", "c2", "c3", "c4"]]).BPTable =
        [contractRow "" "I" "E" "IB" "EB" "c1" "c2" "c3" "c4"] ∧
      (runCalls po caller Store.empty
        [.invoke "initTrade" ["", "po", "I", "E", "IB", "EB", "c1", "c2", "c3", "c4"]]).BLTable =
        [] ∧
      (Query po caller
        (runCalls po caller Store.empty
          [.invoke "initTrade" ["", "po", "I", "E", "IB", "EB", "c1", "c2", "c3", "c4"]])
        "listContracts" []).1 = .ok (.contracts []) ∧
      (Query po caller
        (runCalls po caller Store.empty
          [.invoke "initTrade" ["", "po", "I", "E", "IB", "EB", "c1", "c2", "c3", "c4"]])
        "listEDsByStatus" ["IN_PROGRESS"]).1 = .ok (.contracts [])) := by
  have hfail : runCalls po caller Store.empty
      [.invoke "initTrade" ["", "po", "I", "E", "IB", "EB", "c1", "c2", "c3", "c4"]] =
      { Store.empty with
        BPTable := [contractRow "" "I" "E" "IB" "EB" "c1" "c2" "c3" "c4"]
        POTable := (po.SubmitDoc [] ["", "po"]).2 } := by
    have hfresh : GetRowBP Store.empty.BPTable ("BP", "") = none := rfl
    simp only [runCalls, Call.run]
    rw [invoke_initTrade_absent po caller hfresh]
    rfl
  have hdom : StatusesInDomain (runCalls po caller Store.empty calls) :=
    runCalls_statusesInDomain po caller calls _ statusesInDomain_empty
  have hbp : ∀ r ∈ (runCalls po caller Store.empty calls).BPTable, r.Status = "IN_PROGRESS" :=
    runCalls_contracts_in_progress po caller calls _ (by simp [Store.empty])
  have htag : ∀ r ∈ (runCalls po caller Store.empty calls).BPTable, r.TypeTag = "BP" :=
    runCalls_contracts_tagged po caller calls _ (by simp [Store.empty])
  generalize runCalls po caller Store.empty calls = s at hdom hbp htag
  refine ⟨?_, ?_, ?_⟩
  · intro st hst
    refine ⟨_, by rw [query_listContracts_eq], ?_⟩
    rw [query_listEDsByStatus_eq]
    have hne : st ≠ "" := by
      rintro rfl
      revert hst
      decide
    have hip : st ≠ "IN_PROGRESS" := by
      rintro rfl
      revert hst
      decide
    have hrows : ∀ r ∈ GetRowsBP s.BPTable "BP", r.Status ≠ st := by
      intro r hr
      rw [hbp r (mem_getRowsBP.1 hr).1]
      exact fun e => hip e.symm
    rw [filter_overlay (fun id => bytesToString (DocKind.BL.statusOf s id)) st hne _ hrows]
  · intro row hmem hid hnone
    have hrow : row ∈ GetRowsBP s.BPTable "BP" := mem_getRowsBP.2 ⟨hmem, htag row hmem, hid⟩
    refine ⟨_, by rw [query_listContracts_eq], ?_, ?_⟩
    · rw [List.mem_filter]
      refine ⟨List.mem_map.2 ⟨row, hrow, ?_⟩, by simp⟩
      have hb : bytesToString (DocKind.BL.statusOf s row.UID) = "" := by
        simp [DocKind.statusOf, DocKind.table, hnone, bytesToString]
      simp [hb, hbp row hmem]
    · rw [query_listEDsByStatus_eq]
      have hempty : (GetRowsBP s.BPTable "BP").filter
          (fun row => decide (bytesToString (DocKind.BL.statusOf s row.UID) = "IN_PROGRESS"))
          = [] := by
        rw [List.filter_eq_nil_iff]
        intro r _
        rcases bl_status_in_domain hdom r.UID with h | h
        · simp [h]
        · intro hd
          have hd2 : bytesToString (DocKind.BL.statusOf s r.UID) = "IN_PROGRESS" := by
            simpa using hd
          rw [hd2] at h
          revert h
          decide
      rw [hempty]
      rfl
  · rw [hfail]
    refine ⟨rfl, rfl, ?_, ?_⟩
    · rw [query_listContracts_eq]
      rfl
    · rw [query_listEDsByStatus_eq]
      rfl

theorem audit_queries_agree_on_live_status_witness :
    "ACCEPTED_BY_IB" ∈ documentStatuses ∧
      ∃ l : List Contract,
        (Query POComponent.idle Caller.anonymous
          (runCalls POComponent.idle Caller.anonymous Store.empty
            [.invoke "initTrade" ["1000", "PO", "I", "E", "IB", "EB", "c1", "c2", "c3", "c4"],
              .invoke "submitED" ["1000", "B", "I", "P"], .invoke "acceptED" ["1000"]])
          "listContracts" []).1 = .ok (.contracts l) ∧
        (Query POComponent.idle Caller.anonymous
          (runCalls POComponent.idle Caller.anonymous Store.empty
            [.invoke "initTrade" ["1000", "PO", "I", "E", "IB", "EB", "c1", "c2", "c3", "c4"],
              .invoke "submitED" ["1000", "B", "I", "P"], .invoke "acceptED" ["1000"]])
          "listEDsByStatus" ["ACCEPTED_BY_IB"]).1 =
          .ok (.contracts (l.filter fun c => decide (c.ContractStatus = "ACCEPTED_BY_IB"))) :=
  ⟨by decide,
    (audit_queries_agree_on_live_status POComponent.idle Caller.anonymous
      [.invoke "initTrade" ["1000", "PO", "I", "E", "IB", "EB", "c1", "c2", "c3", "c4"],
        .invoke "submitED" ["1000", "B", "I", "P"], .invoke "acceptED" ["1000"]]).1
      "ACCEPTED_BY_IB" (by decide)⟩

/-- C39: submitED does not require the contract to exist.  For a contract id
with no contract row and no export document, and three non-empty payloads,
submitED([id, bl, inv, pl]) succeeds and leaves, in each of the three document
tables, the row of that id with the given payload and status
`SUBMITTED_BY_EB`; on the resulting store listContracts and listEDsByStatus
(for every status asked) return lists without that id, and getNumContracts
returns the count it returned before. -/
theorem submitED_needs_no_contract (po : POComponent) (caller : Caller) (s : Store)
    (id bl inv pl : String) (hc : GetRowBP s.BPTable ("BP", id) = none)
    (hd : ∀ k : DocKind, GetRow (k.table s) ("DOC", id) = none)
    (hbl : bl ≠ "") (hinv : inv ≠ "") (hpl : pl ≠ "") :
    (Invoke po caller s "submitED" [id, bl, inv, pl]).1 = .ok (.raw none) ∧
    (∀ k : DocKind,
      GetRow (k.table (Invoke po caller s "submitED" [id, bl, inv, pl]).2) ("DOC", id) =
        some ⟨"DOC", id, k.payload bl inv pl, "SUBMITTED_BY_EB"⟩) ∧
    (∃ l : List Contract,
      (Query po caller (Invoke po caller s "submitED" [id, bl, inv, pl]).2
        "listContracts" []).1 = .ok (.contracts l) ∧ ∀ c ∈ l, c.ContractID ≠ id) ∧
    (∀ st : String, ∃ l : List Contract,
      (Query po caller (Invoke po caller s "submitED" [id, bl, inv, pl]).2
        "listEDsByStatus" [st]).1 = .ok (.contracts l) ∧ ∀ c ∈ l, c.ContractID ≠ id) ∧
    (Query po caller (Invoke po caller s "submitED" [id, bl, inv, pl]).2
        "getNumContracts" []).1 = (Query po caller s "getNumContracts" []).1 := by
  have hbp : (Invoke po caller s "submitED" [id, bl, inv, pl]).2.BPTable = s.BPTable :=
    invoke_BPTable_of_ne po caller s (by decide) _
  have hrows : ∀ r ∈ GetRowsBP s.BPTable "BP", r.UID ≠ id := by
    intro r hr
    have hmem := (mem_getRowsBP.1 hr).1
    have htag : r.TypeTag = "BP" := (mem_getRowsBP.1 hr).2.1
    have hkey := getRowBP_none_iff.1 hc r hmem
    intro hid
    apply hkey
    simp [BPRow.key, htag, hid]
  refine ⟨?_, ?_, ?_, ?_, ?_⟩
  · rw [invoke_submitED_fresh_eq po caller hbl hinv hpl hd]
  · intro k
    rw [invoke_submitED_fresh_eq po caller hbl hinv hpl hd]
    have := getRow_append_new _ "DOC" id (k.payload bl inv pl) "SUBMITTED_BY_EB" (hd k)
    cases k <;> exact this
  · refine ⟨_, by rw [query_listContracts_eq], ?_⟩
    rw [hbp]
    intro c hcm
    obtain ⟨r, hr, rfl⟩ := List.mem_map.1 hcm
    have := hrows r hr
    split <;> exact this
  · intro st
    refine ⟨_, by rw [query_listEDsByStatus_eq], ?_⟩
    rw [hbp]
    intro c hcm
    obtain ⟨r, hr, rfl⟩ := List.mem_map.1 hcm
    exact hrows r (List.mem_of_mem_filter hr)
  · rw [query_getNumContracts, query_getNumContracts, hbp]

theorem submitED_needs_no_contract_witness :
    GetRowBP Store.empty.BPTable ("BP", "7") = none ∧
      (Invoke POComponent.idle Caller.anonymous Store.empty "submitED"
        ["7", "BLPDF", "INPDF", "PLPDF"]).1 = .ok (.raw none) ∧
      (Query POComponent.idle Caller.anonymous
        (Invoke POComponent.idle Caller.anonymous Store.empty "submitED"
          ["7", "BLPDF", "INPDF", "PLPDF"]).2 "getNumContracts" []).1 =
        (Query POComponent.idle Caller.anonymous Store.empty "getNumContracts" []).1 :=
  ⟨by decide,
    (submitED_needs_no_contract POComponent.idle Caller.anonymous Store.empty "7" "BLPDF"
      "INPDF" "PLPDF" (by decide) (fun k => by cases k <;> decide) (by decide) (by decide)
      (by decide)).1,
    (submitED_needs_no_contract POComponent.idle Caller.anonymous Store.empty "7" "BLPDF"
      "INPDF" "PLPDF" (by decide) (fun k => by cases k <;> decide) (by decide) (by decide)
      (by decide)).2.2.2.2⟩
/-! ## C35 -/

theorem updateAll_preserves_at {P : Store → Prop} (args : List String)
    (hupd : ∀ (k : DocKind) (s : Store), P s → P (k.UpdateStatus s args).2)
    (s : Store) (h : P s) : P (updateAll s args).2 := by
  rw [updateAll_eq]
  have h1 := hupd .BL s h
  generalize DocKind.BL.UpdateStatus s args = x1 at h1 ⊢
  rcases x1 with ⟨r1, s1⟩
  cases r1 with
  | error e => exact h1
  | ok v1 =>
    simp only
    have h2 := hupd .Invoice s1 h1
    generalize DocKind.Invoice.UpdateStatus s1 args = x2 at h2 ⊢
    rcases x2 with ⟨r2, s2⟩
    cases r2 with
    | error e => exact h2
    | ok v2 =>
      simp only
      have h3 := hupd .PL s2 h2
      generalize DocKind.PL.UpdateStatus s2 args = x3 at h3 ⊢
      rcases x3 with ⟨r3, s3⟩
      cases r3 with
      | error e => exact h3
      | ok v3 => exact h3

theorem invoke_preserves_at {P : Store → Prop} (f : String) (args : List String)
    (hsub : f = "submitED" → ∀ (k : DocKind) (u : Store) (id p : String) (rest : List String),
      args = id :: rest → P u → P (k.SubmitDoc u [id, p]).2)
    (hupd : f = "acceptED" ∨ f = "rejectED" → ∀ (u : Store) (a : List String),
      (a = args ∨ ∃ n, a = args ++ [n]) → P u → P (updateAll u a).2)
    (hbp : ∀ (s : Store) (t : List BPRow), P s → P { s with BPTable := t })
    (hpo : ∀ (s : Store) (t : List DocRow), P s → P { s with POTable := t })
    (po : POComponent) (caller : Caller) (s : Store) (h : P s) :
    P (Invoke po caller s f args).2 := by
  by_cases h0 : f = "initTrade"
  · subst h0
    by_cases hl : args.length = 10
    · obtain ⟨a0, a1, a2, a3, a4, a5, a6, a7, a8, a9, rfl⟩ := list_of_length_ten hl
      cases hg : GetRowBP s.BPTable ("BP", a0) with
      | some row => rw [invoke_initTrade_present po caller hg]; exact h
      | none =>
        rw [invoke_initTrade_absent po caller hg]
        exact hpo _ _ (hbp _ _ h)
    · rw [invoke_initTrade_arity po caller s hl]; exact h
  by_cases h1 : f = "updatePO"
  · subst h1
    by_cases hl : args.length = 2
    · match args, hl with
      | [id, p], _ =>
        simp only [Invoke, InvokeWith, guarded, accessControlFlag, String.reduceEq, if_true,
          Bool.false_eq_true, if_false, runPO]
        exact hpo _ _ h
    · rw [invoke_updatePO_arity po caller s hl]; exact h
  by_cases h2 : f = "submitED"
  · subst h2
    match args with
    | [] => exact h
    | [_] => exact h
    | [_, _] => exact h
    | [_, _, _] => exact h
    | id :: b :: q :: p :: rest =>
      have hB := fun u x => hsub rfl .BL u id x _ rfl
      have hI := fun u x => hsub rfl .Invoice u id x _ rfl
      have hP := fun u x => hsub rfl .PL u id x _ rfl
      simp only [DocKind.SubmitDoc] at hB hI hP
      simp only [Invoke, InvokeWith, guarded, accessControlFlag, String.reduceEq, if_true,
        Bool.false_eq_true, if_false]
      have hpl : ∀ (u : Store), P u →
          P (if p ≠ "" then
            match PL.SubmitDoc u [id, p] with
            | (.error err, stub) => ((.error err : Outcome), stub)
            | (.ok _, stub) => (.ok (.raw none), stub)
          else (.ok (.raw none), u)).2 := by
        intro u hu
        split
        · have := hP u p hu
          generalize PL.SubmitDoc u [id, p] = x at this ⊢
          rcases x with ⟨r, u2⟩
          cases r <;> exact this
        · exact hu
      have hinv : ∀ (u : Store), P u →
          P (if q ≠ "" then
            match Invoice.SubmitDoc u [id, q] with
            | (.error err, stub) => ((.error err : Outcome), stub)
            | (.ok _, stub) =>
              if p ≠ "" then
                match PL.SubmitDoc stub [id, p] with
                | (.error err, stub) => ((.error err : Outcome), stub)
                | (.ok _, stub) => (.ok (.raw none), stub)
              else (.ok (.raw none), stub)
          else
            if p ≠ "" then
              match PL.SubmitDoc u [id, p] with
              | (.error err, stub) => ((.error err : Outcome), stub)
              | (.ok _, stub) => (.ok (.raw none), stub)
            else (.ok (.raw none), u)).2 := by
        intro u hu
        split
        · have := hI u q hu
          generalize Invoice.SubmitDoc u [id, q] = x at this ⊢
          rcases x with ⟨r, u2⟩
          cases r with
          | error e => exact this
          | ok v => exact hpl u2 this
        · exact hpl u hu
      split
      · have := hB s b h
        generalize BL.SubmitDoc s [id, b] = x at this ⊢
        rcases x with ⟨r, u2⟩
        cases r with
        | error e => exact this
        | ok v => exact hinv u2 this
      · exact hinv s h
  by_cases h3 : f = "acceptED"
  · subst h3
    have hG := fun u a => DocKind.BL.getStatus_store u a
    simp only [DocKind.GetStatus] at hG
    simp only [Invoke, InvokeWith, guarded, accessControlFlag, String.reduceEq, if_true,
      Bool.false_eq_true, if_false]
    split
    · exact h
    · rename_i a0 rest
      have := hG s [a0]
      generalize BL.GetStatus s [a0] = x at this ⊢
      rcases x with ⟨r, u2⟩
      simp only at this
      subst this
      cases r with
      | error e => exact h
      | ok v =>
        simp only
        apply hupd (Or.inl rfl) _ _ _ h
        split_ifs
        · exact Or.inr ⟨_, rfl⟩
        · exact Or.inr ⟨_, rfl⟩
        · exact Or.inr ⟨_, rfl⟩
        · exact Or.inr ⟨_, rfl⟩
        · exact Or.inl rfl
  by_cases h4 : f = "rejectED"
  · subst h4
    simp only [Invoke, InvokeWith, guarded, accessControlFlag, String.reduceEq, if_true,
      Bool.false_eq_true, if_false]
    exact hupd (Or.inr rfl) _ _ (Or.inr ⟨_, rfl⟩) h
  simp only [Invoke, InvokeWith, h0, h1, h2, h3, h4, if_false]
  exact h
theorem getRow_append_other (t : List DocRow) (r : DocRow) {key : String × String}
    (h : key ≠ r.key) : GetRow (t ++ [r]) key = GetRow t key := by
  have h1 : (r.key == key) = false := by simpa using fun e => h e.symm
  unfold GetRow
  rw [List.find?_append]
  simp [h1]

theorem DocKind.submitDoc_statusOf_other (j k : DocKind) (s : Store) (id0 p id : String)
    (h : id0 ≠ id) : k.statusOf (j.SubmitDoc s [id0, p]).2 id = k.statusOf s id := by
  cases hg : GetRow (j.table s) ("DOC", id0) with
  | some row => rw [j.submitDoc_present p hg]
  | none =>
    rw [j.submitDoc_absent p hg]
    by_cases hjk : k = j
    · subst hjk
      rw [k.statusOf_setTable_self]
      unfold DocKind.statusOf
      rw [getRow_append_other]
      simpa [DocRow.key] using fun e => h e.symm
    · rw [DocKind.statusOf_setTable_ne hjk]

theorem updateAll_statusOf_other (s : Store) (args : List String) (id : String)
    (h : ∀ n, args ≠ [id, n]) (k : DocKind) :
    k.statusOf (updateAll s args).2 id = k.statusOf s id := by
  refine updateAll_preserves_at (P := fun u => k.statusOf u id = k.statusOf s id) args ?_ s rfl
  intro j u hu
  rcases DocKind.updateStatus_statusOf_step j k u args id with e | ⟨_, n, _, _, _, _, ha⟩
  · exact e.trans hu
  · exact absurd ha (h n)

theorem invoke_statusOf_other (po : POComponent) (caller : Caller) (s : Store) (f : String)
    (args : List String) (id : String) (h : args.head? ≠ some id) (k : DocKind) :
    k.statusOf (Invoke po caller s f args).2 id = k.statusOf s id := by
  refine invoke_preserves_at (P := fun u => k.statusOf u id = k.statusOf s id) f args
    ?_ ?_ ?_ ?_ po caller s rfl
  · rintro _ j u id0 p rest rfl hu
    have hne : id0 ≠ id := by
      rintro rfl
      exact h rfl
    exact (DocKind.submitDoc_statusOf_other j k u id0 p id hne).trans hu
  · rintro _ u a ha hu
    refine (updateAll_statusOf_other u a id ?_ k).trans hu
    rintro n rfl
    rcases ha with ha | ⟨m, ha⟩
    · rw [← ha] at h
      exact h rfl
    · match args, ha with
      | [], ha => simp at ha
      | [x], ha =>
        simp only [List.singleton_append, List.cons.injEq, and_true] at ha
        exact h (by rw [ha.1]; rfl)
      | _ :: _ :: _, ha => simp at ha
  · intro u t hu
    cases k <;> exact hu
  · intro u t hu
    cases k <;> exact hu

theorem lockstep_congr {s u : Store} {id : String}
    (h : ∀ k : DocKind, k.statusOf u id = k.statusOf s id) (hs : Lockstep s id) :
    Lockstep u id := by
  rcases hs with hn | ⟨c, hb, hi, hp⟩
  · exact Or.inl fun k => (h k).trans (hn k)
  · exact Or.inr ⟨c, (h .BL).trans hb, (h .Invoice).trans hi, (h .PL).trans hp⟩

theorem getRow_none_of_statusOf {k : DocKind} {s : Store} {id : String}
    (h : k.statusOf s id = none) : GetRow (k.table s) ("DOC", id) = none := by
  unfold DocKind.statusOf at h
  cases hg : GetRow (k.table s) ("DOC", id) with
  | none => rfl
  | some row => rw [hg] at h; cases h

theorem updateAll_absent {s : Store} {id : String}
    (h : ∀ k : DocKind, GetRow (k.table s) ("DOC", id) = none) (n : String) :
    updateAll s [id, n] = (.ok (.raw none), s) := by
  rw [updateAll_eq, DocKind.BL.updateStatus_absent _ (h .BL)]
  simp only
  rw [DocKind.Invoice.updateStatus_absent _ (h .Invoice)]
  simp only
  rw [DocKind.PL.updateStatus_absent _ (h .PL)]

theorem updateAll_lockstep (s : Store) (args : List String) (id : String)
    (h : Lockstep s id) : Lockstep (updateAll s args).2 id := by
  by_cases ha : ∃ n, args = [id, n]
  · obtain ⟨n, rfl⟩ := ha
    rcases h with hn | ⟨c, hc⟩
    · rw [updateAll_absent (fun k => getRow_none_of_statusOf (hn k))]
      exact Or.inl hn
    · by_cases hm : (c, n) ∈ legalEdges
      · exact Or.inr ⟨n, (updateAll_legal hc hm).2⟩
      · rw [updateAll_eq, DocKind.BL.updateStatus_illegal hc.1 hm]
        exact Or.inr ⟨c, hc⟩
  · exact lockstep_congr (updateAll_statusOf_other s args id (fun n e => ha ⟨n, e⟩)) h

theorem invoke_submitED_rest (po : POComponent) (caller : Caller) (s : Store)
    (id b q p : String) (rest : List String) :
    Invoke po caller s "submitED" (id :: b :: q :: p :: rest) =
      Invoke po caller s "submitED" [id, b, q, p] := by
  simp only [Invoke, InvokeWith, guarded, accessControlFlag, String.reduceEq, if_true,
    Bool.false_eq_true, if_false]

theorem invoke_submitED_bl_present (po : POComponent) (caller : Caller) {s : Store}
    {id b : String} (q p : String) (hb : b ≠ "") {row : DocRow}
    (h : GetRow (DocKind.BL.table s) ("DOC", id) = some row) :
    Invoke po caller s "submitED" [id, b, q, p] = (.error "Document already exists.", s) := by
  have e := DocKind.BL.submitDoc_present b h
  simp only [DocKind.SubmitDoc] at e
  simp only [Invoke, InvokeWith, guarded, accessControlFlag, String.reduceEq, if_true,
    Bool.false_eq_true, if_false, hb, ne_eq, not_false_eq_true, e]

theorem invoke_lockstep (po : POComponent) (caller : Caller) (s : Store) (f : String)
    (args : List String) (id : String) (hf : f = "submitED" → ThreePayloads args)
    (h : Lockstep s id) : Lockstep (Invoke po caller s f args).2 id := by
  by_cases h2 : f = "submitED"
  · subst h2
    have ht := hf rfl
    match args, ht with
    | id0 :: b :: q :: p :: rest, ht =>
      obtain ⟨hb, hq, hp⟩ := ht
      by_cases hid : id0 = id
      · subst hid
        rw [invoke_submitED_rest]
        rcases h with hn | ⟨c, hc⟩
        · exact Or.inr ⟨_, (invoke_submitED_fresh po caller hb hq hp
            (fun k => getRow_none_of_statusOf (hn k))).2⟩
        · obtain ⟨row, hg, _⟩ := DocKind.statusOf_some hc.1
          rw [invoke_submitED_bl_present po caller q p hb hg]
          exact Or.inr ⟨c, hc⟩
      · refine lockstep_congr (fun k => invoke_statusOf_other po caller s _ _ id ?_ k) h
        simpa using hid
  · refine invoke_preserves_at (P := fun u => Lockstep u id) f args ?_ ?_ ?_ ?_ po caller s h
    · intro e; exact absurd e h2
    · intro _ u a _ hu
      exact updateAll_lockstep u a id hu
    · intro u t hu
      exact lockstep_congr (s := u) (fun k => by cases k <;> rfl) hu
    · intro u t hu
      exact lockstep_congr (s := u) (fun k => by cases k <;> rfl) hu

theorem runCommands_lockstep (po : POComponent) (caller : Caller) (id : String)
    (cmds : List Command) :
    ∀ s : Store, (∀ c ∈ cmds, c.1 = "submitED" → ThreePayloads c.2) → Lockstep s id →
      Lockstep (runCommands po caller s cmds) id := by
  induction cmds with
  | nil => intro s _ h; exact h
  | cons c cs ih =>
    intro s hc h
    rw [runCommands]
    apply ih _ (fun x hx => hc x (List.mem_cons_of_mem _ hx))
    exact invoke_lockstep po caller s c.1 c.2 id (hc c (List.mem_cons_self _ _)) h

/-- C35: restricted lockstep invariant.  For every contract id the predicate
"none of the three export documents exists, or all three exist with the same
status" is kept by every acceptED and rejectED call, whatever its arguments and
whether it succeeds or fails, and by every submitED call that carries three
non-empty payloads.  Hence after any sequence of commands from the empty store
in which every submitED carries three non-empty payloads, the predicate holds
for every contract id. -/
theorem lockstep_kept_by_full_submissions (po : POComponent) (caller : Caller) :
    (∀ (s : Store) (id f : String) (args : List String), Lockstep s id →
      (f = "acceptED" ∨ f = "rejectED" ∨ (f = "submitED" ∧ ThreePayloads args)) →
        Lockstep (Invoke po caller s f args).2 id) ∧
    (∀ cmds : List Command, (∀ c ∈ cmds, c.1 = "submitED" → ThreePayloads c.2) →
      ∀ id : String, Lockstep (runCommands po caller Store.empty cmds) id) := by
  refine ⟨?_, ?_⟩
  · intro s id f args h hf
    apply invoke_lockstep po caller s f args id _ h
    intro e
    rcases hf with rfl | rfl | ⟨_, ht⟩
    · exact absurd e (by decide)
    · exact absurd e (by decide)
    · exact ht
  · intro cmds hc id
    exact runCommands_lockstep po caller id cmds _ hc (Or.inl fun k => by cases k <;> rfl)

theorem lockstep_kept_by_full_submissions_witness :
    Lockstep Store.submitted "1000" ∧
      Lockstep (Invoke POComponent.idle Caller.anonymous Store.submitted "acceptED"
        ["1000", "REJECTED_BY_IB"]).2 "1000" ∧
      Lockstep
        (runCommands POComponent.idle Caller.anonymous Store.empty
          [("submitED", ["1000", "B", "I", "P"]), ("acceptED", ["1000"]),
            ("submitED", ["1000", "B2", "I2", "P2"]), ("rejectED", ["1000"])]) "1000" :=
  ⟨Or.inr ⟨"SUBMITTED_BY_EB", by decide⟩,
    (lockstep_kept_by_full_submissions POComponent.idle Caller.anonymous).1 Store.submitted
      "1000" "acceptED" ["1000", "REJECTED_BY_IB"] (Or.inr ⟨"SUBMITTED_BY_EB", by decide⟩)
      (Or.inl rfl),
    (lockstep_kept_by_full_submissions POComponent.idle Caller.anonymous).2
      [("submitED", ["1000", "B", "I", "P"]), ("acceptED", ["1000"]),
        ("submitED", ["1000", "B2", "I2", "P2"]), ("rejectED", ["1000"])]
      (by decide) "1000"⟩

/-! ## `acceptED` and rejection -/

theorem invoke_acceptED_args (po : POComponent) (caller : Caller) (stub : Store)
    (id : String) (rest : List String) :
    Invoke po caller stub "acceptED" (id :: rest) =
      updateAll stub
        (if bytesToString (DocKind.BL.statusOf stub id) = "SUBMITTED_BY_EB" then
          (id :: rest) ++ ["ACCEPTED_BY_IB"]
        else if bytesToString (DocKind.BL.statusOf stub id) = "ACCEPTED_BY_IB" then
          (id :: rest) ++ ["PAYMENT_INITIATED"]
        else if bytesToString (DocKind.BL.statusOf stub id) = "PAYMENT_INITIATED" then
          (id :: rest) ++ ["PAYMENT_INPROGRESS"]
        else if bytesToString (DocKind.BL.statusOf stub id) = "PAYMENT_INPROGRESS" then
          (id :: rest) ++ ["PAYMENT_COMPLETED"]
        else id :: rest) := by
  have h := DocKind.BL.statusOf_getStatus stub id
  simp only [DocKind.GetStatus] at h
  simp [Invoke, InvokeWith, guarded, accessControlFlag, h]

theorem invoke_acceptED_noNewlyRejected (po : POComponent) (caller : Caller) (stub : Store)
    (args : List String) (hargs : ∀ id, args ≠ [id, "REJECTED_BY_IB"]) :
    NoNewlyRejected stub (Invoke po caller stub "acceptED" args).2 := by
  match args, hargs with
  | [], _ =>
    have e : Invoke po caller stub "acceptED" [] = (.indexOutOfRange, stub) := by
      simp [Invoke, InvokeWith, guarded, accessControlFlag]
    rw [e]
    exact noNewlyRejected_refl stub
  | id :: rest, hargs =>
    rw [invoke_acceptED_args]
    apply updateAll_noNewlyRejected
    intro id2 n h
    split_ifs at h
    · cases rest with
      | nil => simp at h; rw [← h.2]; decide
      | cons a rs => simp at h
    · cases rest with
      | nil => simp at h; rw [← h.2]; decide
      | cons a rs => simp at h
    · cases rest with
      | nil => simp at h; rw [← h.2]; decide
      | cons a rs => simp at h
    · cases rest with
      | nil => simp at h; rw [← h.2]; decide
      | cons a rs => simp at h
    · rintro rfl
      exact hargs id2 h

/-- C10, the code at the failing input.  When the bill of lading, the invoice and
the packing list of `id` all exist with the same status `s`, one of
`SUBMITTED_BY_EB`, `ACCEPTED_BY_IB`, `PAYMENT_INITIATED`, `PAYMENT_INPROGRESS`,
then `acceptED([id])` succeeds and afterwards all three have status `next(s)`.
On any store `acceptED` with any argument list other than an id followed by
"REJECTED_BY_IB" moves no document to `REJECTED_BY_IB`.  `acceptED` does not
check its argument count: after `submitED(["1000", "", "INPDF", "PLPDF"])` on the
empty store, `acceptED(["1000", "REJECTED_BY_IB"])` finds no bill of lading, hands
its second argument on as the target status, succeeds, and moves the invoice and
the packing list to `REJECTED_BY_IB`. -/
theorem acceptED_advances_in_lockstep (po : POComponent) (caller : Caller) (stub : Store)
    (id : String) :
    (∀ s, AllAt stub id s →
      s ∈ ["SUBMITTED_BY_EB", "ACCEPTED_BY_IB", "PAYMENT_INITIATED", "PAYMENT_INPROGRESS"] →
      (Invoke po caller stub "acceptED" [id]).1 = .ok (.raw none) ∧
      ∀ k : DocKind,
        (k.GetStatus (Invoke po caller stub "acceptED" [id]).2 [id]).1 =
          .ok (some (nextStatus s))) ∧
    (∀ args : List String, (∀ x, args ≠ [x, "REJECTED_BY_IB"]) →
      ∀ (j : DocKind) (key : String × String) (row2 : DocRow),
        GetRow (j.table (Invoke po caller stub "acceptED" args).2) key = some row2 →
        row2.Status = "REJECTED_BY_IB" →
        ∃ row, GetRow (j.table stub) key = some row ∧ row.Status = "REJECTED_BY_IB") ∧
    (runCommands po caller Store.empty [("submitED", ["1000", "", "INPDF", "PLPDF"])] =
        { Store.submitted with BLTable := [] } ∧
      Invoke po caller { Store.submitted with BLTable := [] } "acceptED"
          ["1000", "REJECTED_BY_IB"] =
        (.ok (.raw none),
          { Store.submitted with
            BLTable := []
            invoiceTable := [⟨"DOC", "1000", "INPDF", "REJECTED_BY_IB"⟩]
            PLTable := [⟨"DOC", "1000", "PLPDF", "REJECTED_BY_IB"⟩] })) := by
  refine ⟨?_, ?_, ?_, ?_⟩
  · intro s h hs
    obtain ⟨hok, hall⟩ := acceptED_of_allAt po caller h hs
    exact ⟨hok, allAt_getStatus hall⟩
  · intro args hargs
    exact invoke_acceptED_noNewlyRejected po caller stub args hargs
  · rw [runCommands_independent_of_context po caller]
    · decide
    · intro c hc
      simp only [List.mem_singleton] at hc
      subst hc
      exact ⟨by decide, by decide⟩
  · rw [invoke_independent_of_context po caller _ (by decide) (by decide)]
    decide

/-- Witness for C10: contract "1000", just submitted, is accepted. -/
theorem acceptED_advances_in_lockstep_witness :
    AllAt Store.submitted "1000" "SUBMITTED_BY_EB" ∧
      ∀ k : DocKind,
        (k.GetStatus
          (Invoke POComponent.idle Caller.anonymous Store.submitted "acceptED" ["1000"]).2
          ["1000"]).1 = .ok (some (nextStatus "SUBMITTED_BY_EB")) :=
  ⟨by decide,
    ((acceptED_advances_in_lockstep POComponent.idle Caller.anonymous Store.submitted
      "1000").1 "SUBMITTED_BY_EB" (by decide) (by decide)).2⟩

end TradeFinance
